import Mathlib

/-! # Triangle-mesh loading (`mesh_io.cc`, `triangle_mesh.cc`)

A shallow embedding of the mesh readers and of the attribute synthesis.

Conventions of the embedding.

* `float` and `double` are idealised as one linearly ordered field `F`; the libm
  functions the code calls are the fields of `LibM F`.  A NaN is never a value of
  `F`: the one place where the source tests for it (`angle == angle`) is modelled
  by an `Option`.
* `std::vector<T>` is `List T`.  `operator[]` outside the bounds is undefined
  behaviour in the source; here a read outside the bounds yields `0` and a write
  outside the bounds is dropped.  The theorems about arbitrary meshes carry the
  in-range hypotheses under which the two agree.
* `int` values are `Int`; conversions to `size_t` are explicit.
* A `resize` that is asked for more than `max_size()` elements throws
  `std::length_error`; running out of memory is not modelled.
-/

set_option autoImplicit false

namespace data_representation

/-! ## Scalars and `glm::vec3` -/

/-- The `<math.h>` functions and the constant `M_PI` used by `mesh_io.cc`. -/
structure LibM (F : Type) where
  /-- The function `sqrt`. -/
  sqrt : F → F
  /-- The function `acos`. -/
  acos : F → F
  /-- The function `asin`. -/
  asin : F → F
  /-- The function `atan2`, first argument `y`, second `x`. -/
  atan2 : F → F → F
  /-- The function `cosf`. -/
  cos : F → F
  /-- The function `sinf`. -/
  sin : F → F
  /-- The constant `M_PI`. -/
  pi : F

/-- The representation of `float`: the value of a 32-bit pattern and
`std::numeric_limits<float>::max()`. -/
structure FloatFormat (F : Type) where
  /-- The `float` whose object representation is the given 32-bit pattern. -/
  ofBits : Nat → F
  /-- The constant `std::numeric_limits<float>::max()`. -/
  max : F

/-- The type `glm::vec3`. -/
structure vec3 (F : Type) where
  /-- First component. -/
  x : F
  /-- Second component. -/
  y : F
  /-- Third component. -/
  z : F

namespace vec3

variable {F : Type} [LinearOrderedField F]

/-- The vector `glm::vec3(0, 0, 0)`. -/
def zero : vec3 F := ⟨0, 0, 0⟩

/-- Componentwise `operator-`. -/
def sub (a b : vec3 F) : vec3 F := ⟨a.x - b.x, a.y - b.y, a.z - b.z⟩

/-- The function `glm::cross`. -/
def cross (a b : vec3 F) : vec3 F :=
  ⟨a.y * b.z - b.y * a.z, a.z * b.x - b.z * a.x, a.x * b.y - b.x * a.y⟩

/-- The function `glm::dot`. -/
def dot (a b : vec3 F) : F := a.x * b.x + a.y * b.y + a.z * b.z

/-- The function `glm::length`. -/
def length (lm : LibM F) (a : vec3 F) : F := lm.sqrt (dot a a)

/-- The function `glm::normalize`: it returns the scaled copy of its argument
and leaves the argument itself untouched. -/
def normalize (lm : LibM F) (a : vec3 F) : vec3 F :=
  let s := 1 / lm.sqrt (dot a a)
  ⟨a.x * s, a.y * s, a.z * s⟩

/-- Component access `v[j]`. -/
def get (a : vec3 F) (j : Nat) : F :=
  match j with
  | 0 => a.x
  | 1 => a.y
  | _ => a.z

end vec3

/-- An expression statement: the value of the expression is computed and
dropped, execution goes on with the rest. -/
def dropResult {α β : Type} (_ : α) (rest : β) : β := rest

/-- The method `std::vector::resize(n, v)`: cut to `n` elements or pad with `v`. -/
def resize {α : Type} (l : List α) (n : Nat) (v : α) : List α :=
  l.take n ++ List.replicate (n - l.length) v

/-- The values taken by `i` in `for (size_t i = 0; i < n; i += 3)`. -/
def strideThree (n : Nat) : List Nat := (List.range ((n + 2) / 3)).map (fun t => 3 * t)

section Synthesis

variable {F : Type} [LinearOrderedField F]

/-! ## `ComputeVertexNormals` -/

/-- The vector `glm::vec3(vertices[f * 3], vertices[f * 3 + 1], vertices[f * 3 + 2])`
for an entry `f` of the index array. -/
def vertexAt (vertices : List F) (f : Int) : vec3 F :=
  ⟨vertices.getD (f * 3).toNat 0, vertices.getD (f * 3 + 1).toNat 0,
   vertices.getD (f * 3 + 2).toNat 0⟩

/-- The cross product of the two edges leaving the first corner of the triangle
that starts at position `i` of the index array. -/
def rawFaceNormal (vertices : List F) (faces : List Int) (i : Nat) : vec3 F :=
  let v1 := vertexAt vertices (faces.getD i 0)
  let v2 := vertexAt vertices (faces.getD (i + 1) 0)
  let v3 := vertexAt vertices (faces.getD (i + 2) 0)
  let v1v2 := v2.sub v1
  let v1v3 := v3.sub v1
  v1v2.cross v1v3

/-- The face normal as stored by the first loop: zero for a degenerate face; for
the others the statement `glm::normalize(normal);` drops its result, so the
cross product itself is stored. -/
def storedFaceNormal (lm : LibM F) (vertices : List F) (faces : List Int) (i : Nat) : vec3 F :=
  let normal := rawFaceNormal vertices faces i
  if vec3.length lm normal < 1 / 100000 then vec3.zero
  else dropResult (vec3.normalize lm normal) normal

/-- Body of the first loop of `ComputeVertexNormals`. -/
def faceNormalStep (lm : LibM F) (vertices : List F) (faces : List Int)
    (face_normals : List F) (i : Nat) : List F :=
  let normal := storedFaceNormal lm vertices faces i
  ((face_normals.set i (normal.get 0)).set (i + 1) (normal.get 1)).set (i + 2) (normal.get 2)

/-- The first loop of `ComputeVertexNormals`, started on
`std::vector<float> face_normals(kFaces, 0)`. -/
def computeFaceNormals (lm : LibM F) (vertices : List F) (faces : List Int) : List F :=
  (strideThree faces.length).foldl (faceNormalStep lm vertices faces)
    (List.replicate faces.length 0)

/-- The value of `acos(dot(v1v2, v1v3) / (length(v1v2) * length(v1v3)))`, or
`none` when it is a NaN: the quotient has a zero denominator, or the argument
of `acos` lies outside `[-1, 1]`. -/
def cornerAngle (lm : LibM F) (v1v2 v1v3 : vec3 F) : Option F :=
  let den := vec3.length lm v1v2 * vec3.length lm v1v3
  if den = 0 then none
  else
    let c := vec3.dot v1v2 v1v3 / den
    if c < -1 ∨ 1 < c then none else some (lm.acos c)

/-- The angle at corner `j` of the triangle that starts at position `i`. -/
def angleAt (lm : LibM F) (vertices : List F) (faces : List Int) (i j : Nat) : Option F :=
  let v1 := vertexAt vertices (faces.getD (i + j) 0)
  let v2 := vertexAt vertices (faces.getD (i + (j + 1) % 3) 0)
  let v3 := vertexAt vertices (faces.getD (i + (j + 2) % 3) 0)
  cornerAngle lm (v2.sub v1) (v3.sub v1)

/-- The statement `(*normals)[idx * 3 + k] += face_normals[i + k] * angle`. -/
def addAt (normals : List F) (p : Nat) (d : F) : List F :=
  normals.set p (normals.getD p 0 + d)

/-- Body of the inner loop over the corners `j` of the second loop. -/
def accumulateCorner (lm : LibM F) (vertices : List F) (faces : List Int)
    (face_normals : List F) (i : Nat) (normals : List F) (j : Nat) : List F :=
  let idx := (faces.getD (i + j) 0).toNat
  match angleAt lm vertices faces i j with
  | some angle =>
    (List.range 3).foldl
      (fun ns k => addAt ns (idx * 3 + k) (face_normals.getD (i + k) 0 * angle)) normals
  | none => normals

/-- Body of the second loop of `ComputeVertexNormals`. -/
def accumulateFace (lm : LibM F) (vertices : List F) (faces : List Int)
    (face_normals : List F) (normals : List F) (i : Nat) : List F :=
  (List.range 3).foldl (accumulateCorner lm vertices faces face_normals i) normals

/-- The second loop of `ComputeVertexNormals`, after `normals->resize(kVertices, 0)`. -/
def accumulateNormals (lm : LibM F) (vertices : List F) (faces : List Int)
    (normals : List F) : List F :=
  (strideThree faces.length).foldl
    (accumulateFace lm vertices faces (computeFaceNormals lm vertices faces))
    (resize normals vertices.length 0)

/-- The vector written back by the third loop: the statement
`glm::normalize(normal);` drops its result, so a vector of positive length is
written back as it is, any other becomes zero. -/
def finalNormal (lm : LibM F) (normal : vec3 F) : vec3 F :=
  if vec3.length lm normal > 0 then dropResult (vec3.normalize lm normal) normal
  else vec3.zero

/-- Body of the third loop of `ComputeVertexNormals`. -/
def finalizeStep (lm : LibM F) (normals : List F) (i : Nat) : List F :=
  let normal : vec3 F := ⟨normals.getD i 0, normals.getD (i + 1) 0, normals.getD (i + 2) 0⟩
  let normal := finalNormal lm normal
  ((normals.set i (normal.get 0)).set (i + 1) (normal.get 1)).set (i + 2) (normal.get 2)

/-- The function `ComputeVertexNormals`; the last argument is the content of
`*normals` at the call, the result its content at the return. -/
def ComputeVertexNormals (lm : LibM F) (vertices : List F) (faces : List Int)
    (normals : List F) : List F :=
  let acc := accumulateNormals lm vertices faces normals
  (strideThree acc.length).foldl (finalizeStep lm) acc

/-! ## `ComputeTexCoords` and `ComputeBoundingBox` -/

/-- Body of the loop of `ComputeTexCoords`. -/
def texCoordStep (lm : LibM F) (vertices : List F) (texCoords : List F) (i : Nat) : List F :=
  let longitudeRadians := lm.atan2 (vertices.getD (i * 3 + 1) 0) (vertices.getD (i * 3 + 0) 0)
  let latitudeRadians := lm.asin (vertices.getD (i * 3 + 2) 0)
  let s := longitudeRadians / (2 * lm.pi) + 1 / 2
  let t := latitudeRadians / lm.pi + 1 / 2
  (texCoords.set (i * 2) s).set (i * 2 + 1) t

/-- The function `ComputeTexCoords`; the last argument is the content of
`*texCoords` at the call, the result its content at the return. -/
def ComputeTexCoords (lm : LibM F) (vertices : List F) (texCoords : List F) : List F :=
  let kVertices := vertices.length / 3
  (List.range (vertices.length / 3)).foldl (texCoordStep lm vertices)
    (resize texCoords (kVertices * 2) 0)

/-- The function `std::min`. -/
def stdMin (a b : F) : F := if b < a then b else a

/-- The function `std::max`. -/
def stdMax (a b : F) : F := if a < b then b else a

/-- The class `TriangleMesh`. -/
structure TriangleMesh (F : Type) where
  /-- Flattened positions. -/
  vertices_ : List F
  /-- Flattened index triples. -/
  faces_ : List Int
  /-- Flattened normals. -/
  normals_ : List F
  /-- Flattened texture coordinates. -/
  texCoords_ : List F
  /-- Path of the diffuse texture. -/
  diffuseMap_ : String
  /-- The minimum point of the bounding box. -/
  min_ : vec3 F
  /-- The maximum point of the bounding box. -/
  max_ : vec3 F

/-- The method `TriangleMesh::Clear`. -/
def TriangleMesh.Clear (ff : FloatFormat F) (mesh : TriangleMesh F) : TriangleMesh F :=
  { mesh with
    vertices_ := [], faces_ := [], normals_ := [], texCoords_ := [],
    min_ := ⟨ff.max, ff.max, ff.max⟩,
    max_ := ⟨-ff.max, -ff.max, -ff.max⟩ }

/-- The constructor `TriangleMesh::TriangleMesh`, which calls `Clear`. -/
def TriangleMesh.new (ff : FloatFormat F) : TriangleMesh F :=
  TriangleMesh.Clear ff ⟨[], [], [], [], "", vec3.zero, vec3.zero⟩

/-- Body of the loop of `ComputeBoundingBox`. -/
def boundingBoxStep (vertices : List F) (mesh : TriangleMesh F) (i : Nat) : TriangleMesh F :=
  { mesh with
    min_ := ⟨stdMin mesh.min_.x (vertices.getD (i * 3) 0),
             stdMin mesh.min_.y (vertices.getD (i * 3 + 1) 0),
             stdMin mesh.min_.z (vertices.getD (i * 3 + 2) 0)⟩,
    max_ := ⟨stdMax mesh.max_.x (vertices.getD (i * 3) 0),
             stdMax mesh.max_.y (vertices.getD (i * 3 + 1) 0),
             stdMax mesh.max_.z (vertices.getD (i * 3 + 2) 0)⟩ }

/-- The function `ComputeBoundingBox`. -/
def ComputeBoundingBox (vertices : List F) (mesh : TriangleMesh F) : TriangleMesh F :=
  (List.range (vertices.length / 3)).foldl (boundingBoxStep vertices) mesh

end Synthesis

/-! ## Outcomes, streams and C strings -/

/-- How a call of a function of the program ends. -/
inductive Run (α : Type) where
  /-- The function returned to its caller. -/
  | done (a : α)
  /-- The process ended in `exit(code)`. -/
  | exited (code : Int)
  /-- The process was aborted by a failed `assert`. -/
  | assertFailed
  /-- The exception `std::length_error` left the function. -/
  | lengthError
  /-- The bound given to a loop of the model was used up before the loop ended. -/
  | outOfFuel

/-- Sequencing of calls. -/
def Run.bind {α β : Type} (r : Run α) (f : α → Run β) : Run β :=
  match r with
  | .done a => f a
  | .exited c => .exited c
  | .assertFailed => .assertFailed
  | .lengthError => .lengthError
  | .outOfFuel => .outOfFuel

/-- A `for` loop over the given values of the loop variable whose body may end
the process. -/
def forRun {σ ι : Type} (body : σ → ι → Run σ) : List ι → σ → Run σ
  | [], s => .done s
  | i :: is, s => (body s i).bind (forRun body is)

/-- An opened `std::ifstream`: the bytes not yet read, and whether `good()` holds. -/
structure ifstream where
  /-- The unread bytes of the file. -/
  bytes : List Nat
  /-- No one of `eofbit`, `failbit`, `badbit` is set. -/
  good : Bool

/-- The bytes of a character sequence. -/
def cstr (s : List Char) : List Nat := s.map Char.toNat

/-- Extraction of `getline`: the characters stored, and the stream afterwards.
The tests are made in the order of the standard: end of file, the delimiter
(extracted and not stored), no room left (`failbit`). -/
def getlineAux : List Nat → Nat → List Nat × ifstream
  | [], _ => ([], ⟨[], false⟩)
  | c :: cs, room =>
    if c = 10 then ([], ⟨cs, true⟩)
    else
      match room with
      | 0 => ([], ⟨c :: cs, false⟩)
      | r + 1 => ((c :: (getlineAux cs r).1), (getlineAux cs r).2)

/-- The call `fin->getline(line, n)` for `n > 0`: the stream afterwards and the
content of the array `line`, of which only the stored characters and the
terminating zero are overwritten.  On a stream that is not `good()` nothing is
extracted and the array receives the empty string. -/
def getline (fin : ifstream) (line : List Nat) (n : Nat) : ifstream × List Nat :=
  if fin.good then
    let r := getlineAux fin.bytes (n - 1)
    (r.2, r.1 ++ [0] ++ line.drop (r.1.length + 1))
  else (fin, [0] ++ line.drop 1)

/-- The function `strncmp`; a character array that ends is read as ending in a zero. -/
def strncmp : List Nat → List Nat → Nat → Int
  | _, _, 0 => 0
  | a, b, n + 1 =>
    if a.headD 0 ≠ b.headD 0 then (a.headD 0 : Int) - (b.headD 0 : Int)
    else if a.headD 0 = 0 then 0
    else strncmp a.tail b.tail n

/-- The function `isspace` in the C locale. -/
def isspace (c : Nat) : Bool := c == 32 || (9 ≤ c && c ≤ 13)

/-- The function `isdigit`. -/
def isdigit (c : Nat) : Bool := 48 ≤ c && c ≤ 57

/-- The number spelled by the leading decimal digits, continuing from `acc`. -/
def digitsValue : List Nat → Nat → Nat
  | [], acc => acc
  | c :: cs, acc => if isdigit c then digitsValue cs (acc * 10 + (c - 48)) else acc

/-- Conversion of an integer to `int`: two's complement on 32 bits. -/
def toInt32 (v : Int) : Int := (v + 2147483648) % 4294967296 - 2147483648

/-- The function `atoi`, that is `(int) strtol(s, NULL, 10)`: white space, an
optional sign, decimal digits; `strtol` saturates at the bounds of `long`
(64 bits). -/
def atoi (s : List Nat) : Int :=
  let s := s.dropWhile isspace
  let v : Int :=
    match s with
    | 45 :: t => -(digitsValue t 0 : Int)
    | 43 :: t => (digitsValue t 0 : Int)
    | _ => (digitsValue s 0 : Int)
  toInt32 (max (-9223372036854775808) (min v 9223372036854775807))

/-- The call `fin->read(p, n)`: the stream afterwards and the `n` bytes at `p`,
which held `old` before.  A stream that is not `good()` stores nothing; a file
that ends early stores what is left of it. -/
def read (fin : ifstream) (n : Nat) (old : List Nat) : ifstream × List Nat :=
  if fin.good then
    if n ≤ fin.bytes.length then (⟨fin.bytes.drop n, true⟩, fin.bytes.take n)
    else (⟨[], false⟩, fin.bytes ++ old.drop fin.bytes.length)
  else (fin, old)

/-- The 32-bit pattern held by four bytes in memory (little endian). -/
def le32 (b : List Nat) : Nat :=
  b.getD 0 0 + 256 * b.getD 1 0 + 65536 * b.getD 2 0 + 16777216 * b.getD 3 0

/-- The conversion `static_cast<size_t>(v)` of an `int` (64-bit `size_t`). -/
def toSizeT (v : Int) : Nat := (v % 18446744073709551616).toNat

/-- The value `max_size()` of a vector of 4-byte elements. -/
def maxSize : Nat := 2305843009213693951

/-- The call `v.resize(static_cast<size_t>(count) * 3)`: the product is taken
in `size_t`, and a size above `max_size()` throws `std::length_error`. -/
def resizeTimes3 {α : Type} (l : List α) (count : Int) (v : α) : Run (List α) :=
  let n := (toSizeT count * 3) % 18446744073709551616
  if n > maxSize then .lengthError else .done (resize l n v)

/-- The call `v.resize(e)` for an expression `e` of type `size_t` whose value
without wrap-around is `n`: the size asked for is `n` modulo `2^64`, and a size
above `max_size()` throws `std::length_error`. -/
def resizeChecked {α : Type} (l : List α) (n : Nat) (v : α) : Run (List α) :=
  if n % 18446744073709551616 > maxSize then .lengthError
  else .done (resize l (n % 18446744073709551616) v)

/-- The template `Add3Items`. -/
def Add3Items {α : Type} (i1 i2 i3 : α) (index : Nat) (vector : List α) : List α :=
  ((vector.set index i1).set (index + 1) i2).set (index + 2) i3

/-! ## The PLY reader -/

/-- What the source leaves open: whether `assert` is compiled out, and the
bytes found in local variables that are declared without an initialiser. -/
structure Env where
  /-- The macro `NDEBUG` is defined, so `assert` does nothing. -/
  ndebug : Bool
  /-- Content of `char line[100]` at its declaration. -/
  line0 : List Nat
  /-- Content of a `float` or `int` local at its declaration. -/
  word0 : List Nat
  /-- Content of `unsigned char vertex_per_face` at its declaration. -/
  byte0 : List Nat

/-- The variables `ReadPlyHeader` works on: the stream, its array `line`, the
counts behind the two `int` pointers, and the global `hasNormals`. -/
structure PlyHeader where
  /-- The stream. -/
  fin : ifstream
  /-- The array `line`. -/
  line : List Nat
  /-- The value of `*vertices`. -/
  vertices : Int
  /-- The value of `*faces`. -/
  faces : Int
  /-- The global `hasNormals`. -/
  hasNormals : Bool

/-- The `while` loop of `ReadPlyHeader`, run for at most `fuel` tests of its
condition; `none` when that bound is used up. -/
def headerLoop : Nat → PlyHeader → Option PlyHeader
  | 0, _ => none
  | fuel + 1, st =>
    if strncmp st.line (cstr ['e', 'n', 'd', '_', 'h', 'e', 'a', 'd', 'e', 'r']) 10 ≠ 0 then
      let vertices :=
        if strncmp st.line
            (cstr ['e', 'l', 'e', 'm', 'e', 'n', 't', ' ', 'v', 'e', 'r', 't', 'e', 'x']) 14 = 0
        then atoi (st.line.drop 15) else st.vertices
      let r := getline st.fin st.line 100
      let faces :=
        if strncmp r.2 (cstr ['e', 'l', 'e', 'm', 'e', 'n', 't', ' ', 'f', 'a', 'c', 'e']) 12 = 0
        then atoi (r.2.drop 13) else st.faces
      let hasNormals :=
        if strncmp r.2
            (cstr ['p', 'r', 'o', 'p', 'e', 'r', 't', 'y', ' ', 'f', 'l', 'o', 'a', 't', ' ', 'n'])
            16 = 0
        then true else st.hasNormals
      headerLoop fuel ⟨r.1, r.2, vertices, faces, hasNormals⟩
    else some st

/-- The function `ReadPlyHeader`: the returned `bool` and the variables at the
return. -/
def ReadPlyHeader (fuel : Nat) (st : PlyHeader) : Run (Bool × PlyHeader) :=
  let r := getline st.fin st.line 100
  if strncmp r.2 (cstr ['p', 'l', 'y']) 3 ≠ 0 then
    .done (false, { st with fin := r.1, line := r.2 })
  else
    let r2 := getline r.1 r.2 100
    match headerLoop fuel
        { st with fin := r2.1, line := r2.2, vertices := 0 } with
    | none => .outOfFuel
    | some st2 => if st2.vertices ≤ 0 then .done (false, st2) else .done (true, st2)

section Ply

variable {F : Type} [LinearOrderedField F]

/-- Body of the loop of `ReadPlyVertices`. -/
def readVertexStep (ff : FloatFormat F) (env : Env) (hasNormals : Bool)
    (st : ifstream × TriangleMesh F) (i : Nat) : ifstream × TriangleMesh F :=
  let x := read st.1 4 env.word0
  let y := read x.1 4 env.word0
  let z := read y.1 4 env.word0
  let mesh := { st.2 with
    vertices_ := Add3Items (ff.ofBits (le32 x.2)) (ff.ofBits (le32 y.2)) (ff.ofBits (le32 z.2))
      (i * 3) st.2.vertices_ }
  if hasNormals then
    let nx := read z.1 4 x.2
    let ny := read nx.1 4 y.2
    let nz := read ny.1 4 z.2
    (nz.1, { mesh with
      normals_ := Add3Items (ff.ofBits (le32 nx.2)) (ff.ofBits (le32 ny.2))
        (ff.ofBits (le32 nz.2)) (i * 3) mesh.normals_ })
  else (z.1, mesh)

/-- The function `ReadPlyVertices`. -/
def ReadPlyVertices (ff : FloatFormat F) (env : Env) (hasNormals : Bool)
    (fin : ifstream) (mesh : TriangleMesh F) : ifstream × TriangleMesh F :=
  let kVertices := mesh.vertices_.length / 3
  (List.range kVertices).foldl (readVertexStep ff env hasNormals) (fin, mesh)

/-- Body of the loop of `ReadPlyFaces`; the third component of the state is
the variable `vertex_per_face`, which lives across the iterations. -/
def readFaceStep (env : Env) (st : ifstream × TriangleMesh F × List Nat) (i : Nat) :
    Run (ifstream × TriangleMesh F × List Nat) :=
  let vpf := read st.1 1 st.2.2
  if !env.ndebug && vpf.2.getD 0 0 != 3 then .assertFailed
  else
    let v1 := read vpf.1 4 env.word0
    let v2 := read v1.1 4 env.word0
    let v3 := read v2.1 4 env.word0
    .done (v3.1,
      { st.2.1 with
        faces_ := Add3Items (toInt32 (le32 v1.2)) (toInt32 (le32 v2.2)) (toInt32 (le32 v3.2))
          (i * 3) st.2.1.faces_ },
      vpf.2)

/-- The function `ReadPlyFaces`. -/
def ReadPlyFaces (env : Env) (fin : ifstream) (mesh : TriangleMesh F) :
    Run (ifstream × TriangleMesh F) :=
  let kFaces := mesh.faces_.length / 3
  (forRun (readFaceStep env) (List.range kFaces) (fin, mesh, env.byte0)).bind
    (fun st => .done (st.1, st.2.1))

/-- The part of `ReadFromPly` after a header that was accepted with the counts
`vertices` and `faces`: the record at the `return true`. -/
def loadPlyBody (lm : LibM F) (ff : FloatFormat F) (env : Env) (hasNormals : Bool)
    (vertices faces : Int) (fin : ifstream) (mesh : TriangleMesh F) : Run (TriangleMesh F) :=
  (resizeTimes3 mesh.vertices_ vertices 0).bind fun vs =>
  (if hasNormals then resizeTimes3 mesh.normals_ vertices 0 else .done mesh.normals_).bind fun ns =>
  let rv := ReadPlyVertices ff env hasNormals fin { mesh with vertices_ := vs, normals_ := ns }
  (resizeTimes3 rv.2.faces_ faces 0).bind fun fs =>
  (ReadPlyFaces env rv.1 { rv.2 with faces_ := fs }).bind fun rf =>
  let mesh := rf.2
  let mesh :=
    if !hasNormals then
      { mesh with normals_ := ComputeVertexNormals lm mesh.vertices_ mesh.faces_ mesh.normals_ }
    else mesh
  let mesh := { mesh with texCoords_ := ComputeTexCoords lm mesh.vertices_ mesh.texCoords_ }
  .done (ComputeBoundingBox mesh.vertices_ mesh)

/-- The function `ReadFromPly`.  The argument `file` is the content of the file
named by `filename`, or `none` when it cannot be opened; `hasNormals` is the
global before the call.  The result holds the returned `bool`, the record and
the global after the call.  `fuel` bounds the header loop. -/
def ReadFromPly (lm : LibM F) (ff : FloatFormat F) (env : Env) (fuel : Nat)
    (file : Option (List Nat)) (mesh : TriangleMesh F) (hasNormals : Bool) :
    Run (Bool × TriangleMesh F × Bool) :=
  match file with
  | none => .done (false, mesh, hasNormals)
  | some bytes =>
    (ReadPlyHeader fuel ⟨⟨bytes, true⟩, env.line0, 0, 0, hasNormals⟩).bind fun h =>
    if !h.1 then .done (false, mesh, h.2.hasNormals)
    else
      (loadPlyBody lm ff env h.2.hasNormals h.2.vertices h.2.faces h.2.fin mesh).bind
        fun m => .done (true, m, h.2.hasNormals)

end Ply

/-! ## The OBJ reader

`tinyobj::LoadObj` is a library call; its results are inputs of the model. -/

/-- The type `tinyobj::index_t`. -/
structure index_t where
  /-- Index into `attrib.vertices`. -/
  vertex_index : Int
  /-- Index into `attrib.normals`. -/
  normal_index : Int
  /-- Index into `attrib.texcoords`. -/
  texcoord_index : Int

/-- The type `tinyobj::mesh_t`, the members used. -/
structure mesh_t where
  /-- One entry per face corner. -/
  indices : List index_t
  /-- One entry per face: its number of corners. -/
  num_face_vertices : List Nat

/-- The type `tinyobj::shape_t`. -/
structure shape_t where
  /-- The faces of the shape. -/
  mesh : mesh_t

/-- The type `tinyobj::attrib_t`, the members used. -/
structure attrib_t (F : Type) where
  /-- Flattened positions. -/
  vertices : List F
  /-- Flattened normals. -/
  normals : List F
  /-- Flattened texture coordinates. -/
  texcoords : List F

/-- The type `tinyobj::material_t`, the member used. -/
structure material_t where
  /-- File name of the diffuse texture. -/
  diffuse_texname : String

/-- What `tinyobj::LoadObj` hands back for a file. -/
structure LoadObjResult (F : Type) where
  /-- The returned `bool`. -/
  ret : Bool
  /-- The output `attrib`. -/
  attrib : attrib_t F
  /-- The output `shapes`. -/
  shapes : List shape_t
  /-- The output `materials`. -/
  materials : List material_t

/-- The call `s.rfind("/")`: the position of the last slash, `none` for `npos`. -/
def rfindSlash : List Char → Option Nat
  | [] => none
  | c :: cs =>
    match rfindSlash cs with
    | some k => some (k + 1)
    | none => if c = '/' then some 0 else none

/-- The expression `filename.substr(0, filename.rfind("/"))`. -/
def baseDirOf (filename : String) : String :=
  match rfindSlash filename.toList with
  | some k => String.mk (filename.toList.take k)
  | none => filename

section Obj

variable {F : Type} [LinearOrderedField F]

/-- The read `v[i]` of a source array at an index computed from the `int`
members of `index_t`: a negative index (`-1` marks an absent one) and an index
past the end both lie outside the array, where a read yields `0`. -/
def readAt (l : List F) (i : Int) : F :=
  if i < 0 then 0 else l.getD i.toNat 0

/-- Body of the loop over `shape.mesh.indices` in `ReadFromObj`; the second
component of the state is `currentIndex`. -/
def objCornerStep (attrib : attrib_t F) (st : TriangleMesh F × Nat) (index : index_t) :
    TriangleMesh F × Nat :=
  let currentIndex := st.2
  let mesh := st.1
  let mesh := { mesh with faces_ := mesh.faces_.set currentIndex (currentIndex : Int) }
  let mesh := { mesh with
    vertices_ :=
      ((mesh.vertices_.set (3 * currentIndex)
          (readAt attrib.vertices (3 * index.vertex_index))).set (3 * currentIndex + 1)
          (readAt attrib.vertices (3 * index.vertex_index + 1))).set (3 * currentIndex + 2)
          (readAt attrib.vertices (3 * index.vertex_index + 2)) }
  let mesh :=
    if attrib.normals.length > 0 then
      { mesh with
        normals_ :=
          ((mesh.normals_.set (3 * currentIndex)
              (readAt attrib.normals (3 * index.normal_index))).set (3 * currentIndex + 1)
              (readAt attrib.normals (3 * index.normal_index + 1))).set
              (3 * currentIndex + 2)
              (readAt attrib.normals (3 * index.normal_index + 2)) }
    else mesh
  let mesh :=
    if attrib.texcoords.length > 0 then
      { mesh with
        texCoords_ :=
          (mesh.texCoords_.set (2 * currentIndex)
              (readAt attrib.texcoords (2 * index.texcoord_index))).set
              (2 * currentIndex + 1)
              (1 - readAt attrib.texcoords (2 * index.texcoord_index + 1)) }
    else mesh
  (mesh, currentIndex + 1)

/-- Body of the loop over `shapes` in `ReadFromObj`: the four `resize` calls,
each of which throws `std::length_error` when asked for more than `max_size()`
elements, then the test of the corner counts, then the loop over the corners. -/
def objShapeStep (attrib : attrib_t F) (st : TriangleMesh F × Nat) (shape : shape_t) :
    Run (TriangleMesh F × Nat) :=
  let n := shape.mesh.indices.length
  let mesh := st.1
  (resizeChecked mesh.faces_ (mesh.faces_.length + n) 0).bind fun faces =>
  (resizeChecked mesh.vertices_ ((mesh.vertices_.length + n) * 3) 0).bind fun vertices =>
  (if attrib.normals.length > 0 then
      resizeChecked mesh.normals_ ((mesh.normals_.length + n) * 3) 0
    else .done mesh.normals_).bind fun normals =>
  (if attrib.texcoords.length > 0 then
      resizeChecked mesh.texCoords_ ((mesh.texCoords_.length + n) * 2) 0
    else .done mesh.texCoords_).bind fun texCoords =>
  let mesh := { mesh with
    faces_ := faces, vertices_ := vertices, normals_ := normals, texCoords_ := texCoords }
  if shape.mesh.num_face_vertices.any (fun nfv => nfv != 3) then .exited 1
  else .done (shape.mesh.indices.foldl (objCornerStep attrib) (mesh, st.2))

/-- The function `ReadFromObj`, given what `tinyobj::LoadObj` produced for the
file.  Its body has no `return` statement: when control reaches the closing
brace the record is complete and no value is returned, which is the `none` of
the first component. -/
def ReadFromObj (lm : LibM F) (filename : String) (parsed : LoadObjResult F)
    (mesh : TriangleMesh F) : Run (Option Bool × TriangleMesh F) :=
  let baseDir := baseDirOf filename
  if !parsed.ret then .exited 1
  else
    (forRun (objShapeStep parsed.attrib) parsed.shapes (mesh, 0)).bind fun st =>
    let mesh := st.1
    let mesh :=
      if parsed.attrib.normals.length = 0 then
        { mesh with normals_ := ComputeVertexNormals lm mesh.vertices_ mesh.faces_ mesh.normals_ }
      else mesh
    let mesh := ComputeBoundingBox mesh.vertices_ mesh
    let mesh :=
      match parsed.materials with
      | m :: _ => { mesh with diffuseMap_ := baseDir ++ "/" ++ m.diffuse_texname }
      | [] => mesh
    .done (none, mesh)

end Obj

/-! ## The sphere generator -/

section Sphere

variable {F : Type} [LinearOrderedField F]

/-- The vertices of one stack of the sphere: positions, normals, texture coordinates. -/
def sphereSectorStep (lm : LibM F) (i : Nat) (xy z : F)
    (st : List F × List F × List F) (j : Nat) : List F × List F × List F :=
  let radius : F := 1
  let sectorCount : F := 64
  let stackCount : F := 64
  let PI : F := 3141592 / 1000000
  let lengthInv : F := 1 / radius
  let sectorStep := 2 * PI / sectorCount
  let sectorAngle := (j : F) * sectorStep
  let x := xy * lm.cos sectorAngle
  let y := xy * lm.sin sectorAngle
  let nx := x * lengthInv
  let ny := y * lengthInv
  let nz := z * lengthInv
  let s := (j : F) / sectorCount
  let t := (i : F) / stackCount
  (st.1 ++ [x, y, z], st.2.1 ++ [nx, ny, nz], st.2.2 ++ [s, t])

/-- Body of the loop over the stacks that fills the vertex arrays. -/
def sphereStackStep (lm : LibM F) (st : List F × List F × List F) (i : Nat) :
    List F × List F × List F :=
  let radius : F := 1
  let stackCount : F := 64
  let PI : F := 3141592 / 1000000
  let stackStep := PI / stackCount
  let stackAngle := PI / 2 - (i : F) * stackStep
  let xy := radius * lm.cos stackAngle
  let z := radius * lm.sin stackAngle
  (List.range 65).foldl (sphereSectorStep lm i xy z) st

/-- Body of the loop over the sectors that fills the index array; `k1` and `k2`
are `i * 65 + j` and `k1 + 65` at sector `j`. -/
def sphereIndexSector (i : Nat) (indices : List Int) (j : Nat) : List Int :=
  let k1 : Int := (i * (64 + 1) + j : Nat)
  let k2 : Int := k1 + 64 + 1
  let indices := if i ≠ 0 then indices ++ [k1, k2, k1 + 1] else indices
  if i ≠ 64 - 1 then indices ++ [k1 + 1, k2, k2 + 1] else indices

/-- Body of the loop over the stacks that fills the index array. -/
def sphereIndexStack (indices : List Int) (i : Nat) : List Int :=
  (List.range 64).foldl (sphereIndexSector i) indices

/-- The function `CreateSphere`: the returned `bool` and the record. -/
def CreateSphere (lm : LibM F) (mesh : TriangleMesh F) : Bool × TriangleMesh F :=
  let vnt :=
    (List.range 65).foldl (sphereStackStep lm) (([] : List F), ([] : List F), ([] : List F))
  let indices := (List.range 64).foldl sphereIndexStack ([] : List Int)
  let mesh := { mesh with
    faces_ := indices, vertices_ := vnt.1, normals_ := vnt.2.1, texCoords_ := vnt.2.2 }
  (true, ComputeBoundingBox mesh.vertices_ mesh)

end Sphere

/-! ## The widget -/

section

variable {F : Type} [LinearOrderedField F]

end

/-! ## Notions used to state the properties -/

section Notions

variable {F : Type} [LinearOrderedField F]

/-- The three entries of a flattened array that belong to vertex `v`. -/
def groupAt (l : List F) (v : Nat) : vec3 F :=
  ⟨l.getD (3 * v) 0, l.getD (3 * v + 1) 0, l.getD (3 * v + 2) 0⟩

/-- A loop body that rewrites the three entries starting at `i` from their own
content; the first and the third loop of `ComputeVertexNormals` have this shape. -/
def groupStep (g : Nat → vec3 F → vec3 F) (ns : List F) (i : Nat) : List F :=
  ((ns.set i ((g i ⟨ns.getD i 0, ns.getD (i + 1) 0, ns.getD (i + 2) 0⟩).get 0)).set (i + 1)
      ((g i ⟨ns.getD i 0, ns.getD (i + 1) 0, ns.getD (i + 2) 0⟩).get 1)).set (i + 2)
      ((g i ⟨ns.getD i 0, ns.getD (i + 1) 0, ns.getD (i + 2) 0⟩).get 2)

/-- What one corner adds to entry `p` of the accumulator: the matching
component of the stored face normal times the angle, when the corner belongs
to the vertex of `p` and the angle is a number. -/
def cornerTerm (lm : LibM F) (vertices : List F) (faces : List Int) (face_normals : List F)
    (i j p : Nat) : F :=
  if p / 3 = (faces.getD (i + j) 0).toNat then
    match angleAt lm vertices faces i j with
    | some angle => face_normals.getD (i + p % 3) 0 * angle
    | none => 0
  else 0

/-- The index array is made of triples of indices of existing vertices. -/
def InRange (vertices : List F) (faces : List Int) : Prop :=
  faces.length % 3 = 0 ∧ ∀ f ∈ faces, 0 ≤ f ∧ f < ((vertices.length / 3 : Nat) : Int)

/-- Triangle `t` has vertex `v` as one of its corners. -/
def Incident (faces : List Int) (t v : Nat) : Prop :=
  ∃ j, j < 3 ∧ faces.getD (3 * t + j) 0 = (v : Int)

/-- Triangle `t` is degenerate for the first loop of `ComputeVertexNormals`:
the length of its cross product is below the threshold. -/
def Degenerate (lm : LibM F) (vertices : List F) (faces : List Int) (t : Nat) : Prop :=
  vec3.length lm (rawFaceNormal vertices faces (3 * t)) < 1 / 100000

end Notions

/-- The values of an `int`. -/
def IsInt32 (v : Int) : Prop := -2147483648 ≤ v ∧ v < 2147483648

/-- The record or value a call came back with, `d` when it did not come back. -/
def Run.value {α : Type} (r : Run α) (d : α) : α :=
  match r with
  | .done a => a
  | _ => d

/-- Number of face corners of a list of shapes. -/
def cornerCount (shapes : List shape_t) : Nat :=
  (shapes.map (fun s => s.mesh.indices.length)).sum

/-- Every face of every shape has three corners. -/
def AllTriangles (shapes : List shape_t) : Prop :=
  ∀ s ∈ shapes, ∀ nfv ∈ s.mesh.num_face_vertices, nfv = 3

/-- The identity index array `0, 1, ..., n - 1`. -/
def identityIndices (n : Nat) : List Int := (List.range n).map Int.ofNat

/-- The size a vector reaches when `v.resize((v.size() + n) * k)` is run for
each shape in turn, `n` being the number of corners of the shape. -/
def resizedLength (k : Nat) (shapes : List shape_t) (start : Nat) : Nat :=
  shapes.foldl (fun len s => (len + s.mesh.indices.length) * k) start

/-- Number of bytes `ReadPlyVertices` reads per vertex. -/
def vertexRecordSize (hasNormals : Bool) : Nat := if hasNormals then 24 else 12

/-- The `int` held by the bytes of index `j` of the face record `i` of a face
block `bytes`: each record is one count byte and three 4-byte indices. -/
def faceIndex (bytes : List Nat) (i j : Nat) : Int :=
  toInt32 (le32 ((bytes.drop (13 * i + 1 + 4 * j)).take 4))

/-- The index entries `CreateSphere` appends at stack `i`, sector `j`. -/
def sphereCell (i j : Nat) : List Int :=
  (if i ≠ 0 then
      [((i * (64 + 1) + j : Nat) : Int), ((i * (64 + 1) + j : Nat) : Int) + 64 + 1,
        ((i * (64 + 1) + j : Nat) : Int) + 1]
    else [])
  ++ (if i ≠ 64 - 1 then
      [((i * (64 + 1) + j : Nat) : Int) + 1, ((i * (64 + 1) + j : Nat) : Int) + 64 + 1,
        ((i * (64 + 1) + j : Nat) : Int) + 64 + 1 + 1]
    else [])

/-- The triangles of an index array: its consecutive groups of three entries. -/
def trianglesOf : List Int → List (Int × Int × Int)
  | a :: b :: c :: rest => (a, b, c) :: trianglesOf rest
  | _ => []

/-- The unordered pair `a`, `b` is a pair of vertex indices of the triangle `t`. -/
def hasEdge (a b : Int) (t : Int × Int × Int) : Bool :=
  (t.1 == a && t.2.1 == b) || (t.1 == b && t.2.1 == a)
    || (t.2.1 == a && t.2.2 == b) || (t.2.1 == b && t.2.2 == a)
    || (t.1 == a && t.2.2 == b) || (t.1 == b && t.2.2 == a)

/-- Number of triangles of an index array that have the edge `a`, `b`. -/
def edgeCount (faces : List Int) (a b : Int) : Nat := (trianglesOf faces).countP (hasEdge a b)

/-- The triangle `(k1, k2, k1 + 1)` of stack `i`, sector `j` of the sphere. -/
def upperTriangle (i j : Nat) : Int × Int × Int :=
  (((i * 65 + j : Nat) : Int), ((i * 65 + j : Nat) : Int) + 65, ((i * 65 + j : Nat) : Int) + 1)

/-- The triangle `(k1 + 1, k2, k2 + 1)` of stack `i`, sector `j` of the sphere. -/
def lowerTriangle (i j : Nat) : Int × Int × Int :=
  (((i * 65 + j : Nat) : Int) + 1, ((i * 65 + j : Nat) : Int) + 65,
    ((i * 65 + j : Nat) : Int) + 65 + 1)

/-- Number of triangles of stack `i`, sector `j` that have the edge `a`, `b`. -/
def cellEdgeCount (a b : Int) (i j : Nat) : Nat :=
  (if i ≠ 0 ∧ hasEdge a b (upperTriangle i j) = true then 1 else 0)
    + (if i ≠ 63 ∧ hasEdge a b (lowerTriangle i j) = true then 1 else 0)

/-- The pair `lo < hi` is an edge of the triangle `(k1, k2, k1 + 1)` of stack
`i`, sector `j`, which exists for `i ≠ 0`. -/
def upperEdge (lo hi : Int) (i j : Nat) : Prop :=
  i ≠ 0 ∧ ((lo = 65 * i + j ∧ hi = 65 * i + j + 65) ∨ (lo = 65 * i + j + 1 ∧ hi = 65 * i + j + 65)
    ∨ (lo = 65 * i + j ∧ hi = 65 * i + j + 1))

/-- The pair `lo < hi` is an edge of the triangle `(k1 + 1, k2, k2 + 1)` of
stack `i`, sector `j`, which exists for `i ≠ 63`. -/
def lowerEdge (lo hi : Int) (i j : Nat) : Prop :=
  i ≠ 63 ∧ ((lo = 65 * i + j + 1 ∧ hi = 65 * i + j + 65)
    ∨ (lo = 65 * i + j + 65 ∧ hi = 65 * i + j + 66)
    ∨ (lo = 65 * i + j + 1 ∧ hi = 65 * i + j + 66))

/-- The stack of the vertex with index `x` of the sphere: vertices are pushed
stack by stack, 65 per stack. -/
def sphereStackOf (x : Int) : Int := x / 65

/-- The sector of the vertex with index `x` of the sphere. -/
def sphereSectorOf (x : Int) : Int := x % 65

section

variable {F : Type} [LinearOrderedField F]

/-- No `resize` of `ReadFromObj` on the shapes is asked for more than
`max_size()` elements, the record at the call being `mesh`. -/
def WithinMaxSize (attrib : attrib_t F) (shapes : List shape_t) (mesh : TriangleMesh F) :
    Prop :=
  mesh.faces_.length + cornerCount shapes ≤ maxSize
    ∧ resizedLength 3 shapes mesh.vertices_.length ≤ maxSize
    ∧ (0 < attrib.normals.length → resizedLength 3 shapes mesh.normals_.length ≤ maxSize)
    ∧ (0 < attrib.texcoords.length →
        resizedLength 2 shapes mesh.texCoords_.length ≤ maxSize)

end

section

variable {F : Type} [LinearOrderedField F]

/-- The texture coordinate `ComputeTexCoords` writes for vertex `i`: component
0 is `s`, component 1 is `t`. -/
def sphericalTexCoord (lm : LibM F) (vertices : List F) (i a : Nat) : F :=
  if a = 0 then
    lm.atan2 (vertices.getD (i * 3 + 1) 0) (vertices.getD (i * 3 + 0) 0) / (2 * lm.pi) + 1 / 2
  else lm.asin (vertices.getD (i * 3 + 2) 0) / lm.pi + 1 / 2

end

section

variable {F : Type} [LinearOrderedField F]

/-- What corner `j` of triangle `t` contributes to component `k` of the
accumulator of vertex `v`: when the corner has the index `v`, component `k` of
the stored face normal times the angle at the corner (nothing when the angle is
a NaN); otherwise nothing. -/
def cornerContribution (lm : LibM F) (vertices : List F) (faces : List Int)
    (t j v k : Nat) : F :=
  if faces.getD (3 * t + j) 0 = (v : Int) then
    (storedFaceNormal lm vertices faces (3 * t)).get k
      * ((angleAt lm vertices faces (3 * t) j).getD 0)
  else 0

end

section

variable {F : Type} [LinearOrderedField F]

/-- The interior angle of a triangle at its corner `p`, the other two corners
being `q` and `r`, in the words of the specification: the arccosine of the dot
product of the two edges that leave `p`, divided by the product of their
lengths.  There is no such angle when one of the two edges has length zero. -/
def interiorAngle (lm : LibM F) (p q r : vec3 F) : Option F :=
  if vec3.length lm (q.sub p) = 0 ∨ vec3.length lm (r.sub p) = 0 then none
  else
    some (lm.acos (vec3.dot (q.sub p) (r.sub p)
      / (vec3.length lm (q.sub p) * vec3.length lm (r.sub p))))

/-- The face normal of the triangle `v1 v2 v3`, in the words of the
specification: the cross product of `v2 - v1` and `v3 - v1`, replaced by the
zero vector when its length is below `0.00001`. -/
def triangleNormal (lm : LibM F) (v1 v2 v3 : vec3 F) : vec3 F :=
  if vec3.length lm ((v2.sub v1).cross (v3.sub v1)) < 1 / 100000 then vec3.zero
  else (v2.sub v1).cross (v3.sub v1)

/-- Corner `j` of triangle `t` of a mesh, as a point. -/
def cornerPoint (vertices : List F) (faces : List Int) (t j : Nat) : vec3 F :=
  groupAt vertices (faces.getD (3 * t + j) 0).toNat

/-- What the specification has corner `j` of triangle `t` add to component `k`
of the accumulator of vertex `v`: when the corner has the index `v`, the
interior angle of the triangle at that corner times component `k` of the face
normal of the triangle (nothing when there is no such angle); otherwise
nothing. -/
def angleWeightedTerm (lm : LibM F) (vertices : List F) (faces : List Int)
    (t j v k : Nat) : F :=
  if faces.getD (3 * t + j) 0 = (v : Int) then
    match interiorAngle lm (cornerPoint vertices faces t j)
        (cornerPoint vertices faces t ((j + 1) % 3))
        (cornerPoint vertices faces t ((j + 2) % 3)) with
    | some angle =>
      angle * (triangleNormal lm (cornerPoint vertices faces t 0)
        (cornerPoint vertices faces t 1) (cornerPoint vertices faces t 2)).get k
    | none => 0
  else 0

/-- The function `sqrt` of the library satisfies the inequality of Cauchy and
Schwarz: the quotient handed to `acos` for two vectors of non-zero length lies
in `[-1, 1]`. -/
def CosineInRange (lm : LibM F) : Prop :=
  ∀ a b : vec3 F, vec3.length lm a ≠ 0 → vec3.length lm b ≠ 0 →
    -1 ≤ vec3.dot a b / (vec3.length lm a * vec3.length lm b)
      ∧ vec3.dot a b / (vec3.length lm a * vec3.length lm b) ≤ 1

end

section

variable {F : Type} [LinearOrderedField F]

/-- The number held by float `a` of the vertex record `i` of a vertex block
`bytes` with `size` bytes per record: the floats 0 to 2 are the position, the
floats 3 to 5 the normal. -/
def vertexFloat (ff : FloatFormat F) (bytes : List Nat) (size i a : Nat) : F :=
  ff.ofBits (le32 ((bytes.drop (size * i + 4 * a)).take 4))

end

/-! ## The real-number reading of the scalars -/

/-- The mathematical functions on the reals, standing for their libm counterparts. -/
noncomputable def realLibM : LibM ℝ :=
  { sqrt := Real.sqrt, acos := Real.arccos, asin := Real.arcsin,
    atan2 := fun y x => Complex.arg ⟨x, y⟩, cos := Real.cos, sin := Real.sin, pi := Real.pi }

/-- The number denoted by a binary32 pattern: sign, eight exponent bits,
twenty-three fraction bits.  The patterns of the infinities and of the NaNs
have no counterpart among the reals; the formula of the normal numbers is
applied to them as well. -/
def binary32Value (bits : Nat) : ℚ :=
  let sign := bits / 2147483648 % 2
  let e := bits / 8388608 % 256
  let m := bits % 8388608
  let mag : ℚ :=
    if e = 0 then (m : ℚ) / 2 ^ 149 else ((8388608 + m : Nat) : ℚ) * 2 ^ e / 2 ^ 150
  if sign = 1 then -mag else mag

/-- The format binary32 read over the reals. -/
noncomputable def realFloatFormat : FloatFormat ℝ :=
  { ofBits := fun bits => (binary32Value bits : ℝ), max := (2 ^ 24 - 1) * 2 ^ 104 }

/-! ## Concrete inputs -/

/-- The positions `(0,0,0)`, `(1,0,0)`, `(0,1,0)`. -/
def rightTriangle : List ℝ := [0, 0, 0, 1, 0, 0, 0, 1, 0]

/-- The bytes of a text. -/
def bytesOf (s : String) : List Nat := s.toList.map Char.toNat

/-- A build with `assert` enabled, and zeroed memory behind the locals that
have no initialiser. -/
def plainEnv : Env := ⟨false, List.replicate 100 0, [0, 0, 0, 0], [0]⟩

/-- The body of a PLY file: the vertices `(0,0,0)`, `(1,0,0)`, `(0,1,0)` as
little-endian binary32 numbers, then the face record `(3, 0, 1, 2)`. -/
def triangleBody : List Nat :=
  [0, 0, 0, 0, 0, 0, 0, 0, 0, 0, 0, 0,
   0, 0, 128, 63, 0, 0, 0, 0, 0, 0, 0, 0,
   0, 0, 0, 0, 0, 0, 128, 63, 0, 0, 0, 0,
   3, 0, 0, 0, 0, 1, 0, 0, 0, 2, 0, 0, 0]

/-- A PLY file with three vertices and one face, the body being `triangleBody`. -/
def trianglePly : List Nat :=
  bytesOf "ply\nformat binary_little_endian 1.0\nelement vertex 3\n"
    ++ bytesOf "property float x\nproperty float y\nproperty float z\n"
    ++ bytesOf "element face 1\nproperty list uchar int vertex_indices\nend_header\n"
    ++ triangleBody

/-- The record `ReadFromPly` builds from `trianglePly`, over the reals. -/
noncomputable def loadedTriangle : TriangleMesh ℝ :=
  { vertices_ := rightTriangle,
    faces_ := [0, 1, 2],
    normals_ := [0, 0, Real.pi / 2, 0, 0, Real.pi / 4, 0, 0, Real.pi / 4],
    texCoords_ := [1 / 2, 1 / 2, 1 / 2, 1 / 2, 3 / 4, 1 / 2],
    diffuseMap_ := "",
    min_ := ⟨0, 0, 0⟩,
    max_ := ⟨1, 1, 0⟩ }

/-- A PLY header that declares no vertex. -/
def plyZeroVertices : List Nat :=
  bytesOf "ply\nformat binary_little_endian 1.0\nelement vertex 0\nelement face 1\nend_header\n"

/-- A PLY header that declares a negative number of vertices. -/
def plyNegativeVertices : List Nat :=
  bytesOf "ply\nformat binary_little_endian 1.0\nelement vertex -4\nproperty float nx\nend_header\n"

/-- A PLY header without an `element vertex` line. -/
def plyNoVertexLine : List Nat :=
  bytesOf "ply\nformat binary_little_endian 1.0\nelement face 1\nend_header\n"

/-- A file whose first line is `pl`. -/
def plyShortMagic : List Nat :=
  bytesOf "pl\nformat binary_little_endian 1.0\nelement vertex 3\nend_header\n"

/-- A file whose first line is `plyX`, with one vertex in its body. -/
def plyLongMagic : List Nat :=
  bytesOf "plyX\nformat binary_little_endian 1.0\nelement vertex 1\nend_header\n"
    ++ [0, 0, 0, 0, 0, 0, 0, 0, 0, 0, 0, 0]

/-- What the parser yields for an OBJ file with one triangle, no normals and
no texture coordinates (`-1` marks an absent index). -/
def objTriangle : LoadObjResult ℝ :=
  { ret := true,
    attrib := { vertices := [0, 0, 0, 1, 0, 0, 0, 1, 0], normals := [], texcoords := [] },
    shapes := [⟨⟨[⟨0, -1, -1⟩, ⟨1, -1, -1⟩, ⟨2, -1, -1⟩], [3]⟩⟩],
    materials := [] }

/-- What the parser yields for an OBJ file with two shapes of one triangle
each, with texture coordinates and without normals. -/
def objTwoShapes : LoadObjResult ℝ :=
  { ret := true,
    attrib :=
      { vertices := [0, 0, 0, 1, 0, 0, 1, 1, 0, 0, 1, 0], normals := [],
        texcoords := [0, 0, 1, 0, 1, 1, 0, 1] },
    shapes :=
      [⟨⟨[⟨0, -1, 0⟩, ⟨1, -1, 1⟩, ⟨2, -1, 2⟩], [3]⟩⟩,
       ⟨⟨[⟨0, -1, 0⟩, ⟨2, -1, 2⟩, ⟨3, -1, 3⟩], [3]⟩⟩],
    materials := [] }

/-- A file that starts with `ply` and ends before any `end_header` line. -/
def plyNoTerminator : List Nat :=
  bytesOf "ply\nformat binary_little_endian 1.0\nelement vertex 3\n"

/-- A file whose second line has 100 characters `a`. -/
def plyLongLine : List Nat :=
  bytesOf "ply\n" ++ List.replicate 100 97 ++ bytesOf "\nelement vertex 3\nend_header\n"

/-- A build with `NDEBUG` defined, and zeroed memory behind the locals that
have no initialiser. -/
def releaseEnv : Env := ⟨true, List.replicate 100 0, [0, 0, 0, 0], [0]⟩

/-- The body of a PLY file: the vertices `(0,0,0)`, `(1,0,0)`, `(1,1,0)`,
`(0,1,0)`, then a face record with the count 4: `(4, 0, 1, 2, 3)`. -/
def quadBody : List Nat :=
  [0, 0, 0, 0, 0, 0, 0, 0, 0, 0, 0, 0,
   0, 0, 128, 63, 0, 0, 0, 0, 0, 0, 0, 0,
   0, 0, 128, 63, 0, 0, 128, 63, 0, 0, 0, 0,
   0, 0, 0, 0, 0, 0, 128, 63, 0, 0, 0, 0,
   4, 0, 0, 0, 0, 1, 0, 0, 0, 2, 0, 0, 0, 3, 0, 0, 0]

/-- A PLY file with four vertices and one face, the body being `quadBody`. -/
def quadPly : List Nat :=
  bytesOf "ply\nformat binary_little_endian 1.0\nelement vertex 4\n"
    ++ bytesOf "property float x\nproperty float y\nproperty float z\n"
    ++ bytesOf "element face 1\nproperty list uchar int vertex_indices\nend_header\n"
    ++ quadBody

/-- The header of a PLY file with three vertices that carry normals, and one face. -/
def normalsHeader : List Nat :=
  bytesOf "ply\nformat binary_little_endian 1.0\nelement vertex 3\n"
    ++ bytesOf "property float x\nproperty float y\nproperty float z\n"
    ++ bytesOf "property float nx\nproperty float ny\nproperty float nz\n"
    ++ bytesOf "element face 1\nproperty list uchar int vertex_indices\nend_header\n"

/-- The vertices `(0,0,0)`, `(1,0,0)`, `(0,1,0)`, each followed by the normal
`(0,0,1)`, as little-endian binary32 numbers. -/
def normalsVertexBlock : List Nat :=
  [0, 0, 0, 0, 0, 0, 0, 0, 0, 0, 0, 0, 0, 0, 0, 0, 0, 0, 0, 0, 0, 0, 128, 63,
   0, 0, 128, 63, 0, 0, 0, 0, 0, 0, 0, 0, 0, 0, 0, 0, 0, 0, 0, 0, 0, 0, 128, 63,
   0, 0, 0, 0, 0, 0, 128, 63, 0, 0, 0, 0, 0, 0, 0, 0, 0, 0, 0, 0, 0, 0, 128, 63]

/-- A PLY file with normals whose face record is `(3, 0, 1, 2)`. -/
def normalsPly : List Nat :=
  normalsHeader ++ normalsVertexBlock ++ [3, 0, 0, 0, 0, 1, 0, 0, 0, 2, 0, 0, 0]

/-- A PLY file with normals and three vertices whose face record is `(3, 0, 1, 7)`. -/
def badIndexPly : List Nat :=
  normalsHeader ++ normalsVertexBlock ++ [3, 0, 0, 0, 0, 1, 0, 0, 0, 7, 0, 0, 0]

/-- The PLY file `trianglePly` cut off inside its face record: the header, the
three vertices, and of the face record `(3, 0, 1, 2)` only the first seven bytes. -/
def truncatedPly : List Nat :=
  bytesOf "ply\nformat binary_little_endian 1.0\nelement vertex 3\n"
    ++ bytesOf "property float x\nproperty float y\nproperty float z\n"
    ++ bytesOf "element face 1\nproperty list uchar int vertex_indices\nend_header\n"
    ++ triangleBody.take 43

/-- The one-triangle OBJ file followed by a face with four corners in a second
shape. -/
def objTriangleThenQuad : LoadObjResult ℝ :=
  { ret := true,
    attrib :=
      { vertices := [0, 0, 0, 1, 0, 0, 1, 1, 0, 0, 1, 0], normals := [], texcoords := [] },
    shapes :=
      [⟨⟨[⟨0, -1, -1⟩, ⟨1, -1, -1⟩, ⟨2, -1, -1⟩], [3]⟩⟩,
       ⟨⟨[⟨0, -1, -1⟩, ⟨1, -1, -1⟩, ⟨2, -1, -1⟩, ⟨3, -1, -1⟩], [4]⟩⟩],
    materials := [] }

/-- A PLY header whose line directly after `ply` is `element face 1`. -/
def plyFaceLineSecond : List Nat :=
  bytesOf "ply\nelement face 1\nelement vertex 3\nend_header\n"

/-- The header `plyFaceLineSecond` followed by the body `triangleBody`: three
vertices and the face record `(3, 0, 1, 2)`. -/
def plyFaceSecondTriangle : List Nat := plyFaceLineSecond ++ triangleBody

/-- A PLY header that declares no vertex, after a comment line of 100
characters `a`. -/
def plyZeroVerticesLongLine : List Nat :=
  bytesOf "ply\n" ++ List.replicate 100 97 ++ bytesOf "\nelement vertex 0\nend_header\n"

/-- The body `triangleBody` followed by 36 further bytes: 23 zero bytes and a
second copy of the face record `(3, 0, 1, 2)`. -/
def paddedBody : List Nat :=
  triangleBody ++ List.replicate 23 0 ++ [3, 0, 0, 0, 0, 1, 0, 0, 0, 2, 0, 0, 0]

/-- The file `trianglePly` followed by 36 further bytes: its header declares
three vertices without normals and one face, and its body is `paddedBody`. -/
def paddedTrianglePly : List Nat :=
  bytesOf "ply\nformat binary_little_endian 1.0\nelement vertex 3\n"
    ++ bytesOf "property float x\nproperty float y\nproperty float z\n"
    ++ bytesOf "element face 1\nproperty list uchar int vertex_indices\nend_header\n"
    ++ paddedBody

/-- A PLY header whose line directly after `ply` is `element vertex 3`. -/
def plyVertexLineSecond : List Nat :=
  bytesOf "ply\nelement vertex 3\nelement face 1\nend_header\n"

/-- A PLY header whose line directly after `ply` is `property float nx`. -/
def plyNormalLineSecond : List Nat :=
  bytesOf "ply\nproperty float nx\nelement vertex 3\nelement face 1\nend_header\n"

end data_representation

/-! # Properties -/

set_option linter.unusedSectionVars false

namespace data_representation

/-! ## Lists and the loops of `ComputeVertexNormals` -/

section SynthesisLemmas

variable {F : Type} [LinearOrderedField F]

theorem getD_set_eq (l : List F) (i p : Nat) (a : F) :
    (l.set i a).getD p 0 = if i = p ∧ i < l.length then a else l.getD p 0 := by
  simp only [List.getD_eq_getElem?_getD, List.getElem?_set]
  by_cases h : i = p
  · subst h
    by_cases h2 : i < l.length
    · simp [h2]
    · simp [h2, List.getElem?_eq_none (Nat.le_of_not_lt h2)]
  · simp [h]

theorem getD_of_length_le (l : List F) (p : Nat) (h : l.length ≤ p) : l.getD p 0 = 0 := by
  simp [List.getD_eq_getElem?_getD, List.getElem?_eq_none h]

theorem length_groupStep (g : Nat → vec3 F → vec3 F) (ns : List F) (i : Nat) :
    (groupStep g ns i).length = ns.length := by
  simp [groupStep]

theorem length_foldl_groupStep (g : Nat → vec3 F → vec3 F) (is : List Nat) (ns : List F) :
    (is.foldl (groupStep g) ns).length = ns.length := by
  induction is generalizing ns with
  | nil => rfl
  | cons i is ih => simp [ih, length_groupStep]

theorem map_range_succ (n : Nat) :
    (List.range (n + 1)).map (fun t => 3 * t) = (List.range n).map (fun t => 3 * t) ++ [3 * n] := by
  simp [List.range_succ]

theorem groupLoop_getD (g : Nat → vec3 F → vec3 F) (init : List F) (n : Nat) :
    ∀ p, (((List.range n).map (fun t => 3 * t)).foldl (groupStep g) init).getD p 0
      = if p < 3 * n ∧ p < init.length
        then (g (3 * (p / 3)) (groupAt init (p / 3))).get (p % 3)
        else init.getD p 0 := by
  induction n with
  | zero => intro p; simp
  | succ n ih =>
    intro p
    rw [map_range_succ, List.foldl_append]
    simp only [List.foldl_cons, List.foldl_nil]
    rw [groupStep]
    have e0 := ih (3 * n)
    have e1 := ih (3 * n + 1)
    have e2 := ih (3 * n + 2)
    have n0 : ¬ (3 * n < 3 * n ∧ 3 * n < init.length) := by omega
    have n1 : ¬ (3 * n + 1 < 3 * n ∧ 3 * n + 1 < init.length) := by omega
    have n2 : ¬ (3 * n + 2 < 3 * n ∧ 3 * n + 2 < init.length) := by omega
    rw [if_neg n0] at e0
    rw [if_neg n1] at e1
    rw [if_neg n2] at e2
    rw [e0, e1, e2]
    simp only [getD_set_eq, List.length_set, length_foldl_groupStep, ih]
    by_cases hp : p < init.length
    · have hc :
          p < 3 * n ∨ p = 3 * n ∨ p = 3 * n + 1 ∨ p = 3 * n + 2 ∨ 3 * n + 3 ≤ p := by
        omega
      rcases hc with h | h | h | h | h
      · have h1 : ¬ (3 * n + 2 = p) := by omega
        have h2 : ¬ (3 * n + 1 = p) := by omega
        have h3 : ¬ (3 * n = p) := by omega
        have h4 : p < 3 * (n + 1) := by omega
        simp [h1, h2, h3, h4, h, hp]
      · subst h
        have h1 : ¬ (3 * n + 2 = 3 * n) := by omega
        have h2 : ¬ (3 * n + 1 = 3 * n) := by omega
        have h4 : 3 * n < 3 * (n + 1) := by omega
        have h5 : 3 * n / 3 = n := by omega
        have h6 : 3 * n % 3 = 0 := by omega
        simp [h1, h2, h4, hp, h5, h6, groupAt]
      · subst h
        have h1 : ¬ (3 * n + 2 = 3 * n + 1) := by omega
        have h4 : 3 * n + 1 < 3 * (n + 1) := by omega
        have h5 : (3 * n + 1) / 3 = n := by omega
        have h6 : (3 * n + 1) % 3 = 1 := by omega
        simp [h1, h4, hp, h5, h6, groupAt]
      · subst h
        have h4 : 3 * n + 2 < 3 * (n + 1) := by omega
        have h5 : (3 * n + 2) / 3 = n := by omega
        have h6 : (3 * n + 2) % 3 = 2 := by omega
        simp [h4, hp, h5, h6, groupAt]
      · have h1 : ¬ (3 * n + 2 = p) := by omega
        have h2 : ¬ (3 * n + 1 = p) := by omega
        have h3 : ¬ (3 * n = p) := by omega
        have h4 : ¬ p < 3 * (n + 1) := by omega
        have h5 : ¬ p < 3 * n := by omega
        simp [h1, h2, h3, h4, h5]
    · have h1 : ¬ (3 * n + 2 = p ∧ 3 * n + 2 < init.length) := by omega
      have h2 : ¬ (3 * n + 1 = p ∧ 3 * n + 1 < init.length) := by omega
      have h3 : ¬ (3 * n = p ∧ 3 * n < init.length) := by omega
      simp [h1, h2, h3, hp]

omit [LinearOrderedField F] in
theorem vec3_eta (a : vec3 F) : (⟨a.get 0, a.get 1, a.get 2⟩ : vec3 F) = a := by
  cases a; rfl

theorem groupLoop_groupAt (g : Nat → vec3 F → vec3 F) (init : List F) (v : Nat)
    (hv : 3 * v + 2 < init.length) :
    groupAt ((strideThree init.length).foldl (groupStep g) init) v
      = g (3 * v) (groupAt init v) := by
  have h0 : 3 * v < 3 * ((init.length + 2) / 3) ∧ 3 * v < init.length := by omega
  have h1 : 3 * v + 1 < 3 * ((init.length + 2) / 3) ∧ 3 * v + 1 < init.length := by omega
  have h2 : 3 * v + 2 < 3 * ((init.length + 2) / 3) ∧ 3 * v + 2 < init.length := by omega
  have d0 : 3 * v / 3 = v := by omega
  have d1 : (3 * v + 1) / 3 = v := by omega
  have d2 : (3 * v + 2) / 3 = v := by omega
  have m0 : 3 * v % 3 = 0 := by omega
  have m1 : (3 * v + 1) % 3 = 1 := by omega
  have m2 : (3 * v + 2) % 3 = 2 := by omega
  unfold strideThree
  conv_lhs => unfold groupAt
  rw [groupLoop_getD, groupLoop_getD, groupLoop_getD, if_pos h0, if_pos h1, if_pos h2,
    d0, d1, d2, m0, m1, m2]
  exact vec3_eta _

theorem faceNormalStep_eq (lm : LibM F) (vs : List F) (fs : List Int) :
    faceNormalStep lm vs fs = groupStep (fun i _ => storedFaceNormal lm vs fs i) := rfl

theorem finalizeStep_eq (lm : LibM F) :
    finalizeStep lm = groupStep (fun _ v => finalNormal lm v) := rfl

theorem computeFaceNormals_getD (lm : LibM F) (vs : List F) (fs : List Int) (t k : Nat)
    (hk : k < 3) (ht : 3 * t + k < fs.length) :
    (computeFaceNormals lm vs fs).getD (3 * t + k) 0
      = (storedFaceNormal lm vs fs (3 * t)).get k := by
  unfold computeFaceNormals strideThree
  rw [faceNormalStep_eq, groupLoop_getD]
  have h0 : 3 * t + k < 3 * ((fs.length + 2) / 3)
      ∧ 3 * t + k < (List.replicate fs.length (0 : F)).length := by
    simp; omega
  have d0 : (3 * t + k) / 3 = t := by omega
  have m0 : (3 * t + k) % 3 = k := by omega
  rw [if_pos h0, d0, m0]



theorem addAt_getD (ns : List F) (q p : Nat) (d : F) :
    (addAt ns q d).getD p 0 = if q = p ∧ q < ns.length then ns.getD p 0 + d else ns.getD p 0 := by
  unfold addAt
  rw [getD_set_eq]
  by_cases h : q = p
  · subst h; rfl
  · simp [h]

theorem length_addAt (ns : List F) (q : Nat) (d : F) : (addAt ns q d).length = ns.length := by
  simp [addAt]

theorem length_accumulateCorner (lm : LibM F) (vs : List F) (fs : List Int) (fn : List F)
    (i : Nat) (ns : List F) (j : Nat) :
    (accumulateCorner lm vs fs fn i ns j).length = ns.length := by
  unfold accumulateCorner
  cases angleAt lm vs fs i j with
  | none => rfl
  | some a => simp [List.range_succ, length_addAt]

theorem accumulateCorner_getD (lm : LibM F) (vs : List F) (fs : List Int) (fn : List F)
    (i : Nat) (ns : List F) (j p : Nat) :
    (accumulateCorner lm vs fs fn i ns j).getD p 0
      = ns.getD p 0 + (if p < ns.length then cornerTerm lm vs fs fn i j p else 0) := by
  unfold accumulateCorner cornerTerm
  cases angleAt lm vs fs i j with
  | none => simp
  | some a =>
    have hr : List.range 3 = [0, 1, 2] := by decide
    simp only [hr, List.foldl_cons, List.foldl_nil, addAt_getD, length_addAt, Nat.add_zero]
    generalize (fs.getD (i + j) 0).toNat = q
    split_ifs <;>
      first
      | (exfalso; omega)
      | (have h3 : p % 3 = 0 := by omega
         rw [h3, Nat.add_zero])
      | (have h3 : p % 3 = 1 := by omega
         rw [h3])
      | (have h3 : p % 3 = 2 := by omega
         rw [h3])
      | simp

theorem length_accumulateFace (lm : LibM F) (vs : List F) (fs : List Int) (fn : List F)
    (ns : List F) (i : Nat) :
    (accumulateFace lm vs fs fn ns i).length = ns.length := by
  have hr : List.range 3 = [0, 1, 2] := by decide
  simp [accumulateFace, hr, length_accumulateCorner]

theorem accumulateFace_getD (lm : LibM F) (vs : List F) (fs : List Int) (fn : List F)
    (ns : List F) (i p : Nat) :
    (accumulateFace lm vs fs fn ns i).getD p 0
      = ns.getD p 0 + (if p < ns.length then
          cornerTerm lm vs fs fn i 0 p + cornerTerm lm vs fs fn i 1 p + cornerTerm lm vs fs fn i 2 p
          else 0) := by
  have hr : List.range 3 = [0, 1, 2] := by decide
  simp only [accumulateFace, hr, List.foldl_cons, List.foldl_nil, accumulateCorner_getD,
    length_accumulateCorner]
  by_cases hp : p < ns.length
  · simp only [hp, if_true]; ring
  · simp [hp]

theorem length_foldl_accumulateFace (lm : LibM F) (vs : List F) (fs : List Int) (fn : List F)
    (is : List Nat) (ns : List F) :
    (is.foldl (accumulateFace lm vs fs fn) ns).length = ns.length := by
  induction is generalizing ns with
  | nil => rfl
  | cons i is ih => simp [ih, length_accumulateFace]

theorem foldl_accumulateFace_getD (lm : LibM F) (vs : List F) (fs : List Int) (fn : List F)
    (is : List Nat) (ns : List F) (p : Nat) :
    (is.foldl (accumulateFace lm vs fs fn) ns).getD p 0
      = ns.getD p 0 + (if p < ns.length then
          (is.map (fun i => cornerTerm lm vs fs fn i 0 p + cornerTerm lm vs fs fn i 1 p
            + cornerTerm lm vs fs fn i 2 p)).sum
          else 0) := by
  induction is generalizing ns with
  | nil => simp
  | cons i is ih =>
    rw [List.foldl_cons, ih, accumulateFace_getD, length_accumulateFace]
    by_cases hp : p < ns.length
    · simp only [hp, if_true, List.map_cons, List.sum_cons]; ring
    · simp [hp]

theorem length_resize {α : Type} (l : List α) (n : Nat) (v : α) : (resize l n v).length = n := by
  simp [resize]; omega

theorem length_accumulateNormals (lm : LibM F) (vs : List F) (fs : List Int) (ns : List F) :
    (accumulateNormals lm vs fs ns).length = vs.length := by
  simp [accumulateNormals, length_foldl_accumulateFace, length_resize]

theorem accumulateNormals_getD (lm : LibM F) (vs : List F) (fs : List Int) (ns : List F) (p : Nat) :
    (accumulateNormals lm vs fs ns).getD p 0
      = (resize ns vs.length 0).getD p 0 + (if p < vs.length then
          ((strideThree fs.length).map (fun i =>
            cornerTerm lm vs fs (computeFaceNormals lm vs fs) i 0 p
            + cornerTerm lm vs fs (computeFaceNormals lm vs fs) i 1 p
            + cornerTerm lm vs fs (computeFaceNormals lm vs fs) i 2 p)).sum
          else 0) := by
  unfold accumulateNormals
  rw [foldl_accumulateFace_getD, length_resize]

theorem length_ComputeVertexNormals (lm : LibM F) (vs : List F) (fs : List Int) (ns : List F) :
    (ComputeVertexNormals lm vs fs ns).length = vs.length := by
  simp [ComputeVertexNormals, finalizeStep_eq, length_foldl_groupStep, length_accumulateNormals]

theorem ComputeVertexNormals_groupAt (lm : LibM F) (vs : List F) (fs : List Int) (ns : List F)
    (v : Nat) (hv : v < vs.length / 3) :
    groupAt (ComputeVertexNormals lm vs fs ns) v
      = finalNormal lm (groupAt (accumulateNormals lm vs fs ns) v) := by
  unfold ComputeVertexNormals
  rw [finalizeStep_eq]
  have h := groupLoop_groupAt (fun _ v => finalNormal lm v) (accumulateNormals lm vs fs ns) v
    (by rw [length_accumulateNormals]; omega)
  simpa using h



theorem finalNormal_zero (lm : LibM F) : finalNormal lm (vec3.zero : vec3 F) = vec3.zero := by
  unfold finalNormal dropResult
  split_ifs <;> rfl

theorem dot_self_pos (a : vec3 F) (h : a ≠ vec3.zero) : 0 < vec3.dot a a := by
  obtain ⟨x, y, z⟩ := a
  simp only [vec3.dot]
  by_contra hc
  apply h
  have hx : x = 0 := by nlinarith [sq_nonneg x, sq_nonneg y, sq_nonneg z]
  have hy : y = 0 := by nlinarith [sq_nonneg x, sq_nonneg y, sq_nonneg z]
  have hz : z = 0 := by nlinarith [sq_nonneg x, sq_nonneg y, sq_nonneg z]
  simp [vec3.zero, hx, hy, hz]

theorem finalNormal_eq_zero_iff (lm : LibM F) (hs : ∀ x : F, 0 < x → 0 < lm.sqrt x)
    (a : vec3 F) :
    finalNormal lm a = vec3.zero ↔ a = vec3.zero := by
  constructor
  · intro h
    by_contra hne
    have hpos : vec3.length lm a > 0 := hs _ (dot_self_pos a hne)
    unfold finalNormal dropResult at h
    rw [if_pos hpos] at h
    exact hne h
  · intro h
    rw [h]
    exact finalNormal_zero lm

theorem getD_resize_nil (n p : Nat) : (resize ([] : List F) n 0).getD p 0 = 0 := by
  simp [resize, List.getD_eq_getElem?_getD, List.getElem?_replicate]
  split_ifs <;> rfl

theorem getD_mem_of_lt (fs : List Int) (p : Nat) (h : p < fs.length) : fs.getD p 0 ∈ fs := by
  rw [List.getD_eq_getElem?_getD, List.getElem?_eq_getElem h]
  simp

theorem cornerTerm_eq_zero (lm : LibM F) (vs : List F) (fs : List Int) (hr : InRange vs fs)
    (v : Nat) (hd : ∀ t, 3 * t + 2 < fs.length → Incident fs t v → Degenerate lm vs fs t)
    (t j k : Nat) (ht : 3 * t + 2 < fs.length) (hj : j < 3) (hk : k < 3) :
    cornerTerm lm vs fs (computeFaceNormals lm vs fs) (3 * t) j (3 * v + k) = 0 := by
  unfold cornerTerm
  have d0 : (3 * v + k) / 3 = v := by omega
  have m0 : (3 * v + k) % 3 = k := by omega
  rw [d0, m0]
  split_ifs with hq
  · have hmem : fs.getD (3 * t + j) 0 ∈ fs := getD_mem_of_lt fs _ (by omega)
    have hnn := (hr.2 _ hmem).1
    have hinc : Incident fs t v := ⟨j, hj, by omega⟩
    have hdeg := hd t ht hinc
    have hz : storedFaceNormal lm vs fs (3 * t) = vec3.zero := by
      unfold storedFaceNormal
      exact if_pos hdeg
    rw [computeFaceNormals_getD lm vs fs t k hk (by omega), hz]
    have hg : (vec3.zero : vec3 F).get k = 0 := by
      unfold vec3.get vec3.zero
      split <;> rfl
    rw [hg]
    cases angleAt lm vs fs (3 * t) j <;> simp
  · rfl

theorem accumulateNormals_zero_of_degenerate (lm : LibM F) (vs : List F) (fs : List Int)
    (hr : InRange vs fs) (v : Nat)
    (hd : ∀ t, 3 * t + 2 < fs.length → Incident fs t v → Degenerate lm vs fs t)
    (k : Nat) (hk : k < 3) :
    (accumulateNormals lm vs fs []).getD (3 * v + k) 0 = 0 := by
  rw [accumulateNormals_getD, getD_resize_nil, zero_add]
  split_ifs
  · apply List.sum_eq_zero
    intro x hx
    rw [List.mem_map] at hx
    obtain ⟨i, hi, rfl⟩ := hx
    unfold strideThree at hi
    rw [List.mem_map] at hi
    obtain ⟨t, ht, rfl⟩ := hi
    rw [List.mem_range] at ht
    have h3 := hr.1
    have ht2 : 3 * t + 2 < fs.length := by omega
    rw [cornerTerm_eq_zero lm vs fs hr v hd t 0 k ht2 (by omega) hk,
      cornerTerm_eq_zero lm vs fs hr v hd t 1 k ht2 (by omega) hk,
      cornerTerm_eq_zero lm vs fs hr v hd t 2 k ht2 (by omega) hk]
    simp
  · rfl

/-- Claim C1, as amended.  For a mesh with in-range indices and a fresh normals
array, the output normal of a vertex is the zero vector exactly when the vector
accumulated for that vertex is the zero vector, and it is the zero vector
whenever every triangle incident to the vertex is degenerate. -/
theorem ComputeVertexNormals_zero_normal (lm : LibM F)
    (hs : ∀ x : F, 0 < x → 0 < lm.sqrt x) (vertices : List F) (faces : List Int)
    (hr : InRange vertices faces) (v : Nat) (hv : v < vertices.length / 3) :
    (groupAt (ComputeVertexNormals lm vertices faces []) v = vec3.zero
        ↔ groupAt (accumulateNormals lm vertices faces []) v = vec3.zero)
      ∧ ((∀ t, 3 * t + 2 < faces.length → Incident faces t v →
            Degenerate lm vertices faces t)
          → groupAt (ComputeVertexNormals lm vertices faces []) v = vec3.zero) := by
  rw [ComputeVertexNormals_groupAt lm vertices faces [] v hv]
  refine ⟨finalNormal_eq_zero_iff lm hs _, fun hd => ?_⟩
  have h0 := accumulateNormals_zero_of_degenerate lm vertices faces hr v hd 0 (by omega)
  have h1 := accumulateNormals_zero_of_degenerate lm vertices faces hr v hd 1 (by omega)
  have h2 := accumulateNormals_zero_of_degenerate lm vertices faces hr v hd 2 (by omega)
  have hg : groupAt (accumulateNormals lm vertices faces []) v = vec3.zero := by
    unfold groupAt vec3.zero
    rw [h1, h2]
    rw [Nat.add_zero] at h0
    rw [h0]
  rw [hg]
  exact finalNormal_zero lm

end SynthesisLemmas

/-! ## `ComputeVertexNormals` over the reals -/

theorem finalNormal_real (a : vec3 ℝ) : finalNormal realLibM a = a := by
  unfold finalNormal dropResult
  split_ifs with h
  · rfl
  · obtain ⟨x, y, z⟩ := a
    simp only [vec3.length, realLibM, vec3.dot, gt_iff_lt, Real.sqrt_pos, not_lt] at h
    have hx : x = 0 := by nlinarith [sq_nonneg x, sq_nonneg y, sq_nonneg z]
    have hy : y = 0 := by nlinarith [sq_nonneg x, sq_nonneg y, sq_nonneg z]
    have hz : z = 0 := by nlinarith [sq_nonneg x, sq_nonneg y, sq_nonneg z]
    simp [vec3.zero, hx, hy, hz]

theorem faceNormals_rightTriangle :
    computeFaceNormals realLibM rightTriangle [0, 1, 2] = [0, 0, 1] := by
  have hs : strideThree 3 = [0] := by decide
  simp [computeFaceNormals, hs, faceNormalStep, storedFaceNormal, rawFaceNormal, vertexAt,
    rightTriangle,
    vec3.sub, vec3.cross, vec3.length, vec3.dot, realLibM, dropResult, vec3.get, vec3.zero]
  norm_num

theorem angle_rightTriangle_0 :
    angleAt realLibM rightTriangle [0, 1, 2] 0 0 = some (Real.pi / 2) := by
  simp [angleAt, cornerAngle, vertexAt, rightTriangle, vec3.sub, vec3.length, vec3.dot, realLibM]

theorem sqrt2_inv : (1 : ℝ) / (Real.sqrt 2) = Real.sqrt 2 / 2 := by
  have h : Real.sqrt 2 * Real.sqrt 2 = 2 := Real.mul_self_sqrt (by norm_num)
  have hpos : 0 < Real.sqrt 2 := Real.sqrt_pos.2 (by norm_num)
  field_simp

theorem arccos_sqrt2 : Real.arccos (Real.sqrt 2 / 2) = Real.pi / 4 := by
  rw [← Real.cos_pi_div_four]
  apply Real.arccos_cos
  · positivity
  · linarith [Real.pi_pos]

theorem inv_sqrt_two_facts :
    (-1 ≤ (Real.sqrt (1 + 1))⁻¹ ∧ (Real.sqrt (1 + 1))⁻¹ ≤ 1)
      ∧ Real.arccos (Real.sqrt (1 + 1))⁻¹ = Real.pi / 4 := by
  have e : (Real.sqrt (1 + 1))⁻¹ = Real.sqrt 2 / 2 := by
    rw [show (1 : ℝ) + 1 = 2 by norm_num, ← sqrt2_inv, one_div]
  have h : Real.sqrt 2 * Real.sqrt 2 = 2 := Real.mul_self_sqrt (by norm_num)
  have hpos : 0 ≤ Real.sqrt 2 := Real.sqrt_nonneg 2
  rw [e, arccos_sqrt2]
  refine ⟨⟨by linarith, by nlinarith⟩, rfl⟩

theorem angle_rightTriangle_1 :
    angleAt realLibM rightTriangle [0, 1, 2] 0 1 = some (Real.pi / 4) := by
  simp [angleAt, cornerAngle, vertexAt, rightTriangle, vec3.sub, vec3.length, vec3.dot, realLibM]
  exact inv_sqrt_two_facts

theorem angle_rightTriangle_2 :
    angleAt realLibM rightTriangle [0, 1, 2] 0 2 = some (Real.pi / 4) := by
  simp [angleAt, cornerAngle, vertexAt, rightTriangle, vec3.sub, vec3.length, vec3.dot, realLibM]
  exact inv_sqrt_two_facts

theorem ComputeVertexNormals_rightTriangle_eq :
    ComputeVertexNormals realLibM rightTriangle [0, 1, 2] []
        = [0, 0, Real.pi / 2, 0, 0, Real.pi / 4, 0, 0, Real.pi / 4] := by
  have hs : strideThree 3 = [0] := by decide
  have hs9 : strideThree 9 = [0, 3, 6] := by decide
  have hr : List.range 3 = [0, 1, 2] := by decide
  have hl : rightTriangle.length = 9 := by simp [rightTriangle]
  simp [ComputeVertexNormals, length_accumulateNormals, hl, hs9, finalizeStep, finalNormal_real,
    vec3.get]
  simp [accumulateNormals, hs, hl, hr, accumulateFace, accumulateCorner,
    faceNormals_rightTriangle, angle_rightTriangle_0, angle_rightTriangle_1,
    angle_rightTriangle_2, addAt, resize]

theorem faceNormals_doubledTriangle :
    computeFaceNormals realLibM rightTriangle [0, 1, 2, 0, 2, 1] = [0, 0, 1, 0, 0, -1] := by
  have hs : strideThree 6 = [0, 3] := by decide
  simp [computeFaceNormals, hs, faceNormalStep, storedFaceNormal, rawFaceNormal, vertexAt,
    rightTriangle,
    vec3.sub, vec3.cross, vec3.length, vec3.dot, realLibM, dropResult, vec3.get, vec3.zero]
  norm_num

theorem angles_doubledTriangle (i j : Nat) (h : (i = 0 ∨ i = 3) ∧ j < 3) :
    angleAt realLibM rightTriangle [0, 1, 2, 0, 2, 1] i j
      = some (if j = 0 then Real.pi / 2 else Real.pi / 4) := by
  obtain ⟨hi, hj⟩ := h
  have hj' : j = 0 ∨ j = 1 ∨ j = 2 := by omega
  rcases hi with rfl | rfl <;> rcases hj' with rfl | rfl | rfl <;>
    simp [angleAt, cornerAngle, vertexAt, rightTriangle, vec3.sub, vec3.length, vec3.dot,
      realLibM] <;>
    exact inv_sqrt_two_facts

/-- Claim C1, counterexample.  The triangle `(0,0,0)`, `(1,0,0)`, `(0,1,0)`
listed twice, once with each winding: the indices are in range, triangle 0 is
incident to vertex 0 and is not degenerate, and still every output normal,
that of vertex 0 included, is the zero vector. -/
theorem ComputeVertexNormals_cancelling_faces :
    ComputeVertexNormals realLibM rightTriangle [0, 1, 2, 0, 2, 1] [] = [0, 0, 0, 0, 0, 0, 0, 0, 0]
      ∧ InRange rightTriangle [0, 1, 2, 0, 2, 1]
      ∧ Incident [0, 1, 2, 0, 2, 1] 0 0
      ∧ ¬ Degenerate realLibM rightTriangle [0, 1, 2, 0, 2, 1] 0 := by
  have hs : strideThree 6 = [0, 3] := by decide
  have hs9 : strideThree 9 = [0, 3, 6] := by decide
  have hr : List.range 3 = [0, 1, 2] := by decide
  have hl : rightTriangle.length = 9 := by simp [rightTriangle]
  refine ⟨?_, ⟨by decide, ?_⟩, ⟨0, by decide, by simp⟩, ?_⟩
  · simp [ComputeVertexNormals, length_accumulateNormals, hl, hs9, finalizeStep, finalNormal_real,
      vec3.get]
    simp [accumulateNormals, hs, hl, hr, accumulateFace, accumulateCorner,
      faceNormals_doubledTriangle, angles_doubledTriangle, addAt, resize]
  · intro f hf
    simp at hf
    rw [hl]
    omega
  · simp [Degenerate, rawFaceNormal, vertexAt, rightTriangle, vec3.sub, vec3.cross, vec3.length,
      vec3.dot, realLibM]
    norm_num

/-- Witness of `ComputeVertexNormals_zero_normal`: three collinear vertices. -/
theorem ComputeVertexNormals_zero_normal_witness :
    groupAt (ComputeVertexNormals realLibM [0, 0, 0, 1, 0, 0, 2, 0, 0] [0, 1, 2] []) 0
      = vec3.zero :=
  (ComputeVertexNormals_zero_normal realLibM (fun _ hx => Real.sqrt_pos.2 hx)
    [0, 0, 0, 1, 0, 0, 2, 0, 0] [0, 1, 2]
    ⟨by decide, by
      intro f hf
      simp at hf
      rcases hf with rfl | rfl | rfl <;> simp⟩
    0 (by simp)).2
    (by
      intro t _ _
      have ht : t = 0 := by simp at *; omega
      subst ht
      simp [Degenerate, rawFaceNormal, vertexAt, vec3.sub, vec3.cross, vec3.length, vec3.dot,
        realLibM])

/-! ## The PLY reader -/

theorem toInt32_isInt32 (v : Int) : IsInt32 (toInt32 v) := by
  unfold IsInt32 toInt32
  omega

theorem atoi_isInt32 (s : List Nat) : IsInt32 (atoi s) := by
  unfold atoi
  exact toInt32_isInt32 _

theorem headerLoop_isInt32 (fuel : Nat) : ∀ (st st2 : PlyHeader),
    headerLoop fuel st = some st2 → IsInt32 st.vertices → IsInt32 st.faces →
    IsInt32 st2.vertices ∧ IsInt32 st2.faces := by
  induction fuel with
  | zero => intro st st2 h; simp [headerLoop] at h
  | succ n ih =>
    intro st st2 h hv hf
    rw [headerLoop] at h
    by_cases h1 : strncmp st.line (cstr ['e', 'n', 'd', '_', 'h', 'e', 'a', 'd', 'e', 'r']) 10 ≠ 0
    · rw [if_pos h1] at h
      refine ih _ _ h ?_ ?_
      · show IsInt32 (if _ then _ else _)
        split_ifs
        · exact atoi_isInt32 _
        · exact hv
      · show IsInt32 (if _ then _ else _)
        split_ifs
        · exact atoi_isInt32 _
        · exact hf
    · rw [if_neg h1] at h
      simp only [Option.some.injEq] at h
      subst h
      exact ⟨hv, hf⟩

theorem ReadPlyHeader_isInt32 (fuel : Nat) (st st2 : PlyHeader) (b : Bool)
    (h : ReadPlyHeader fuel st = .done (b, st2)) (hv : IsInt32 st.vertices)
    (hf : IsInt32 st.faces) : IsInt32 st2.vertices ∧ IsInt32 st2.faces := by
  unfold ReadPlyHeader at h
  simp only at h
  split_ifs at h with h1
  · simp only [Run.done.injEq, Prod.mk.injEq] at h
    obtain ⟨-, rfl⟩ := h
    exact ⟨hv, hf⟩
  · split at h
    · simp at h
    · rename_i st3 h3
      have hr := headerLoop_isInt32 fuel _ _ h3 (by simp [IsInt32]) hf
      split_ifs at h <;>
        · simp only [Run.done.injEq, Prod.mk.injEq] at h
          obtain ⟨-, rfl⟩ := h
          exact hr

theorem ReadPlyHeader_true_pos (fuel : Nat) (st st2 : PlyHeader)
    (h : ReadPlyHeader fuel st = .done (true, st2)) : 0 < st2.vertices := by
  unfold ReadPlyHeader at h
  simp only at h
  split_ifs at h with h1
  · simp at h
  · split at h
    · simp at h
    · split_ifs at h with h4
      · simp at h
      · simp only [Run.done.injEq, Prod.mk.injEq, true_and] at h
        subst h
        omega

theorem resizeTimes3_done {α : Type} (l l2 : List α) (count : Int) (v : α)
    (hc : IsInt32 count) (h : resizeTimes3 l count v = .done l2) :
    0 ≤ count ∧ (l2.length : Int) = 3 * count := by
  unfold resizeTimes3 at h
  simp only at h
  split_ifs at h with h1
  simp only [Run.done.injEq] at h
  subst h
  unfold IsInt32 at hc
  unfold toSizeT maxSize at h1
  rw [length_resize]
  unfold toSizeT
  by_cases hneg : count < 0
  · have e1 : count % 18446744073709551616 = count + 18446744073709551616 := by omega
    rw [e1] at h1
    exfalso
    obtain ⟨k, hk⟩ : ∃ k : Nat, (count + 18446744073709551616).toNat = k := ⟨_, rfl⟩
    rw [hk] at h1
    have hk1 : 18446744071562067968 ≤ k ∧ k < 18446744073709551616 := by omega
    have hd : k * 3 / 18446744073709551616 = 2 := by
      apply Nat.div_eq_of_lt_le <;> omega
    have hm := Nat.mod_add_div (k * 3) 18446744073709551616
    rw [hd] at hm
    omega
  · have e1 : count % 18446744073709551616 = count := by omega
    rw [e1]
    have hm : count.toNat * 3 % 18446744073709551616 = count.toNat * 3 := by
      apply Nat.mod_eq_of_lt
      omega
    rw [hm]
    omega

theorem headerLoop_mono (fuel k : Nat) : ∀ (st st2 : PlyHeader),
    headerLoop fuel st = some st2 → headerLoop (fuel + k) st = some st2 := by
  induction fuel with
  | zero => intro st st2 h; simp [headerLoop] at h
  | succ n ih =>
    intro st st2 h
    rw [show n + 1 + k = (n + k) + 1 by omega]
    rw [headerLoop] at h
    rw [headerLoop]
    by_cases h1 : strncmp st.line (cstr ['e', 'n', 'd', '_', 'h', 'e', 'a', 'd', 'e', 'r']) 10 ≠ 0
    · rw [if_pos h1] at h
      rw [if_pos h1]
      exact ih _ _ h
    · rw [if_neg h1] at h
      rw [if_neg h1]
      exact h

theorem ReadPlyHeader_mono (fuel fuel2 : Nat) (hle : fuel ≤ fuel2) (st st2 : PlyHeader) (b : Bool)
    (h : ReadPlyHeader fuel st = .done (b, st2)) : ReadPlyHeader fuel2 st = .done (b, st2) := by
  obtain ⟨k, rfl⟩ : ∃ k, fuel2 = fuel + k := ⟨fuel2 - fuel, by omega⟩
  unfold ReadPlyHeader at h ⊢
  simp only at h ⊢
  split_ifs at h ⊢ with h1
  · exact h
  · split at h
    · simp at h
    · rename_i st3 h3
      rw [headerLoop_mono fuel k _ _ h3]
      exact h

theorem strncmp_ply (l : List Nat) (h : strncmp l (cstr ['p', 'l', 'y']) 3 = 0) :
    l.take 3 = cstr ['p', 'l', 'y'] := by
  rcases l with _ | ⟨a, _ | ⟨b, _ | ⟨c, rest⟩⟩⟩ <;>
    simp [strncmp, cstr] at h ⊢
  all_goals (split_ifs at h <;> omega)

theorem getline_ply (bytes line : List Nat)
    (h : (getline ⟨bytes, true⟩ line 100).2.take 3 = cstr ['p', 'l', 'y']) :
    bytes.take 3 = cstr ['p', 'l', 'y'] := by
  rcases bytes with _ | ⟨a, _ | ⟨b, _ | ⟨c, rest⟩⟩⟩
  · simp [getline, getlineAux, cstr] at h
  · by_cases ha : a = 10 <;> simp [getline, getlineAux, cstr, ha] at h
  · by_cases ha : a = 10 <;> by_cases hb : b = 10 <;>
      simp [getline, getlineAux, cstr, ha, hb] at h
  · by_cases ha : a = 10 <;> by_cases hb : b = 10 <;> by_cases hc : c = 10 <;>
      simp [getline, getlineAux, cstr, ha, hb, hc] at h ⊢
    exact h

theorem magic_mismatch (bytes line : List Nat) (h : bytes.take 3 ≠ cstr ['p', 'l', 'y']) :
    strncmp (getline ⟨bytes, true⟩ line 100).2 (cstr ['p', 'l', 'y']) 3 ≠ 0 :=
  fun h0 => h (getline_ply bytes line (strncmp_ply _ h0))

theorem Run.bind_eq_done {α β : Type} (r : Run α) (f : α → Run β) (b : β) :
    r.bind f = .done b ↔ ∃ a, r = .done a ∧ f a = .done b := by
  cases r <;> simp [Run.bind]

theorem forRun_invariant {σ ι : Type} (P : σ → Prop) (body : σ → ι → Run σ)
    (hstep : ∀ s i s2, body s i = .done s2 → P s → P s2) :
    ∀ (l : List ι) (s s2 : σ), forRun body l s = .done s2 → P s → P s2 := by
  intro l
  induction l with
  | nil =>
    intro s s2 h hp
    simp only [forRun, Run.done.injEq] at h
    subst h
    exact hp
  | cons i is ih =>
    intro s s2 h hp
    rw [forRun, Run.bind_eq_done] at h
    obtain ⟨a, ha, h2⟩ := h
    exact ih a s2 h2 (hstep s i a ha hp)

theorem foldl_invariant {σ ι : Type} (P : σ → Prop) (body : σ → ι → σ)
    (hstep : ∀ s i, P s → P (body s i)) :
    ∀ (l : List ι) (s : σ), P s → P (l.foldl body s) := by
  intro l
  induction l with
  | nil => intro s hp; exact hp
  | cons i is ih => intro s hp; exact ih _ (hstep s i hp)

theorem length_Add3Items {α : Type} (a b c : α) (i : Nat) (l : List α) :
    (Add3Items a b c i l).length = l.length := by
  simp [Add3Items]

section PlyLemmas

variable {F : Type} [LinearOrderedField F]

theorem ComputeBoundingBox_fields (vs : List F) (mesh : TriangleMesh F) :
    (ComputeBoundingBox vs mesh).vertices_ = mesh.vertices_
      ∧ (ComputeBoundingBox vs mesh).faces_ = mesh.faces_
      ∧ (ComputeBoundingBox vs mesh).normals_ = mesh.normals_
      ∧ (ComputeBoundingBox vs mesh).texCoords_ = mesh.texCoords_
      ∧ (ComputeBoundingBox vs mesh).diffuseMap_ = mesh.diffuseMap_ := by
  unfold ComputeBoundingBox
  exact foldl_invariant
    (fun m : TriangleMesh F => m.vertices_ = mesh.vertices_ ∧ m.faces_ = mesh.faces_
      ∧ m.normals_ = mesh.normals_ ∧ m.texCoords_ = mesh.texCoords_
      ∧ m.diffuseMap_ = mesh.diffuseMap_)
    (boundingBoxStep vs) (fun s i hp => hp) _ mesh ⟨rfl, rfl, rfl, rfl, rfl⟩

theorem ReadPlyVertices_lengths (ff : FloatFormat F) (env : Env) (hn : Bool) (fin : ifstream)
    (mesh : TriangleMesh F) :
    (ReadPlyVertices ff env hn fin mesh).2.vertices_.length = mesh.vertices_.length
      ∧ (ReadPlyVertices ff env hn fin mesh).2.normals_.length = mesh.normals_.length
      ∧ (ReadPlyVertices ff env hn fin mesh).2.faces_ = mesh.faces_
      ∧ (ReadPlyVertices ff env hn fin mesh).2.texCoords_ = mesh.texCoords_ := by
  unfold ReadPlyVertices
  refine foldl_invariant
    (fun st : ifstream × TriangleMesh F => st.2.vertices_.length = mesh.vertices_.length
      ∧ st.2.normals_.length = mesh.normals_.length ∧ st.2.faces_ = mesh.faces_
      ∧ st.2.texCoords_ = mesh.texCoords_)
    (readVertexStep ff env hn) ?_ _ (fin, mesh) ⟨rfl, rfl, rfl, rfl⟩
  intro s i hp
  unfold readVertexStep
  cases hn
  · simpa [length_Add3Items] using hp
  · simpa [length_Add3Items] using hp

theorem ReadPlyFaces_lengths (env : Env) (fin fin2 : ifstream) (mesh m2 : TriangleMesh F)
    (h : ReadPlyFaces env fin mesh = .done (fin2, m2)) :
    m2.faces_.length = mesh.faces_.length ∧ m2.vertices_ = mesh.vertices_
      ∧ m2.normals_ = mesh.normals_ ∧ m2.texCoords_ = mesh.texCoords_ := by
  unfold ReadPlyFaces at h
  rw [Run.bind_eq_done] at h
  obtain ⟨st, hst, h2⟩ := h
  simp only [Run.done.injEq, Prod.mk.injEq] at h2
  obtain ⟨-, rfl⟩ := h2
  refine forRun_invariant
    (fun st : ifstream × TriangleMesh F × List Nat =>
      st.2.1.faces_.length = mesh.faces_.length ∧ st.2.1.vertices_ = mesh.vertices_
        ∧ st.2.1.normals_ = mesh.normals_ ∧ st.2.1.texCoords_ = mesh.texCoords_)
    (readFaceStep env) ?_ _ _ _ hst ⟨rfl, rfl, rfl, rfl⟩
  intro s i s2 hs hp
  unfold readFaceStep at hs
  simp only at hs
  split_ifs at hs
  simp only [Run.done.injEq] at hs
  subst hs
  simpa [length_Add3Items] using hp

theorem loadPlyBody_lengths (lm : LibM F) (ff : FloatFormat F) (env : Env) (hn : Bool)
    (vertices faces : Int) (fin : ifstream) (mesh m : TriangleMesh F)
    (hv : IsInt32 vertices) (hf : IsInt32 faces)
    (h : loadPlyBody lm ff env hn vertices faces fin mesh = .done m) :
    (m.vertices_.length : Int) = 3 * vertices ∧ (m.faces_.length : Int) = 3 * faces := by
  unfold loadPlyBody at h
  rw [Run.bind_eq_done] at h
  obtain ⟨vs, hvs, h⟩ := h
  rw [Run.bind_eq_done] at h
  obtain ⟨ns, -, h⟩ := h
  simp only at h
  rw [Run.bind_eq_done] at h
  obtain ⟨fs, hfs, h⟩ := h
  rw [Run.bind_eq_done] at h
  obtain ⟨⟨fin2, m2⟩, hrf, h⟩ := h
  simp only [Run.done.injEq] at h
  subst h
  have hV := ReadPlyVertices_lengths ff env hn fin { mesh with vertices_ := vs, normals_ := ns }
  have hF := ReadPlyFaces_lengths env _ _ _ _ hrf
  have hvs2 := resizeTimes3_done _ _ _ _ hv hvs
  have hfs2 := resizeTimes3_done _ _ _ _ hf hfs
  simp only at hF hV
  rw [(ComputeBoundingBox_fields _ _).1, (ComputeBoundingBox_fields _ _).2.1]
  cases hn
  · simp only [Bool.not_false, if_true]
    rw [hF.1, hF.2.1, hV.1]
    exact ⟨hvs2.2, hfs2.2⟩
  · simp only [Bool.not_true, Bool.false_eq_true, if_false]
    rw [hF.1, hF.2.1, hV.1]
    exact ⟨hvs2.2, hfs2.2⟩

/-- When `ReadFromPly` returns `true`, the positions array has three entries
per vertex counted by `ReadPlyHeader` and the index array three entries per
face counted by it. -/
theorem ReadFromPly_array_lengths (lm : LibM F) (ff : FloatFormat F) (env : Env) (fuel : Nat)
    (bytes : List Nat) (mesh m : TriangleMesh F) (hasNormals hn2 b : Bool) (hd : PlyHeader)
    (hh : ReadPlyHeader fuel ⟨⟨bytes, true⟩, env.line0, 0, 0, hasNormals⟩ = .done (b, hd))
    (h : ReadFromPly lm ff env fuel (some bytes) mesh hasNormals = .done (true, m, hn2)) :
    (m.vertices_.length : Int) = 3 * hd.vertices ∧ (m.faces_.length : Int) = 3 * hd.faces := by
  unfold ReadFromPly at h
  simp only at h
  rw [hh] at h
  simp only [Run.bind] at h
  cases b
  · simp at h
  · simp only [Bool.not_true, Bool.false_eq_true, if_false] at h
    have hb := (Run.bind_eq_done _ _ _).1 h
    obtain ⟨m2, hm2, h3⟩ := hb
    simp only [Run.done.injEq, Prod.mk.injEq, true_and] at h3
    obtain ⟨rfl, -⟩ := h3
    have hr := ReadPlyHeader_isInt32 fuel _ _ _ hh (by simp [IsInt32]) (by simp [IsInt32])
    exact loadPlyBody_lengths lm ff env _ _ _ _ mesh m2 hr.1 hr.2 hm2

/-- When the header scan ends with a vertex count that is zero or negative,
`ReadPlyHeader` returns `false` and `ReadFromPly` returns `false` with the
record as it was, for every larger bound on the header loop as well. -/
theorem ReadFromPly_rejects_nonpositive_vertex_count (lm : LibM F) (ff : FloatFormat F)
    (env : Env) (fuel fuel2 : Nat) (bytes : List Nat) (mesh : TriangleMesh F)
    (hasNormals b : Bool) (hd : PlyHeader)
    (h : ReadPlyHeader fuel ⟨⟨bytes, true⟩, env.line0, 0, 0, hasNormals⟩ = .done (b, hd))
    (hv : hd.vertices ≤ 0) (hle : fuel ≤ fuel2) :
    ReadPlyHeader fuel2 ⟨⟨bytes, true⟩, env.line0, 0, 0, hasNormals⟩ = .done (false, hd)
      ∧ ReadFromPly lm ff env fuel2 (some bytes) mesh hasNormals
          = .done (false, mesh, hd.hasNormals) := by
  have hb : b = false := by
    cases b
    · rfl
    · have := ReadPlyHeader_true_pos fuel _ _ h
      omega
  subst hb
  have h2 := ReadPlyHeader_mono fuel fuel2 hle _ _ _ h
  refine ⟨h2, ?_⟩
  unfold ReadFromPly
  simp only
  rw [h2]
  simp [Run.bind]

/-- Claim C10, as amended.  When the file does not begin with the three
characters `ply`, `ReadPlyHeader` returns `false` and `ReadFromPly` returns
`false` with the record and the global as they were. -/
theorem ReadFromPly_rejects_bad_magic (lm : LibM F) (ff : FloatFormat F) (env : Env)
    (fuel : Nat) (bytes : List Nat) (mesh : TriangleMesh F) (hasNormals : Bool)
    (h : bytes.take 3 ≠ cstr ['p', 'l', 'y']) :
    (∃ hd,
        ReadPlyHeader fuel ⟨⟨bytes, true⟩, env.line0, 0, 0, hasNormals⟩ = .done (false, hd))
      ∧ ReadFromPly lm ff env fuel (some bytes) mesh hasNormals
          = .done (false, mesh, hasNormals) := by
  have hm := magic_mismatch bytes env.line0 h
  have hh : ReadPlyHeader fuel ⟨⟨bytes, true⟩, env.line0, 0, 0, hasNormals⟩
      = .done (false, ⟨(getline ⟨bytes, true⟩ env.line0 100).1,
          (getline ⟨bytes, true⟩ env.line0 100).2, 0, 0, hasNormals⟩) := by
    unfold ReadPlyHeader
    simp only
    rw [if_pos hm]
  refine ⟨⟨_, hh⟩, ?_⟩
  unfold ReadFromPly
  simp only
  rw [hh]
  simp [Run.bind]

end PlyLemmas

/-! ## The scenario file `trianglePly` -/

theorem binary32_zero : realFloatFormat.ofBits 0 = 0 := by
  simp [realFloatFormat, binary32Value]

theorem binary32_one : realFloatFormat.ofBits 1065353216 = 1 := by
  simp [realFloatFormat, binary32Value]
  norm_num

theorem header_trianglePly : ∃ line,
    ReadPlyHeader 20 ⟨⟨trianglePly, true⟩, plainEnv.line0, 0, 0, false⟩
      = .done (true, ⟨⟨triangleBody, true⟩, line, 3, 1, false⟩) := ⟨_, rfl⟩

theorem vertices_trianglePly :
    (ReadPlyVertices realFloatFormat plainEnv false ⟨triangleBody, true⟩
      { TriangleMesh.new realFloatFormat with vertices_ := List.replicate 9 0 })
    = (⟨[3, 0, 0, 0, 0, 1, 0, 0, 0, 2, 0, 0, 0], true⟩,
       { TriangleMesh.new realFloatFormat with vertices_ := rightTriangle }) := by
  have hr : List.range 3 = [0, 1, 2] := by decide
  simp [ReadPlyVertices, hr, readVertexStep, read, triangleBody, le32, Add3Items, plainEnv,
    binary32_zero, binary32_one, rightTriangle, TriangleMesh.new, TriangleMesh.Clear]

theorem faces_trianglePly (mesh : TriangleMesh ℝ) (hf : mesh.faces_ = [0, 0, 0]) :
    ReadPlyFaces plainEnv ⟨[3, 0, 0, 0, 0, 1, 0, 0, 0, 2, 0, 0, 0], true⟩ mesh
      = .done (⟨[], true⟩, { mesh with faces_ := [0, 1, 2] }) := by
  have hr : List.range 1 = [0] := by decide
  simp [ReadPlyFaces, hf, hr, forRun, readFaceStep, read, plainEnv, Run.bind, le32, Add3Items,
    toInt32]

theorem texCoords_rightTriangle :
    ComputeTexCoords realLibM rightTriangle [] = [1 / 2, 1 / 2, 1 / 2, 1 / 2, 3 / 4, 1 / 2] := by
  have hr : List.range 3 = [0, 1, 2] := by decide
  have h0 : Complex.arg ⟨0, 0⟩ = 0 := Complex.arg_zero
  have h1 : Complex.arg ⟨1, 0⟩ = 0 := Complex.arg_one
  have h2 : Complex.arg ⟨0, 1⟩ = Real.pi / 2 := Complex.arg_I
  have hpi : Real.pi ≠ 0 := Real.pi_ne_zero
  simp [ComputeTexCoords, rightTriangle, hr, texCoordStep, resize, realLibM, h0, h1, h2]
  field_simp
  ring

theorem boundingBox_rightTriangle (mesh : TriangleMesh ℝ)
    (hmin : mesh.min_ = ⟨realFloatFormat.max, realFloatFormat.max, realFloatFormat.max⟩)
    (hmax : mesh.max_ = ⟨-realFloatFormat.max, -realFloatFormat.max, -realFloatFormat.max⟩) :
    ComputeBoundingBox rightTriangle mesh
      = { mesh with min_ := ⟨0, 0, 0⟩, max_ := ⟨1, 1, 0⟩ } := by
  have hr : List.range 3 = [0, 1, 2] := by decide
  have hpos : (0 : ℝ) < realFloatFormat.max := by
    simp [realFloatFormat]
    norm_num
  have hbig : (1 : ℝ) < realFloatFormat.max := by
    simp [realFloatFormat]
    norm_num
  simp [ComputeBoundingBox, rightTriangle, hr, boundingBoxStep, hmin, hmax, stdMin, stdMax, hpos,
    hbig]

theorem resizeTimes3_small {α : Type} (l : List α) (v : α) :
    resizeTimes3 l 3 v = .done (resize l 9 v) ∧ resizeTimes3 l 1 v = .done (resize l 3 v) := by
  constructor <;> simp [resizeTimes3, toSizeT, maxSize]

theorem ReadFromPly_trianglePly :
    ReadFromPly realLibM realFloatFormat plainEnv 20 (some trianglePly)
        (TriangleMesh.new realFloatFormat) false
      = .done (true, loadedTriangle, false) := by
  obtain ⟨line, hh⟩ := header_trianglePly
  have hv := vertices_trianglePly
  unfold ReadFromPly
  simp only [hh, Run.bind, Bool.not_true, Bool.false_eq_true, if_false]
  unfold loadPlyBody
  simp only [(resizeTimes3_small _ _).1, (resizeTimes3_small _ _).2, Run.bind,
    Bool.false_eq_true, if_false]
  have e1 : ({ TriangleMesh.new realFloatFormat with
      vertices_ := resize (TriangleMesh.new realFloatFormat).vertices_ 9 0,
      normals_ := (TriangleMesh.new realFloatFormat).normals_ } : TriangleMesh ℝ)
      = { TriangleMesh.new realFloatFormat with vertices_ := List.replicate 9 0 } := by
    simp [TriangleMesh.new, TriangleMesh.Clear, resize]
  rw [e1, hv]
  simp only
  rw [faces_trianglePly _ (by simp [TriangleMesh.new, TriangleMesh.Clear, resize])]
  simp only [Run.bind, Bool.not_false, if_true]
  rw [boundingBox_rightTriangle _ (by simp [TriangleMesh.new, TriangleMesh.Clear])
    (by simp [TriangleMesh.new, TriangleMesh.Clear])]
  simp [loadedTriangle, ComputeVertexNormals_rightTriangle_eq, texCoords_rightTriangle,
    TriangleMesh.new, TriangleMesh.Clear]

/-- Claim C2, the code at its input.  For the single triangle `(0,0,0)`,
`(1,0,0)`, `(0,1,0)` with indices `[0, 1, 2]` the three output normals are
`(0, 0, π/2)`, `(0, 0, π/4)`, `(0, 0, π/4)`: the face normal times the angle at
the corner, not normalised, so they differ from each other and none is
`(0, 0, 1)`; `ReadFromPly` on the file of that triangle returns the record
`loadedTriangle`, which holds these normals. -/
theorem ComputeVertexNormals_right_triangle :
    ComputeVertexNormals realLibM rightTriangle [0, 1, 2] []
        = [0, 0, Real.pi / 2, 0, 0, Real.pi / 4, 0, 0, Real.pi / 4]
      ∧ Real.pi / 2 ≠ 1 ∧ Real.pi / 4 ≠ 1
      ∧ ReadFromPly realLibM realFloatFormat plainEnv 20 (some trianglePly)
          (TriangleMesh.new realFloatFormat) false
        = .done (true, loadedTriangle, false) :=
  ⟨ComputeVertexNormals_rightTriangle_eq, fun h => by linarith [Real.pi_gt_three], fun h => by
    have := Real.pi_lt_d2
    norm_num at this
    linarith, ReadFromPly_trianglePly⟩

/-- Witness of `ReadFromPly_array_lengths`: the file `trianglePly`, which
declares 3 vertices and 1 face. -/
theorem ReadFromPly_array_lengths_witness :
    ReadFromPly realLibM realFloatFormat plainEnv 20 (some trianglePly)
        (TriangleMesh.new realFloatFormat) false
      = .done (true, loadedTriangle, false)
    ∧ (loadedTriangle.vertices_.length : Int) = 3 * 3
    ∧ (loadedTriangle.faces_.length : Int) = 3 * 1 :=
  ⟨ReadFromPly_trianglePly,
    ReadFromPly_array_lengths realLibM realFloatFormat plainEnv 20 trianglePly
      (TriangleMesh.new realFloatFormat) loadedTriangle false false true _ rfl
      ReadFromPly_trianglePly⟩

/-- Witness of `ReadFromPly_rejects_nonpositive_vertex_count`: a header with
`element vertex 0`, one with a negative count, one without the line. -/
theorem ReadFromPly_rejects_nonpositive_vertex_count_witness :
    ReadFromPly realLibM realFloatFormat plainEnv 25 (some plyZeroVertices)
        (TriangleMesh.new realFloatFormat) false
      = .done (false, TriangleMesh.new realFloatFormat, false)
    ∧ ReadFromPly realLibM realFloatFormat plainEnv 25 (some plyNegativeVertices)
        (TriangleMesh.new realFloatFormat) false
      = .done (false, TriangleMesh.new realFloatFormat, true)
    ∧ ReadFromPly realLibM realFloatFormat plainEnv 25 (some plyNoVertexLine)
        (TriangleMesh.new realFloatFormat) false
      = .done (false, TriangleMesh.new realFloatFormat, false) :=
  ⟨(ReadFromPly_rejects_nonpositive_vertex_count realLibM realFloatFormat plainEnv 10 25
      plyZeroVertices (TriangleMesh.new realFloatFormat) false _ _ rfl (by decide) (by decide)).2,
   (ReadFromPly_rejects_nonpositive_vertex_count realLibM realFloatFormat plainEnv 10 25
      plyNegativeVertices (TriangleMesh.new realFloatFormat) false _ _ rfl (by decide)
      (by decide)).2,
   (ReadFromPly_rejects_nonpositive_vertex_count realLibM realFloatFormat plainEnv 10 25
      plyNoVertexLine (TriangleMesh.new realFloatFormat) false _ _ rfl (by decide) (by decide)).2⟩

/-- Witness of `ReadFromPly_rejects_bad_magic`: a file whose first line is `pl`. -/
theorem ReadFromPly_rejects_bad_magic_witness :
    ReadFromPly realLibM realFloatFormat plainEnv 20 (some plyShortMagic)
        (TriangleMesh.new realFloatFormat) false
      = .done (false, TriangleMesh.new realFloatFormat, false) :=
  (ReadFromPly_rejects_bad_magic realLibM realFloatFormat plainEnv 20 plyShortMagic
    (TriangleMesh.new realFloatFormat) false (by decide)).2

/-- Claim C10, counterexample.  The first line of `plyLongMagic` is `plyX`, not
`ply`; `ReadPlyHeader` returns `true` on it with 1 vertex and 0 faces, and the
`bool` returned by `ReadFromPly` is `true`. -/
theorem ReadFromPly_accepts_longer_magic :
    plyLongMagic.take 5 = bytesOf "plyX\n"
    ∧ ReadPlyHeader 20 ⟨⟨plyLongMagic, true⟩, plainEnv.line0, 0, 0, false⟩
      = .done (true, ⟨⟨[0, 0, 0, 0, 0, 0, 0, 0, 0, 0, 0, 0], true⟩,
          bytesOf "end_header" ++ [0] ++ bytesOf "tex 1" ++ [0] ++ bytesOf "tle_endian 1.0"
            ++ List.replicate 69 0, 1, 0, false⟩)
    ∧ ((ReadFromPly realLibM realFloatFormat plainEnv 20 (some plyLongMagic)
          (TriangleMesh.new realFloatFormat) false).value
        (false, TriangleMesh.new realFloatFormat, false)).1 = true :=
  ⟨by decide, rfl, rfl⟩

/-! ## The OBJ reader -/

section ObjLemmas

variable {F : Type} [LinearOrderedField F]

theorem objCornerStep_fields (attrib : attrib_t F) (mesh : TriangleMesh F) (ci : Nat)
    (index : index_t) :
    (objCornerStep attrib (mesh, ci) index).2 = ci + 1
      ∧ (objCornerStep attrib (mesh, ci) index).1.faces_ = mesh.faces_.set ci (ci : Int)
      ∧ (objCornerStep attrib (mesh, ci) index).1.vertices_.length = mesh.vertices_.length
      ∧ (objCornerStep attrib (mesh, ci) index).1.normals_.length = mesh.normals_.length
      ∧ (objCornerStep attrib (mesh, ci) index).1.texCoords_.length = mesh.texCoords_.length
      ∧ (attrib.normals.length = 0 →
          (objCornerStep attrib (mesh, ci) index).1.normals_ = mesh.normals_)
      ∧ (attrib.texcoords.length = 0 →
          (objCornerStep attrib (mesh, ci) index).1.texCoords_ = mesh.texCoords_) := by
  unfold objCornerStep
  by_cases hn : attrib.normals.length > 0 <;> by_cases ht : attrib.texcoords.length > 0 <;>
    simp [hn, ht]
  · refine ⟨fun h => ?_, fun h => ?_⟩
    · simp [h] at hn
    · simp [h] at ht
  · intro h
    simp [h] at hn
  · intro h
    simp [h] at ht

theorem identityIndices_succ (n : Nat) :
    identityIndices (n + 1) = identityIndices n ++ [(n : Int)] := by
  simp [identityIndices, List.range_succ]

theorem length_identityIndices (n : Nat) : (identityIndices n).length = n := by
  simp [identityIndices]

theorem foldl_objCornerStep (attrib : attrib_t F) : ∀ (l : List index_t) (mesh : TriangleMesh F)
    (ci : Nat),
    (l.foldl (objCornerStep attrib) (mesh, ci)).2 = ci + l.length
      ∧ (mesh.faces_ = identityIndices ci ++ List.replicate l.length 0 →
          (l.foldl (objCornerStep attrib) (mesh, ci)).1.faces_ = identityIndices (ci + l.length))
      ∧ (l.foldl (objCornerStep attrib) (mesh, ci)).1.vertices_.length = mesh.vertices_.length
      ∧ (l.foldl (objCornerStep attrib) (mesh, ci)).1.normals_.length = mesh.normals_.length
      ∧ (l.foldl (objCornerStep attrib) (mesh, ci)).1.texCoords_.length = mesh.texCoords_.length
      ∧ (attrib.normals.length = 0 →
          (l.foldl (objCornerStep attrib) (mesh, ci)).1.normals_ = mesh.normals_)
      ∧ (attrib.texcoords.length = 0 →
          (l.foldl (objCornerStep attrib) (mesh, ci)).1.texCoords_ = mesh.texCoords_) := by
  intro l
  induction l with
  | nil => intro mesh ci; simp
  | cons index l ih =>
    intro mesh ci
    have hs := objCornerStep_fields attrib mesh ci index
    obtain ⟨h1, h2, h3, h4, h5, h6, h7⟩ := hs
    have hi := ih (objCornerStep attrib (mesh, ci) index).1 (ci + 1)
    rw [List.foldl_cons]
    have he : objCornerStep attrib (mesh, ci) index
        = ((objCornerStep attrib (mesh, ci) index).1, ci + 1) := by
      rw [← h1]
    rw [he]
    obtain ⟨i1, i2, i3, i4, i5, i6, i7⟩ := hi
    refine ⟨by rw [i1, List.length_cons]; omega, ?_, by rw [i3, h3], by rw [i4, h4],
      by rw [i5, h5], fun h => by rw [i6 h, h6 h], fun h => by rw [i7 h, h7 h]⟩
    intro hf
    have hlen : ci + (index :: l).length = ci + 1 + l.length := by
      rw [List.length_cons]; omega
    rw [hlen]
    apply i2
    rw [h2, hf, identityIndices_succ, List.length_cons, List.replicate_succ]
    rw [List.set_append]
    simp [length_identityIndices]


theorem resize_grow {α : Type} (l : List α) (n : Nat) (v : α) :
    resize l (l.length + n) v = l ++ List.replicate n v := by
  simp [resize, List.take_of_length_le]

theorem resizeChecked_of_le {α : Type} (l : List α) (n : Nat) (v : α) (h : n ≤ maxSize) :
    resizeChecked l n v = .done (resize l n v) := by
  have hm : n % 18446744073709551616 = n :=
    Nat.mod_eq_of_lt (by unfold maxSize at h; omega)
  unfold resizeChecked
  rw [hm, if_neg (by omega)]

theorem resizeChecked_outcome {α : Type} (l : List α) (n : Nat) (v : α) :
    resizeChecked l n v = .lengthError ∨ ∃ r, resizeChecked l n v = .done r := by
  unfold resizeChecked
  by_cases h : n % 18446744073709551616 > maxSize
  · exact Or.inl (if_pos h)
  · exact Or.inr ⟨_, if_neg h⟩

theorem objShapeStep_within (attrib : attrib_t F) (mesh : TriangleMesh F) (ci : Nat)
    (shape : shape_t)
    (hf : mesh.faces_.length + shape.mesh.indices.length ≤ maxSize)
    (hv : (mesh.vertices_.length + shape.mesh.indices.length) * 3 ≤ maxSize)
    (hn : 0 < attrib.normals.length →
      (mesh.normals_.length + shape.mesh.indices.length) * 3 ≤ maxSize)
    (ht : 0 < attrib.texcoords.length →
      (mesh.texCoords_.length + shape.mesh.indices.length) * 2 ≤ maxSize) :
    objShapeStep attrib (mesh, ci) shape
      = if shape.mesh.num_face_vertices.any (fun nfv => nfv != 3) then .exited 1
        else .done (shape.mesh.indices.foldl (objCornerStep attrib)
          ({ mesh with
              faces_ := resize mesh.faces_ (mesh.faces_.length + shape.mesh.indices.length) 0,
              vertices_ :=
                resize mesh.vertices_ ((mesh.vertices_.length + shape.mesh.indices.length) * 3) 0,
              normals_ :=
                if attrib.normals.length > 0 then
                  resize mesh.normals_ ((mesh.normals_.length + shape.mesh.indices.length) * 3) 0
                else mesh.normals_,
              texCoords_ :=
                if attrib.texcoords.length > 0 then
                  resize mesh.texCoords_
                    ((mesh.texCoords_.length + shape.mesh.indices.length) * 2) 0
                else mesh.texCoords_ }, ci)) := by
  unfold objShapeStep
  simp only []
  rw [resizeChecked_of_le _ _ _ hf, resizeChecked_of_le _ _ _ hv]
  by_cases hn0 : attrib.normals.length > 0 <;> by_cases ht0 : attrib.texcoords.length > 0
  · rw [if_pos hn0, if_pos ht0, if_pos hn0, if_pos ht0, resizeChecked_of_le _ _ _ (hn hn0),
      resizeChecked_of_le _ _ _ (ht ht0)]
    rfl
  · rw [if_pos hn0, if_neg ht0, if_pos hn0, if_neg ht0, resizeChecked_of_le _ _ _ (hn hn0)]
    rfl
  · rw [if_neg hn0, if_pos ht0, if_neg hn0, if_pos ht0, resizeChecked_of_le _ _ _ (ht ht0)]
    rfl
  · rw [if_neg hn0, if_neg ht0, if_neg hn0, if_neg ht0]
    rfl

theorem le_resizedLength (k : Nat) (hk : 0 < k) : ∀ (shapes : List shape_t) (start : Nat),
    start ≤ resizedLength k shapes start := by
  intro shapes
  induction shapes with
  | nil => intro start; exact Nat.le_refl _
  | cons s ss ih =>
    intro start
    have h1 : resizedLength k (s :: ss) start
        = resizedLength k ss ((start + s.mesh.indices.length) * k) := rfl
    rw [h1]
    have h2 := ih ((start + s.mesh.indices.length) * k)
    have h3 : start + s.mesh.indices.length ≤ (start + s.mesh.indices.length) * k :=
      Nat.le_mul_of_pos_right _ hk
    omega

theorem resizedLength_mono (k1 k2 : Nat) (hk : k1 ≤ k2) : ∀ (shapes : List shape_t)
    (a b : Nat), a ≤ b → resizedLength k1 shapes a ≤ resizedLength k2 shapes b := by
  intro shapes
  induction shapes with
  | nil => intro a b h; exact h
  | cons s ss ih =>
    intro a b h
    exact ih _ _ (Nat.mul_le_mul (by omega) hk)

theorem cornerCount_cons (s : shape_t) (ss : List shape_t) :
    cornerCount (s :: ss) = s.mesh.indices.length + cornerCount ss := by
  simp [cornerCount]

theorem cornerCount_le_resizedLength (k : Nat) (hk : 0 < k) : ∀ (shapes : List shape_t)
    (start : Nat), start + cornerCount shapes ≤ resizedLength k shapes start := by
  intro shapes
  induction shapes with
  | nil => intro start; simp [cornerCount, resizedLength]
  | cons s ss ih =>
    intro start
    have h1 : resizedLength k (s :: ss) start
        = resizedLength k ss ((start + s.mesh.indices.length) * k) := rfl
    rw [h1, cornerCount_cons]
    have h2 := ih ((start + s.mesh.indices.length) * k)
    have h3 : start + s.mesh.indices.length ≤ (start + s.mesh.indices.length) * k :=
      Nat.le_mul_of_pos_right _ hk
    omega

theorem WithinMaxSize_cons (attrib : attrib_t F) (s : shape_t) (ss : List shape_t)
    (mesh : TriangleMesh F) (h : WithinMaxSize attrib (s :: ss) mesh) :
    (mesh.faces_.length + s.mesh.indices.length ≤ maxSize
      ∧ (mesh.vertices_.length + s.mesh.indices.length) * 3 ≤ maxSize
      ∧ (0 < attrib.normals.length →
          (mesh.normals_.length + s.mesh.indices.length) * 3 ≤ maxSize)
      ∧ (0 < attrib.texcoords.length →
          (mesh.texCoords_.length + s.mesh.indices.length) * 2 ≤ maxSize))
    ∧ ∀ m2 : TriangleMesh F,
        m2.faces_.length = mesh.faces_.length + s.mesh.indices.length →
        m2.vertices_.length = (mesh.vertices_.length + s.mesh.indices.length) * 3 →
        (0 < attrib.normals.length →
          m2.normals_.length = (mesh.normals_.length + s.mesh.indices.length) * 3) →
        (0 < attrib.texcoords.length →
          m2.texCoords_.length = (mesh.texCoords_.length + s.mesh.indices.length) * 2) →
        WithinMaxSize attrib ss m2 := by
  obtain ⟨b1, b2, b3, b4⟩ := h
  rw [cornerCount_cons] at b1
  have e3 : ∀ start, resizedLength 3 (s :: ss) start
      = resizedLength 3 ss ((start + s.mesh.indices.length) * 3) := fun _ => rfl
  have e2 : ∀ start, resizedLength 2 (s :: ss) start
      = resizedLength 2 ss ((start + s.mesh.indices.length) * 2) := fun _ => rfl
  rw [e3] at b2
  refine ⟨⟨by omega, ?_, ?_, ?_⟩, ?_⟩
  · exact Nat.le_trans (le_resizedLength 3 (by decide) ss _) b2
  · intro hn
    have := b3 hn
    rw [e3] at this
    exact Nat.le_trans (le_resizedLength 3 (by decide) ss _) this
  · intro ht
    have := b4 ht
    rw [e2] at this
    exact Nat.le_trans (le_resizedLength 2 (by decide) ss _) this
  · intro m2 h1 h2 h3 h4
    refine ⟨by rw [h1]; omega, by rw [h2]; exact b2, ?_, ?_⟩
    · intro hn
      have := b3 hn
      rw [e3] at this
      rw [h3 hn]
      exact this
    · intro ht
      have := b4 ht
      rw [e2] at this
      rw [h4 ht]
      exact this

theorem WithinMaxSize_new (attrib : attrib_t F) (shapes : List shape_t) (ff : FloatFormat F)
    (h : resizedLength 3 shapes 0 ≤ maxSize) :
    WithinMaxSize attrib shapes (TriangleMesh.new ff) := by
  have h0 : (TriangleMesh.new ff).faces_.length = 0 := rfl
  have h1 : (TriangleMesh.new ff).vertices_.length = 0 := rfl
  have h2 : (TriangleMesh.new ff).normals_.length = 0 := rfl
  have h3 : (TriangleMesh.new ff).texCoords_.length = 0 := rfl
  refine ⟨?_, ?_, fun _ => ?_, fun _ => ?_⟩
  · rw [h0]
    exact Nat.le_trans (cornerCount_le_resizedLength 3 (by decide) shapes 0) h
  · rw [h1]; exact h
  · rw [h2]; exact h
  · rw [h3]
    exact Nat.le_trans (resizedLength_mono 2 3 (by decide) shapes 0 0 (Nat.le_refl _)) h

theorem length_faces_objCornerStep (attrib : attrib_t F) (mesh : TriangleMesh F) (ci : Nat)
    (index : index_t) :
    (objCornerStep attrib (mesh, ci) index).1.faces_.length = mesh.faces_.length := by
  rw [(objCornerStep_fields attrib mesh ci index).2.1, List.length_set]

theorem length_faces_foldl_objCornerStep (attrib : attrib_t F) :
    ∀ (l : List index_t) (mesh : TriangleMesh F) (ci : Nat),
      (l.foldl (objCornerStep attrib) (mesh, ci)).1.faces_.length = mesh.faces_.length := by
  intro l
  induction l with
  | nil => intro mesh ci; rfl
  | cons index l ih =>
    intro mesh ci
    have h1 := (objCornerStep_fields attrib mesh ci index).1
    have he : objCornerStep attrib (mesh, ci) index
        = ((objCornerStep attrib (mesh, ci) index).1, ci + 1) := by
      rw [← h1]
    rw [List.foldl_cons, he, ih, length_faces_objCornerStep]

theorem objShapeStep_done (attrib : attrib_t F) (mesh : TriangleMesh F) (ci : Nat)
    (shape : shape_t) (htri : ∀ nfv ∈ shape.mesh.num_face_vertices, nfv = 3)
    (hbf : mesh.faces_.length + shape.mesh.indices.length ≤ maxSize)
    (hbv : (mesh.vertices_.length + shape.mesh.indices.length) * 3 ≤ maxSize)
    (hbn : 0 < attrib.normals.length →
      (mesh.normals_.length + shape.mesh.indices.length) * 3 ≤ maxSize)
    (hbt : 0 < attrib.texcoords.length →
      (mesh.texCoords_.length + shape.mesh.indices.length) * 2 ≤ maxSize) :
    ∃ st, objShapeStep attrib (mesh, ci) shape = .done st
      ∧ st.2 = ci + shape.mesh.indices.length
      ∧ (mesh.faces_ = identityIndices ci →
          st.1.faces_ = identityIndices (ci + shape.mesh.indices.length))
      ∧ st.1.vertices_.length = (mesh.vertices_.length + shape.mesh.indices.length) * 3
      ∧ (0 < attrib.texcoords.length →
          st.1.texCoords_.length = (mesh.texCoords_.length + shape.mesh.indices.length) * 2)
      ∧ (0 < attrib.normals.length →
          st.1.normals_.length = (mesh.normals_.length + shape.mesh.indices.length) * 3)
      ∧ (attrib.normals.length = 0 → st.1.normals_ = mesh.normals_)
      ∧ (attrib.texcoords.length = 0 → st.1.texCoords_ = mesh.texCoords_)
      ∧ st.1.faces_.length = mesh.faces_.length + shape.mesh.indices.length := by
  have hany : shape.mesh.num_face_vertices.any (fun nfv => nfv != 3) = false := by
    rw [List.any_eq_false]
    intro x hx
    simp [htri x hx]
  rw [objShapeStep_within attrib mesh ci shape hbf hbv hbn hbt]
  simp only [hany, Bool.false_eq_true, if_false]
  refine ⟨_, rfl, ?_⟩
  have hl := foldl_objCornerStep attrib shape.mesh.indices
  have hlf := length_faces_foldl_objCornerStep attrib shape.mesh.indices
  by_cases hn : attrib.normals.length > 0 <;> by_cases ht : attrib.texcoords.length > 0
  all_goals
    simp only [hn, ht, if_true, if_false]
    obtain ⟨l1, l2, l3, l4, l5, l6, l7⟩ := hl _ ci
    refine ⟨l1, ?_, ?_, ?_, ?_, ?_, ?_, ?_⟩
    · intro hf
      apply l2
      show resize mesh.faces_ _ 0 = _
      rw [resize_grow, hf]
    · rw [l3]
      exact length_resize _ _ _
    · intro h
      first
        | exact h.elim
        | (rw [l5]; exact length_resize _ _ _)
    · intro h
      first
        | exact h.elim
        | (rw [l4]; exact length_resize _ _ _)
    · intro h
      first
        | omega
        | (rw [l6 h])
    · intro h
      first
        | omega
        | (rw [l7 h])
    · rw [hlf]
      exact length_resize _ _ _

theorem forRun_objShapeStep (attrib : attrib_t F) : ∀ (shapes : List shape_t)
    (mesh : TriangleMesh F) (ci : Nat), AllTriangles shapes →
    WithinMaxSize attrib shapes mesh →
    ∃ st, forRun (objShapeStep attrib) shapes (mesh, ci) = .done st
      ∧ st.2 = ci + cornerCount shapes
      ∧ (mesh.faces_ = identityIndices ci →
          st.1.faces_ = identityIndices (ci + cornerCount shapes))
      ∧ st.1.vertices_.length = resizedLength 3 shapes mesh.vertices_.length
      ∧ (0 < attrib.texcoords.length →
          st.1.texCoords_.length = resizedLength 2 shapes mesh.texCoords_.length)
      ∧ (0 < attrib.normals.length →
          st.1.normals_.length = resizedLength 3 shapes mesh.normals_.length)
      ∧ (attrib.normals.length = 0 → st.1.normals_ = mesh.normals_)
      ∧ (attrib.texcoords.length = 0 → st.1.texCoords_ = mesh.texCoords_) := by
  intro shapes
  induction shapes with
  | nil =>
    intro mesh ci _ _
    exact ⟨(mesh, ci), rfl, by simp [cornerCount], by simp [cornerCount], rfl, fun _ => rfl,
      fun _ => rfl, fun _ => rfl, fun _ => rfl⟩
  | cons s shapes ih =>
    intro mesh ci htri hb
    obtain ⟨⟨b1, b2, b3, b4⟩, hnext⟩ := WithinMaxSize_cons attrib s shapes mesh hb
    obtain ⟨st, hst, s1, s2, s3, s4, s5, s6, s7, s8⟩ :=
      objShapeStep_done attrib mesh ci s (htri s (List.mem_cons_self _ _)) b1 b2 b3 b4
    obtain ⟨st2, hst2, r1, r2, r3, r4, r5, r6, r7⟩ :=
      ih st.1 st.2 (fun x hx => htri x (List.mem_cons_of_mem _ hx)) (hnext st.1 s8 s3 s5 s4)
    have hcc : cornerCount (s :: shapes) = s.mesh.indices.length + cornerCount shapes := by
      simp [cornerCount]
    refine ⟨st2, ?_, ?_, ?_, ?_, ?_, ?_, ?_, ?_⟩
    · rw [forRun, hst]
      exact hst2
    · rw [r1, s1, hcc]; omega
    · intro hf
      have h2 := r2 (by rw [s1]; exact s2 hf)
      rw [h2, s1, hcc, Nat.add_assoc]
    · rw [r3, s3]; rfl
    · intro h; rw [r4 h, s4 h]; rfl
    · intro h; rw [r5 h, s5 h]; rfl
    · intro h; rw [r6 h, s6 h]
    · intro h; rw [r7 h, s7 h]


theorem objShapeStep_outcome (attrib : attrib_t F) (st : TriangleMesh F × Nat) (s : shape_t) :
    objShapeStep attrib st s = .exited 1 ∨ objShapeStep attrib st s = .lengthError
      ∨ ∃ st2, objShapeStep attrib st s = .done st2 := by
  unfold objShapeStep
  simp only []
  rcases resizeChecked_outcome st.1.faces_ (st.1.faces_.length + s.mesh.indices.length) 0
    with e1 | ⟨r1, e1⟩
  · rw [e1]; exact Or.inr (Or.inl rfl)
  rw [e1]
  rcases resizeChecked_outcome st.1.vertices_
    ((st.1.vertices_.length + s.mesh.indices.length) * 3) 0 with e2 | ⟨r2, e2⟩
  · rw [e2]; exact Or.inr (Or.inl rfl)
  rw [e2]
  have h3 : (if attrib.normals.length > 0 then
        resizeChecked st.1.normals_ ((st.1.normals_.length + s.mesh.indices.length) * 3) 0
      else Run.done st.1.normals_) = .lengthError
      ∨ ∃ r, (if attrib.normals.length > 0 then
        resizeChecked st.1.normals_ ((st.1.normals_.length + s.mesh.indices.length) * 3) 0
      else Run.done st.1.normals_) = .done r := by
    by_cases h : attrib.normals.length > 0
    · rw [if_pos h]; exact resizeChecked_outcome _ _ _
    · rw [if_neg h]; exact Or.inr ⟨_, rfl⟩
  rcases h3 with e3 | ⟨r3, e3⟩
  · rw [e3]; exact Or.inr (Or.inl rfl)
  rw [e3]
  have h4 : (if attrib.texcoords.length > 0 then
        resizeChecked st.1.texCoords_ ((st.1.texCoords_.length + s.mesh.indices.length) * 2) 0
      else Run.done st.1.texCoords_) = .lengthError
      ∨ ∃ r, (if attrib.texcoords.length > 0 then
        resizeChecked st.1.texCoords_ ((st.1.texCoords_.length + s.mesh.indices.length) * 2) 0
      else Run.done st.1.texCoords_) = .done r := by
    by_cases h : attrib.texcoords.length > 0
    · rw [if_pos h]; exact resizeChecked_outcome _ _ _
    · rw [if_neg h]; exact Or.inr ⟨_, rfl⟩
  rcases h4 with e4 | ⟨r4, e4⟩
  · rw [e4]; exact Or.inr (Or.inl rfl)
  rw [e4]
  simp only [Run.bind]
  by_cases h : (s.mesh.num_face_vertices.any fun nfv => nfv != 3) = true
  · exact Or.inl (if_pos h)
  · exact Or.inr (Or.inr ⟨_, if_neg h⟩)

theorem forRun_objShapeStep_outcome (attrib : attrib_t F) : ∀ (shapes : List shape_t)
    (st : TriangleMesh F × Nat),
    forRun (objShapeStep attrib) shapes st = .exited 1
      ∨ forRun (objShapeStep attrib) shapes st = .lengthError
      ∨ ∃ st2, forRun (objShapeStep attrib) shapes st = .done st2 := by
  intro shapes
  induction shapes with
  | nil => intro st; exact Or.inr (Or.inr ⟨st, rfl⟩)
  | cons s shapes ih =>
    intro st
    rw [forRun]
    rcases objShapeStep_outcome attrib st s with h | h | ⟨st2, h⟩
    · rw [h]; exact Or.inl rfl
    · rw [h]; exact Or.inr (Or.inl rfl)
    · rw [h]; exact ih st2

theorem ReadFromObj_all_triangles (lm : LibM F) (filename : String) (parsed : LoadObjResult F)
    (mesh : TriangleMesh F) (hret : parsed.ret = true) (htri : AllTriangles parsed.shapes)
    (hb : WithinMaxSize parsed.attrib parsed.shapes mesh) :
    ∃ m, ReadFromObj lm filename parsed mesh = .done (none, m)
      ∧ (mesh.faces_ = [] → m.faces_ = identityIndices (cornerCount parsed.shapes))
      ∧ m.vertices_.length = resizedLength 3 parsed.shapes mesh.vertices_.length
      ∧ (0 < parsed.attrib.texcoords.length →
          m.texCoords_.length = resizedLength 2 parsed.shapes mesh.texCoords_.length)
      ∧ (parsed.attrib.texcoords.length = 0 → m.texCoords_ = mesh.texCoords_)
      ∧ (0 < parsed.attrib.normals.length →
          m.normals_.length = resizedLength 3 parsed.shapes mesh.normals_.length)
      ∧ (parsed.attrib.normals.length = 0 →
          m.normals_ = ComputeVertexNormals lm m.vertices_ m.faces_ mesh.normals_) := by
  obtain ⟨st, hst, r1, r2, r3, r4, r5, r6, r7⟩ :=
    forRun_objShapeStep parsed.attrib parsed.shapes mesh 0 htri hb
  unfold ReadFromObj
  simp only [hret, Bool.not_true, Bool.false_eq_true, if_false, hst, Run.bind]
  refine ⟨_, rfl, ?_⟩
  have hz : identityIndices 0 = [] := rfl
  rw [Nat.zero_add] at r2
  rw [hz] at r2
  by_cases hn : parsed.attrib.normals.length = 0 <;> cases hmat : parsed.materials <;>
    simp only [hn, if_true, if_false] <;>
    simp only [(ComputeBoundingBox_fields _ _).1, (ComputeBoundingBox_fields _ _).2.1,
      (ComputeBoundingBox_fields _ _).2.2.1, (ComputeBoundingBox_fields _ _).2.2.2.1] <;>
    refine ⟨r2, r3, r4, r7, ?_, ?_⟩
  all_goals first
    | (intro h; omega)
    | (intro _; rw [r6 hn])
    | exact r5
    | (intro h; exact h.elim)

end ObjLemmas

theorem objTriangle_triangles : AllTriangles objTriangle.shapes := by
  intro s hs nfv hn
  simp [objTriangle] at hs
  subst hs
  simpa using hn

theorem objTwoShapes_triangles : AllTriangles objTwoShapes.shapes := by
  intro s hs nfv hn
  simp [objTwoShapes] at hs
  rcases hs with rfl | rfl <;> simpa using hn

theorem length_foldl_texCoordStep {F : Type} [LinearOrderedField F] (lm : LibM F)
    (vs : List F) (is : List Nat) (tc : List F) :
    (is.foldl (texCoordStep lm vs) tc).length = tc.length := by
  induction is generalizing tc with
  | nil => rfl
  | cons i is ih => simp [ih, texCoordStep]

theorem length_ComputeTexCoords {F : Type} [LinearOrderedField F] (lm : LibM F)
    (vs : List F) (tc : List F) :
    (ComputeTexCoords lm vs tc).length = vs.length / 3 * 2 := by
  simp [ComputeTexCoords, length_foldl_texCoordStep, length_resize]

/-- Claim C4, the code at its input.  After `ReadFromObj` on a fresh record,
the one-triangle file without texture coordinates gives 3 vertices and 0
texture-coordinate pairs, and the two-shape file with texture coordinates
gives 12 vertices and 9 texture-coordinate pairs. -/
theorem ReadFromObj_texcoord_count_mismatch :
    (∃ m, ReadFromObj realLibM "triangle.obj" objTriangle (TriangleMesh.new realFloatFormat)
        = .done (none, m)
      ∧ m.vertices_.length / 3 = 3 ∧ m.texCoords_.length / 2 = 0)
    ∧ (∃ m, ReadFromObj realLibM "two.obj" objTwoShapes (TriangleMesh.new realFloatFormat)
        = .done (none, m)
      ∧ m.vertices_.length / 3 = 12 ∧ m.texCoords_.length / 2 = 9) := by
  constructor
  · obtain ⟨m, hm, -, h2, -, h4, -⟩ :=
      ReadFromObj_all_triangles realLibM "triangle.obj" objTriangle
        (TriangleMesh.new realFloatFormat) rfl objTriangle_triangles
        (WithinMaxSize_new _ _ _ (by decide))
    refine ⟨m, hm, ?_, ?_⟩
    · rw [h2]; rfl
    · rw [h4 rfl]; rfl
  · obtain ⟨m, hm, -, h2, h3, -⟩ :=
      ReadFromObj_all_triangles realLibM "two.obj" objTwoShapes
        (TriangleMesh.new realFloatFormat) rfl objTwoShapes_triangles
        (WithinMaxSize_new _ _ _ (by decide))
    refine ⟨m, hm, ?_, ?_⟩
    · rw [h2]; rfl
    · rw [h3 (by decide)]; rfl

/-- Claim C5, the code at its input.  For two shapes of one triangle each,
6 corners in all, `ReadFromObj` on a fresh record leaves 36 entries in the
positions array, where one vertex per corner would be 18. -/
theorem ReadFromObj_two_shapes_positions :
    ∃ m, ReadFromObj realLibM "two.obj" objTwoShapes (TriangleMesh.new realFloatFormat)
        = .done (none, m)
      ∧ m.vertices_.length = 36 ∧ 3 * cornerCount objTwoShapes.shapes = 18 := by
  obtain ⟨m, hm, -, h2, -⟩ :=
    ReadFromObj_all_triangles realLibM "two.obj" objTwoShapes
      (TriangleMesh.new realFloatFormat) rfl objTwoShapes_triangles
        (WithinMaxSize_new _ _ _ (by decide))
  exact ⟨m, hm, by rw [h2]; rfl, by decide⟩

/-- Claim C7, the code at its input.  For the one-triangle file without
normals and without texture coordinates the record has 9 position entries,
the indices `[0, 1, 2]` and the normals computed by `ComputeVertexNormals`,
and its texture coordinates are empty, where `ComputeTexCoords` on its
positions would give 6 entries. -/
theorem ReadFromObj_triangle_no_texcoords :
    ∃ m, ReadFromObj realLibM "triangle.obj" objTriangle (TriangleMesh.new realFloatFormat)
        = .done (none, m)
      ∧ m.vertices_.length = 9 ∧ m.faces_ = [0, 1, 2]
      ∧ m.normals_ = ComputeVertexNormals realLibM m.vertices_ m.faces_ []
      ∧ m.texCoords_ = []
      ∧ (ComputeTexCoords realLibM m.vertices_ []).length = 6 := by
  obtain ⟨m, hm, h1, h2, -, h4, -, h6⟩ :=
    ReadFromObj_all_triangles realLibM "triangle.obj" objTriangle
      (TriangleMesh.new realFloatFormat) rfl objTriangle_triangles
        (WithinMaxSize_new _ _ _ (by decide))
  have hv : m.vertices_.length = 9 := by rw [h2]; rfl
  refine ⟨m, hm, hv, ?_, h6 rfl, h4 rfl, ?_⟩
  · rw [h1 rfl]; rfl
  · rw [length_ComputeTexCoords, hv]

/-! ## The header loop and the body of a PLY file -/

theorem headerLoop_not_good (fuel : Nat) : ∀ (st : PlyHeader), st.fin.good = false →
    strncmp st.line (cstr ['e', 'n', 'd', '_', 'h', 'e', 'a', 'd', 'e', 'r']) 10 ≠ 0 →
    headerLoop fuel st = none := by
  induction fuel with
  | zero => intro st _ _; rfl
  | succ n ih =>
    intro st hg hl
    rw [headerLoop, if_pos hl]
    apply ih
    · simp [getline, hg]
    · simp [getline, hg, strncmp, cstr]

theorem headerLoop_succ_of_ne (fuel : Nat) (st : PlyHeader)
    (hl : strncmp st.line (cstr ['e', 'n', 'd', '_', 'h', 'e', 'a', 'd', 'e', 'r']) 10 ≠ 0) :
    headerLoop (fuel + 1) st = headerLoop fuel
      ⟨(getline st.fin st.line 100).1, (getline st.fin st.line 100).2,
       if strncmp st.line
            (cstr ['e', 'l', 'e', 'm', 'e', 'n', 't', ' ', 'v', 'e', 'r', 't', 'e', 'x']) 14 = 0
        then atoi (st.line.drop 15) else st.vertices,
       if strncmp (getline st.fin st.line 100).2
          (cstr ['e', 'l', 'e', 'm', 'e', 'n', 't', ' ', 'f', 'a', 'c', 'e']) 12 = 0
        then atoi ((getline st.fin st.line 100).2.drop 13) else st.faces,
       if strncmp (getline st.fin st.line 100).2
            (cstr ['p', 'r', 'o', 'p', 'e', 'r', 't', 'y', ' ', 'f', 'l', 'o', 'a', 't', ' ', 'n'])
            16 = 0
        then true else st.hasNormals⟩ := by
  rw [headerLoop, if_pos hl]

theorem headerLoop_no_terminator (hn : Bool) : ∀ fuel : Nat,
    headerLoop fuel
      { fin := (getline (getline ⟨plyNoTerminator, true⟩ plainEnv.line0 100).1
          (getline ⟨plyNoTerminator, true⟩ plainEnv.line0 100).2 100).1,
        line := (getline (getline ⟨plyNoTerminator, true⟩ plainEnv.line0 100).1
          (getline ⟨plyNoTerminator, true⟩ plainEnv.line0 100).2 100).2,
        vertices := 0, faces := 0, hasNormals := hn } = none
  | 0 => rfl
  | 1 => rfl
  | n + 2 => by
    cases hn <;>
    · rw [headerLoop_succ_of_ne _ _ (by decide), headerLoop_succ_of_ne _ _ (by decide)]
      exact headerLoop_not_good _ _ rfl (by decide)

theorem ReadPlyHeader_outOfFuel (fuel : Nat) (st : PlyHeader)
    (hm : strncmp (getline st.fin st.line 100).2 (cstr ['p', 'l', 'y']) 3 = 0)
    (hl : headerLoop fuel
      { st with
        fin := (getline (getline st.fin st.line 100).1 (getline st.fin st.line 100).2 100).1,
        line := (getline (getline st.fin st.line 100).1 (getline st.fin st.line 100).2 100).2,
        vertices := 0 } = none) :
    ReadPlyHeader fuel st = .outOfFuel := by
  rw [ReadPlyHeader, if_neg (by simpa using hm)]
  simp only [hl]

theorem ReadPlyHeader_no_terminator (fuel : Nat) (hn : Bool) :
    ReadPlyHeader fuel ⟨⟨plyNoTerminator, true⟩, plainEnv.line0, 0, 0, hn⟩ = .outOfFuel := by
  cases hn <;>
  exact ReadPlyHeader_outOfFuel fuel _ (by decide) (headerLoop_no_terminator _ fuel)

theorem ReadPlyHeader_long_line (fuel : Nat) (hn : Bool) :
    ReadPlyHeader fuel ⟨⟨plyLongLine, true⟩, plainEnv.line0, 0, 0, hn⟩ = .outOfFuel := by
  cases hn <;>
  exact ReadPlyHeader_outOfFuel fuel _ (by decide) (headerLoop_not_good fuel _ rfl (by decide))

/-- Claim C13, the code at its input.  On a stream that starts with `ply` and
ends before any `end_header` line, and on one whose second line has 100
characters, the loop of `ReadPlyHeader` uses up every bound put on it: once the
stream is not `good()` each `getline` yields the empty line, which is never
`end_header`, so the scan does not stop and `ReadFromPly` does not return. -/
theorem ReadPlyHeader_loops_forever {F : Type} [LinearOrderedField F] (lm : LibM F)
    (ff : FloatFormat F)
    (mesh : TriangleMesh F) (fuel : Nat) (hn : Bool) :
    ReadPlyHeader fuel ⟨⟨plyNoTerminator, true⟩, plainEnv.line0, 0, 0, hn⟩ = .outOfFuel ∧
    ReadFromPly lm ff plainEnv fuel (some plyNoTerminator) mesh hn = .outOfFuel ∧
    ReadPlyHeader fuel ⟨⟨plyLongLine, true⟩, plainEnv.line0, 0, 0, hn⟩ = .outOfFuel ∧
    ReadFromPly lm ff plainEnv fuel (some plyLongLine) mesh hn = .outOfFuel := by
  refine ⟨ReadPlyHeader_no_terminator fuel hn, ?_, ReadPlyHeader_long_line fuel hn, ?_⟩
  · rw [ReadFromPly, ReadPlyHeader_no_terminator fuel hn]; rfl
  · rw [ReadFromPly, ReadPlyHeader_long_line fuel hn]; rfl

theorem read_good (bs : List Nat) (n : Nat) (old : List Nat) (h : n ≤ bs.length) :
    read ⟨bs, true⟩ n old = (⟨bs.drop n, true⟩, bs.take n) := by
  simp [read, h]

theorem resizeTimes3_nonneg {α : Type} (l : List α) (count : Int) (v : α)
    (hc : IsInt32 count) (h0 : 0 ≤ count) :
    resizeTimes3 l count v = .done (resize l (3 * count.toNat) v) := by
  unfold IsInt32 at hc
  obtain ⟨k, rfl⟩ : ∃ k : Nat, count = (k : Int) := ⟨count.toNat, by omega⟩
  have hk : k < 2147483648 := by omega
  unfold resizeTimes3 toSizeT maxSize
  have e1 : ((k : Int) % 18446744073709551616).toNat = k := by omega
  simp only [e1, Int.toNat_ofNat]
  have e2 : k * 3 % 18446744073709551616 = 3 * k := by omega
  rw [e2, if_neg (by omega)]

section
variable {F : Type} [LinearOrderedField F]

theorem readVertexStep_stream (ff : FloatFormat F) (env : Env) (hn : Bool) (bs : List Nat)
    (m : TriangleMesh F) (i : Nat) (h : vertexRecordSize hn ≤ bs.length) :
    (readVertexStep ff env hn (⟨bs, true⟩, m) i).1 = ⟨bs.drop (vertexRecordSize hn), true⟩ := by
  unfold vertexRecordSize at h ⊢
  unfold readVertexStep
  cases hn
  · simp only [Bool.false_eq_true, if_false] at h ⊢
    rw [read_good _ _ _ (by omega)]
    simp only
    rw [read_good _ _ _ (by simp; omega)]
    simp only
    rw [read_good _ _ _ (by simp; omega)]
    simp [List.drop_drop]
  · simp only [if_true] at h ⊢
    rw [read_good _ _ _ (by omega)]
    simp only
    rw [read_good _ _ _ (by simp; omega)]
    simp only
    rw [read_good _ _ _ (by simp; omega)]
    simp only
    rw [read_good _ _ _ (by simp; omega)]
    simp only
    rw [read_good _ _ _ (by simp; omega)]
    simp only
    rw [read_good _ _ _ (by simp; omega)]
    simp [List.drop_drop]

theorem foldl_readVertexStep_stream (ff : FloatFormat F) (env : Env) (hn : Bool) :
    ∀ (l : List Nat) (bs : List Nat) (m : TriangleMesh F),
      vertexRecordSize hn * l.length ≤ bs.length →
      (l.foldl (readVertexStep ff env hn) (⟨bs, true⟩, m)).1
        = ⟨bs.drop (vertexRecordSize hn * l.length), true⟩ := by
  intro l
  induction l with
  | nil => intro bs m _; simp
  | cons i is ih =>
    intro bs m h
    simp only [List.length_cons, Nat.mul_succ] at h
    have hs := readVertexStep_stream ff env hn bs m i (by omega)
    rw [List.foldl_cons]
    obtain ⟨f2, m2, e⟩ : ∃ f2 m2, readVertexStep ff env hn (⟨bs, true⟩, m) i = (f2, m2) :=
      ⟨_, _, rfl⟩
    rw [e] at hs ⊢
    simp only at hs
    subst hs
    rw [ih _ m2 (by simp; omega)]
    simp [List.drop_drop, Nat.mul_succ, Nat.add_comm]

theorem ReadPlyVertices_stream (ff : FloatFormat F) (env : Env) (hn : Bool) (bs : List Nat)
    (m : TriangleMesh F) (h : vertexRecordSize hn * (m.vertices_.length / 3) ≤ bs.length) :
    (ReadPlyVertices ff env hn ⟨bs, true⟩ m).1
      = ⟨bs.drop (vertexRecordSize hn * (m.vertices_.length / 3)), true⟩ := by
  unfold ReadPlyVertices
  have := foldl_readVertexStep_stream ff env hn (List.range (m.vertices_.length / 3)) bs m
    (by simpa using h)
  simpa using this

theorem readFaceStep_good (env : Env) (bs : List Nat) (m : TriangleMesh F) (b : List Nat)
    (i : Nat) (h : 13 ≤ bs.length) :
    readFaceStep env (⟨bs, true⟩, m, b) i =
      if (!env.ndebug && bs.getD 0 0 != 3) = true then .assertFailed
      else .done (⟨bs.drop 13, true⟩,
        { m with
          faces_ := Add3Items (faceIndex bs 0 0) (faceIndex bs 0 1) (faceIndex bs 0 2) (i * 3)
            m.faces_ },
        bs.take 1) := by
  unfold readFaceStep
  simp only
  rw [read_good _ _ _ (by omega)]
  simp only
  rw [read_good _ _ _ (by simp; omega)]
  simp only
  rw [read_good _ _ _ (by simp; omega)]
  simp only
  rw [read_good _ _ _ (by simp; omega)]
  have e : (List.take 1 bs).getD 0 0 = bs.getD 0 0 := by
    cases bs <;> simp
  simp only [e, faceIndex, List.drop_drop]

theorem readFaceStep_abort (env : Env) (hnd : env.ndebug = false) (bs : List Nat)
    (m : TriangleMesh F) (b : List Nat) (i c : Nat) (h0 : bs[0]? = some c) (hc : c ≠ 3) :
    readFaceStep env (⟨bs, true⟩, m, b) i = .assertFailed := by
  cases bs with
  | nil => simp at h0
  | cons a rest =>
    simp only [List.getElem?_cons_zero, Option.some.injEq] at h0
    subst h0
    unfold readFaceStep
    simp [read, hnd, hc]

theorem forRun_readFaceStep_abort (env : Env) (hnd : env.ndebug = false) :
    ∀ (l : List Nat) (bs : List Nat) (m : TriangleMesh F) (b : List Nat) (k c : Nat),
      k < l.length → bs[13 * k]? = some c → c ≠ 3 →
      forRun (readFaceStep env) l (⟨bs, true⟩, m, b) = .assertFailed := by
  intro l
  induction l with
  | nil => intro bs m b k c hk; simp at hk
  | cons i is ih =>
    intro bs m b k c hk hb hc
    rw [forRun]
    have hlen : 13 * k < bs.length := by
      rcases Nat.lt_or_ge (13 * k) bs.length with h | h
      · exact h
      · rw [List.getElem?_eq_none h] at hb; simp at hb
    by_cases h3 : bs[0]? = some 3
    · have hk0 : k ≠ 0 := by
        rintro rfl
        rw [h3] at hb
        simp only [Option.some.injEq] at hb
        exact hc hb.symm
      have e3 : bs.getD 0 0 = 3 := by
        rw [List.getD_eq_getElem?_getD, h3]; rfl
      rw [readFaceStep_good env bs m b i (by omega), e3]
      simp only [bne_self_eq_false, Bool.and_false, Bool.false_eq_true, if_false, Run.bind]
      apply ih _ _ _ (k - 1) c (by simp at hk; omega) _ hc
      rw [List.getElem?_drop]
      have : 13 + 13 * (k - 1) = 13 * k := by omega
      rw [this]
      exact hb
    · obtain ⟨a, ha⟩ : ∃ a, bs[0]? = some a := by
        cases bs with
        | nil => simp at hlen
        | cons a rest => exact ⟨a, by simp⟩
      rw [readFaceStep_abort env hnd bs m b i a ha (by rintro rfl; exact h3 ha)]
      rfl

theorem ReadFromPly_of_header (lm : LibM F) (ff : FloatFormat F) (env : Env) (fuel : Nat)
    (bytes : List Nat) (mesh : TriangleMesh F) (hasNormals : Bool) (hd : PlyHeader)
    (hh : ReadPlyHeader fuel ⟨⟨bytes, true⟩, env.line0, 0, 0, hasNormals⟩ = .done (true, hd)) :
    ReadFromPly lm ff env fuel (some bytes) mesh hasNormals
      = (loadPlyBody lm ff env hd.hasNormals hd.vertices hd.faces hd.fin mesh).bind
          fun m => .done (true, m, hd.hasNormals) := by
  unfold ReadFromPly
  simp only [hh, Run.bind, Bool.not_true, Bool.false_eq_true, if_false]

theorem loadPlyBody_abort (lm : LibM F) (ff : FloatFormat F) (env : Env)
    (hnd : env.ndebug = false) (hn : Bool) (vertices faces : Int) (bs : List Nat)
    (mesh : TriangleMesh F) (hv : IsInt32 vertices) (hf : IsInt32 faces) (hv0 : 0 ≤ vertices)
    (i c : Nat) (hi : (i : Int) < faces)
    (hb : bs[vertexRecordSize hn * vertices.toNat + 13 * i]? = some c) (hc : c ≠ 3) :
    loadPlyBody lm ff env hn vertices faces ⟨bs, true⟩ mesh = .assertFailed := by
  unfold loadPlyBody
  rw [resizeTimes3_nonneg _ _ _ hv hv0]
  have hns : (if hn = true then resizeTimes3 mesh.normals_ vertices (0 : F)
      else .done mesh.normals_) = .done (if hn = true then resize mesh.normals_
        (3 * vertices.toNat) 0 else mesh.normals_) := by
    cases hn
    · rfl
    · simp only [if_true]; exact resizeTimes3_nonneg _ _ _ hv hv0
  rw [hns]
  simp only [Run.bind]
  rw [resizeTimes3_nonneg _ _ _ hf (by omega)]
  simp only [Run.bind]
  have hlen : vertexRecordSize hn * vertices.toNat + 13 * i < bs.length := by
    rcases Nat.lt_or_ge (vertexRecordSize hn * vertices.toNat + 13 * i) bs.length with h | h
    · exact h
    · rw [List.getElem?_eq_none h] at hb; simp at hb
  have hV : (resize mesh.vertices_ (3 * vertices.toNat) (0 : F)).length / 3 = vertices.toNat := by
    rw [length_resize]; omega
  rw [ReadPlyVertices_stream _ _ _ _ _ (by simp only [hV]; omega)]
  simp only [hV]
  unfold ReadPlyFaces
  simp only [length_resize]
  rw [forRun_readFaceStep_abort env hnd _ _ _ _ i c (by simp; omega)
    (by rw [List.getElem?_drop]; exact hb) hc]
  rfl

end

theorem getElem?_Add3Items {α : Type} (a b c : α) (k : Nat) (l : List α) (p : Nat)
    (hk : k + 2 < l.length) :
    (Add3Items a b c k l)[p]? =
      if p = k then some a else if p = k + 1 then some b else if p = k + 2 then some c
      else l[p]? := by
  unfold Add3Items
  simp only [List.getElem?_set, List.length_set]
  split_ifs <;> first | rfl | (exfalso; omega)

theorem faceIndex_drop (bs : List Nat) (i j : Nat) :
    faceIndex (bs.drop 13) i j = faceIndex bs (i + 1) j := by
  unfold faceIndex
  rw [List.drop_drop]
  have e1 : 13 + (13 * i + 1 + 4 * j) = 13 * (i + 1) + 1 + 4 * j := by omega
  rw [e1]

section
variable {F : Type} [LinearOrderedField F]

theorem forRun_readFaceStep_done (env : Env) :
    ∀ (n s : Nat) (bs : List Nat) (m : TriangleMesh F) (b : List Nat),
      13 * n ≤ bs.length →
      (env.ndebug = true ∨ ∀ i, i < n → bs[13 * i]? = some 3) →
      3 * (s + n) ≤ m.faces_.length →
      ∃ fs b2, forRun (readFaceStep env) (List.range' s n) (⟨bs, true⟩, m, b)
          = .done (⟨bs.drop (13 * n), true⟩, { m with faces_ := fs }, b2)
        ∧ fs.length = m.faces_.length
        ∧ (∀ p, p < 3 * s → fs[p]? = m.faces_[p]?)
        ∧ (∀ p, 3 * (s + n) ≤ p → fs[p]? = m.faces_[p]?)
        ∧ ∀ i j, i < n → j < 3 → fs[3 * (s + i) + j]? = some (faceIndex bs i j) := by
  intro n
  induction n with
  | zero =>
    intro s bs m b _ _ _
    exact ⟨m.faces_, b, by simp [forRun], rfl, fun _ _ => rfl, fun _ _ => rfl,
      fun i j hi => by omega⟩
  | succ n ih =>
    intro s bs m b hlen hok hfl
    rw [List.range'_succ, forRun, readFaceStep_good env bs m b s (by omega)]
    have hcond : (!env.ndebug && bs.getD 0 0 != 3) = false := by
      rcases hok with h | h
      · simp [h]
      · have := h 0 (by omega)
        simp only [Nat.mul_zero] at this
        rw [List.getD_eq_getElem?_getD, this]
        simp
    rw [hcond]
    simp only [Bool.false_eq_true, if_false, Run.bind]
    obtain ⟨fs, b2, hrun, hl, hlow, hhigh, hval⟩ := ih (s + 1) (bs.drop 13)
      { m with
        faces_ := Add3Items (faceIndex bs 0 0) (faceIndex bs 0 1) (faceIndex bs 0 2)
          (s * 3) m.faces_ }
      (bs.take 1) (by simp; omega)
      (by
        rcases hok with h | h
        · exact Or.inl h
        · right
          intro i hi
          rw [List.getElem?_drop]
          have := h (i + 1) (by omega)
          rw [show 13 + 13 * i = 13 * (i + 1) by omega]
          exact this)
      (by simp only [length_Add3Items]; omega)
    refine ⟨fs, b2, ?_, ?_, ?_, ?_, ?_⟩
    · rw [hrun]
      simp [List.drop_drop, Nat.mul_succ, Nat.add_comm]
    · rw [hl, length_Add3Items]
    · intro p hp
      rw [hlow p (by omega)]
      simp only
      rw [getElem?_Add3Items _ _ _ _ _ _ (by omega)]
      rw [if_neg (by omega), if_neg (by omega), if_neg (by omega)]
    · intro p hp
      rw [hhigh p (by omega)]
      simp only
      rw [getElem?_Add3Items _ _ _ _ _ _ (by omega)]
      rw [if_neg (by omega), if_neg (by omega), if_neg (by omega)]
    · intro i j hi hj
      rcases Nat.eq_zero_or_pos i with rfl | hpos
      · rw [hlow _ (by omega)]
        simp only
        rw [getElem?_Add3Items _ _ _ _ _ _ (by omega)]
        have hj3 : j = 0 ∨ j = 1 ∨ j = 2 := by omega
        rcases hj3 with rfl | rfl | rfl
        · rw [if_pos (by omega)]
        · rw [if_neg (by omega), if_pos (by omega)]
        · rw [if_neg (by omega), if_neg (by omega), if_pos (by omega)]
      · have := hval (i - 1) j (by omega) hj
        rw [show 3 * (s + 1 + (i - 1)) + j = 3 * (s + i) + j by omega] at this
        rw [this, faceIndex_drop, show i - 1 + 1 = i by omega]

end

section
variable {F : Type} [LinearOrderedField F]

theorem ReadPlyFaces_done (env : Env) (bs : List Nat) (m : TriangleMesh F) (n : Nat)
    (hn : m.faces_.length = 3 * n) (hlen : 13 * n ≤ bs.length)
    (hok : env.ndebug = true ∨ ∀ i, i < n → bs[13 * i]? = some 3) :
    ∃ fs, ReadPlyFaces env ⟨bs, true⟩ m
        = .done (⟨bs.drop (13 * n), true⟩, { m with faces_ := fs })
      ∧ fs.length = 3 * n
      ∧ ∀ i j, i < n → j < 3 → fs[3 * i + j]? = some (faceIndex bs i j) := by
  unfold ReadPlyFaces
  have hq : m.faces_.length / 3 = n := by omega
  simp only [hq, List.range_eq_range']
  obtain ⟨fs, b2, hrun, hl, -, -, hval⟩ :=
    forRun_readFaceStep_done env n 0 bs m env.byte0 hlen hok (by omega)
  refine ⟨fs, ?_, by omega, ?_⟩
  · rw [hrun]; rfl
  · intro i j hi hj
    have := hval i j hi hj
    rwa [Nat.zero_add] at this

theorem loadPlyBody_eq (lm : LibM F) (ff : FloatFormat F) (env : Env) (hn : Bool)
    (vertices faces : Int) (fin : ifstream) (mesh : TriangleMesh F)
    (hv : IsInt32 vertices) (hf : IsInt32 faces) (hv0 : 0 ≤ vertices) (hf0 : 0 ≤ faces) :
    ∃ m1 : TriangleMesh F, m1.vertices_.length = 3 * vertices.toNat ∧
      loadPlyBody lm ff env hn vertices faces fin mesh
        = (ReadPlyFaces env (ReadPlyVertices ff env hn fin m1).1
            { (ReadPlyVertices ff env hn fin m1).2 with
              faces_ := resize mesh.faces_ (3 * faces.toNat) 0 }).bind fun rf =>
          .done (ComputeBoundingBox rf.2.vertices_
            { rf.2 with
              normals_ := if hn then rf.2.normals_
                else ComputeVertexNormals lm rf.2.vertices_ rf.2.faces_ rf.2.normals_,
              texCoords_ := ComputeTexCoords lm rf.2.vertices_ rf.2.texCoords_ }) := by
  refine ⟨{ mesh with
      vertices_ := resize mesh.vertices_ (3 * vertices.toNat) 0,
      normals_ := if hn then resize mesh.normals_ (3 * vertices.toNat) 0 else mesh.normals_ },
    by simp [length_resize], ?_⟩
  unfold loadPlyBody
  rw [resizeTimes3_nonneg _ _ _ hv hv0]
  have hns : (if hn = true then resizeTimes3 mesh.normals_ vertices (0 : F)
      else .done mesh.normals_) = .done (if hn = true then resize mesh.normals_
        (3 * vertices.toNat) 0 else mesh.normals_) := by
    cases hn
    · rfl
    · simp only [if_true]; exact resizeTimes3_nonneg _ _ _ hv hv0
  rw [hns]
  simp only [Run.bind]
  rw [resizeTimes3_nonneg _ _ _ hf hf0]
  simp only [Run.bind]
  rw [(ReadPlyVertices_lengths ff env hn fin _).2.2.1]
  cases hn <;> rfl

theorem loadPlyBody_done (lm : LibM F) (ff : FloatFormat F) (env : Env) (hn : Bool)
    (vertices faces : Int) (bs : List Nat) (mesh : TriangleMesh F)
    (hv : IsInt32 vertices) (hf : IsInt32 faces) (hv0 : 0 ≤ vertices) (hf0 : 0 ≤ faces)
    (hlen : vertexRecordSize hn * vertices.toNat + 13 * faces.toNat ≤ bs.length)
    (hok : env.ndebug = true ∨ ∀ i, i < faces.toNat →
      bs[vertexRecordSize hn * vertices.toNat + 13 * i]? = some 3) :
    ∃ m, loadPlyBody lm ff env hn vertices faces ⟨bs, true⟩ mesh = .done m
      ∧ m.vertices_.length = 3 * vertices.toNat
      ∧ m.faces_.length = 3 * faces.toNat
      ∧ ∀ i j, i < faces.toNat → j < 3 →
          m.faces_[3 * i + j]?
            = some (faceIndex (bs.drop (vertexRecordSize hn * vertices.toNat)) i j) := by
  obtain ⟨m1, hm1, he⟩ := loadPlyBody_eq lm ff env hn vertices faces ⟨bs, true⟩ mesh hv hf hv0 hf0
  have hq : m1.vertices_.length / 3 = vertices.toNat := by omega
  have hs := ReadPlyVertices_stream ff env hn bs m1 (by rw [hq]; omega)
  rw [hq] at hs
  have hvl := (ReadPlyVertices_lengths ff env hn ⟨bs, true⟩ m1).1
  obtain ⟨fs, hrun, hfl, hval⟩ := ReadPlyFaces_done env
    (bs.drop (vertexRecordSize hn * vertices.toNat))
    { (ReadPlyVertices ff env hn ⟨bs, true⟩ m1).2 with
      faces_ := resize mesh.faces_ (3 * faces.toNat) 0 }
    faces.toNat (by simp [length_resize]) (by simp; omega)
    (by
      rcases hok with h | h
      · exact Or.inl h
      · right
        intro i hi
        rw [List.getElem?_drop]
        exact h i hi)
  rw [hs, hrun] at he
  simp only [Run.bind] at he
  refine ⟨_, he, ?_, ?_, ?_⟩
  · rw [(ComputeBoundingBox_fields _ _).1]
    simp only
    rw [hvl, hm1]
  · rw [(ComputeBoundingBox_fields _ _).2.1]
    exact hfl
  · rw [(ComputeBoundingBox_fields _ _).2.1]
    exact hval

theorem ReadFromPly_done (lm : LibM F) (ff : FloatFormat F) (env : Env) (fuel : Nat)
    (bytes : List Nat) (mesh : TriangleMesh F) (hasNormals : Bool) (hd : PlyHeader)
    (hh : ReadPlyHeader fuel ⟨⟨bytes, true⟩, env.line0, 0, 0, hasNormals⟩ = .done (true, hd))
    (hg : hd.fin.good = true) (hf0 : 0 ≤ hd.faces)
    (hlen : vertexRecordSize hd.hasNormals * hd.vertices.toNat + 13 * hd.faces.toNat
      ≤ hd.fin.bytes.length)
    (hok : env.ndebug = true ∨ ∀ i, i < hd.faces.toNat →
      hd.fin.bytes[vertexRecordSize hd.hasNormals * hd.vertices.toNat + 13 * i]? = some 3) :
    ∃ m, ReadFromPly lm ff env fuel (some bytes) mesh hasNormals
        = .done (true, m, hd.hasNormals)
      ∧ m.vertices_.length = 3 * hd.vertices.toNat
      ∧ m.faces_.length = 3 * hd.faces.toNat
      ∧ ∀ i j, i < hd.faces.toNat → j < 3 →
          m.faces_[3 * i + j]? = some (faceIndex
            (hd.fin.bytes.drop (vertexRecordSize hd.hasNormals * hd.vertices.toNat)) i j) := by
  have hr := ReadPlyHeader_isInt32 fuel _ _ _ hh (by simp [IsInt32]) (by simp [IsInt32])
  have hpos := ReadPlyHeader_true_pos fuel _ _ hh
  obtain ⟨bs, g, hfin⟩ : ∃ bs g, hd.fin = ⟨bs, g⟩ := ⟨_, _, rfl⟩
  rw [hfin] at hg hlen hok ⊢
  simp only at hg hlen hok ⊢
  subst hg
  obtain ⟨m, hm, h1, h2, h3⟩ := loadPlyBody_done lm ff env hd.hasNormals hd.vertices hd.faces bs
    mesh hr.1 hr.2 (by omega) hf0 hlen hok
  refine ⟨m, ?_, h1, h2, h3⟩
  rw [ReadFromPly_of_header lm ff env fuel bytes mesh hasNormals hd hh, hfin, hm]
  rfl

end

theorem eq_of_getElem?_three {α : Type} (l : List α) (a b c : α) (hl : l.length = 3)
    (h0 : l[0]? = some a) (h1 : l[1]? = some b) (h2 : l[2]? = some c) : l = [a, b, c] := by
  match l, hl with
  | [x, y, z], _ =>
    simp at h0 h1 h2
    rw [h0, h1, h2]

section
variable {F : Type} [LinearOrderedField F]

/-- In a build with `assert` enabled, when the header is accepted, the stream
is `good()`, and among the 13-byte face records that follow the vertex block
there is one whose count byte is present and is not 3, `ReadFromPly` does not
return: the process is aborted by the failed assertion. -/
theorem ReadFromPly_face_count_assert (lm : LibM F) (ff : FloatFormat F) (env : Env)
    (fuel : Nat) (bytes : List Nat) (mesh : TriangleMesh F) (hasNormals : Bool) (hd : PlyHeader)
    (hnd : env.ndebug = false)
    (hh : ReadPlyHeader fuel ⟨⟨bytes, true⟩, env.line0, 0, 0, hasNormals⟩ = .done (true, hd))
    (hg : hd.fin.good = true) (i c : Nat) (hi : (i : Int) < hd.faces)
    (hb : hd.fin.bytes[vertexRecordSize hd.hasNormals * hd.vertices.toNat + 13 * i]? = some c)
    (hc : c ≠ 3) :
    ReadFromPly lm ff env fuel (some bytes) mesh hasNormals = .assertFailed := by
  have hr := ReadPlyHeader_isInt32 fuel _ _ _ hh (by simp [IsInt32]) (by simp [IsInt32])
  have hpos := ReadPlyHeader_true_pos fuel _ _ hh
  obtain ⟨bs, g, hfin⟩ : ∃ bs g, hd.fin = ⟨bs, g⟩ := ⟨_, _, rfl⟩
  rw [hfin] at hg hb
  simp only at hg hb
  subst hg
  rw [ReadFromPly_of_header lm ff env fuel bytes mesh hasNormals hd hh, hfin,
    loadPlyBody_abort lm ff env hnd hd.hasNormals hd.vertices hd.faces bs mesh hr.1 hr.2
      (by omega) i c hi hb hc]
  rfl

/-- Witness of `ReadFromPly_face_count_assert`: the file `quadPly`, whose one
face record starts with the count 4. -/
theorem ReadFromPly_face_count_assert_witness :
    ReadFromPly realLibM realFloatFormat plainEnv 20 (some quadPly)
      (TriangleMesh.new realFloatFormat) false = .assertFailed :=
  ReadFromPly_face_count_assert realLibM realFloatFormat plainEnv 20 quadPly
    (TriangleMesh.new realFloatFormat) false _ rfl rfl rfl 0 4 (by decide) rfl (by decide)

/-- Claim C12, the code at its input.  The assertion of `ReadPlyFaces` states
that the count byte of a face record is 3, and the read goes on as if it were:
with `NDEBUG` defined, on the file `quadPly`, whose face record starts with the
count 4, `ReadFromPly` returns `true` with the indices `[0, 1, 2]`. -/
theorem ReadFromPly_ignores_face_count :
    quadBody[48]? = some 4
    ∧ ∃ m, ReadFromPly realLibM realFloatFormat releaseEnv 20 (some quadPly)
        (TriangleMesh.new realFloatFormat) false = .done (true, m, false)
      ∧ m.vertices_.length = 12 ∧ m.faces_ = [0, 1, 2] := by
  obtain ⟨m, h, hv, hf, hval⟩ := ReadFromPly_done realLibM realFloatFormat releaseEnv 20 quadPly
    (TriangleMesh.new realFloatFormat) false _ rfl rfl (by decide) (by decide) (Or.inl rfl)
  exact ⟨by decide, m, h, hv, eq_of_getElem?_three _ _ _ _ hf (hval 0 0 (by decide) (by decide))
    (hval 0 1 (by decide) (by decide)) (hval 0 2 (by decide) (by decide))⟩

/-- Claim C15, as amended.  When the header is accepted, the stream is
`good()`, the body holds all the declared records, the count bytes are 3 (or
`assert` is compiled out) and every index stored in a face record is at least 0
and below the vertex count, `ReadFromPly` returns `true` and every element of
the index array is at least 0 and below a third of the length of the positions
array. -/
theorem ReadFromPly_indices_in_range (lm : LibM F) (ff : FloatFormat F) (env : Env)
    (fuel : Nat) (bytes : List Nat) (mesh : TriangleMesh F) (hasNormals : Bool) (hd : PlyHeader)
    (hh : ReadPlyHeader fuel ⟨⟨bytes, true⟩, env.line0, 0, 0, hasNormals⟩ = .done (true, hd))
    (hg : hd.fin.good = true) (hf0 : 0 ≤ hd.faces)
    (hlen : vertexRecordSize hd.hasNormals * hd.vertices.toNat + 13 * hd.faces.toNat
      ≤ hd.fin.bytes.length)
    (hok : env.ndebug = true ∨ ∀ i, i < hd.faces.toNat →
      hd.fin.bytes[vertexRecordSize hd.hasNormals * hd.vertices.toNat + 13 * i]? = some 3)
    (hidx : ∀ i, i < hd.faces.toNat → ∀ j, j < 3 →
      0 ≤ faceIndex (hd.fin.bytes.drop (vertexRecordSize hd.hasNormals * hd.vertices.toNat)) i j
      ∧ faceIndex (hd.fin.bytes.drop (vertexRecordSize hd.hasNormals * hd.vertices.toNat)) i j
          < hd.vertices) :
    ∃ m, ReadFromPly lm ff env fuel (some bytes) mesh hasNormals
        = .done (true, m, hd.hasNormals)
      ∧ ∀ x ∈ m.faces_, 0 ≤ x ∧ x < ((m.vertices_.length / 3 : Nat) : Int) := by
  obtain ⟨m, h, hv, hf, hval⟩ :=
    ReadFromPly_done lm ff env fuel bytes mesh hasNormals hd hh hg hf0 hlen hok
  have hpos := ReadPlyHeader_true_pos fuel _ _ hh
  refine ⟨m, h, ?_⟩
  intro x hx
  obtain ⟨p, hp, rfl⟩ := List.getElem_of_mem hx
  have hq : p / 3 < hd.faces.toNat := by omega
  have e := hval (p / 3) (p % 3) hq (Nat.mod_lt _ (by decide))
  rw [show 3 * (p / 3) + p % 3 = p from Nat.div_add_mod p 3, List.getElem?_eq_getElem hp] at e
  simp only [Option.some.injEq] at e
  rw [e, hv]
  have := hidx (p / 3) hq (p % 3) (Nat.mod_lt _ (by decide))
  refine ⟨this.1, ?_⟩
  have e2 : ((3 * hd.vertices.toNat / 3 : Nat) : Int) = hd.vertices := by
    rw [Nat.mul_div_cancel_left _ (by decide : 0 < 3)]
    omega
  rw [e2]
  exact this.2

/-- Witness of `ReadFromPly_indices_in_range`: the file `trianglePly`. -/
theorem ReadFromPly_indices_in_range_witness :
    ∃ m, ReadFromPly realLibM realFloatFormat plainEnv 20 (some trianglePly)
        (TriangleMesh.new realFloatFormat) false = .done (true, m, false)
      ∧ ∀ x ∈ m.faces_, 0 ≤ x ∧ x < ((m.vertices_.length / 3 : Nat) : Int) :=
  ReadFromPly_indices_in_range realLibM realFloatFormat plainEnv 20 trianglePly
    (TriangleMesh.new realFloatFormat) false _ rfl rfl (by decide) (by decide)
    (Or.inr (by decide)) (by decide)

/-- Claim C15, counterexample.  The file `badIndexPly` declares three vertices
and its face record is `(3, 0, 1, 7)`; `ReadFromPly` returns `true` and the
index array is `[0, 1, 7]`. -/
theorem ReadFromPly_stores_any_index :
    ∃ m, ReadFromPly realLibM realFloatFormat plainEnv 20 (some badIndexPly)
        (TriangleMesh.new realFloatFormat) false = .done (true, m, true)
      ∧ m.vertices_.length / 3 = 3 ∧ m.faces_ = [0, 1, 7] := by
  obtain ⟨m, h, hv, hf, hval⟩ := ReadFromPly_done realLibM realFloatFormat plainEnv 20 badIndexPly
    (TriangleMesh.new realFloatFormat) false _ rfl rfl (by decide) (by decide)
    (Or.inr (by decide))
  exact ⟨m, h, by rw [hv]; rfl,
    eq_of_getElem?_three _ _ _ _ hf (hval 0 0 (by decide) (by decide))
    (hval 0 1 (by decide) (by decide)) (hval 0 2 (by decide) (by decide))⟩

end

section
variable {F : Type} [LinearOrderedField F]

theorem ReadFromPly_not_false (lm : LibM F) (ff : FloatFormat F) (env : Env) (fuel : Nat)
    (bytes : List Nat) (mesh m : TriangleMesh F) (hasNormals g : Bool) (hd : PlyHeader)
    (hh : ReadPlyHeader fuel ⟨⟨bytes, true⟩, env.line0, 0, 0, hasNormals⟩ = .done (true, hd)) :
    ReadFromPly lm ff env fuel (some bytes) mesh hasNormals ≠ .done (false, m, g) := by
  rw [ReadFromPly_of_header lm ff env fuel bytes mesh hasNormals hd hh]
  intro h
  rw [Run.bind_eq_done] at h
  obtain ⟨a, -, h2⟩ := h
  simp at h2

theorem ReadPlyFaces_single (env : Env) (fin : ifstream) (m : TriangleMesh F)
    (h : m.faces_.length = 3) :
    ReadPlyFaces env fin m
      = (readFaceStep env (fin, m, env.byte0) 0).bind fun st => .done (st.1, st.2.1) := by
  unfold ReadPlyFaces
  have hr : List.range (m.faces_.length / 3) = [0] := by rw [h]; decide
  simp only [hr, forRun]
  cases readFaceStep env (fin, m, env.byte0) 0 <;> rfl

theorem loadPlyBody_truncated (lm : LibM F) (ff : FloatFormat F) (mesh : TriangleMesh F) :
    ∃ m, loadPlyBody lm ff plainEnv false 3 1 ⟨triangleBody.take 43, true⟩ mesh = .done m
      ∧ m.vertices_.length = 9 ∧ m.faces_ = [0, 1, 0] := by
  obtain ⟨m1, hm1, he⟩ := loadPlyBody_eq lm ff plainEnv false 3 1 ⟨triangleBody.take 43, true⟩
    mesh (by unfold IsInt32; decide) (by unfold IsInt32; decide) (by decide) (by decide)
  have hq : m1.vertices_.length / 3 = 3 := by rw [hm1]; rfl
  have hs := ReadPlyVertices_stream ff plainEnv false (triangleBody.take 43) m1
    (by rw [hq]; decide)
  rw [hq] at hs
  have hvl := (ReadPlyVertices_lengths ff plainEnv false ⟨triangleBody.take 43, true⟩ m1).1
  have hd : List.drop (vertexRecordSize false * 3) (List.take 43 triangleBody)
      = [3, 0, 0, 0, 0, 1, 0] := by decide
  rw [hs, hd, ReadPlyFaces_single _ _ _ (by simp [length_resize])] at he
  have hstep : ∀ m2 : TriangleMesh F, m2.faces_.length = 3 →
      readFaceStep plainEnv (⟨[3, 0, 0, 0, 0, 1, 0], true⟩, m2, plainEnv.byte0) 0
        = .done (⟨[], false⟩, { m2 with faces_ := Add3Items 0 1 0 0 m2.faces_ }, [3]) := by
    intro m2 _
    simp [readFaceStep, read, plainEnv, le32, toInt32]
  rw [hstep _ (by simp [length_resize])] at he
  simp only [Run.bind] at he
  refine ⟨_, he, ?_, ?_⟩
  · rw [(ComputeBoundingBox_fields _ _).1]
    simp only
    rw [hvl, hm1]; rfl
  · rw [(ComputeBoundingBox_fields _ _).2.1]
    simp only
    have : resize mesh.faces_ (3 * (1 : Int).toNat) (0 : Int) = resize mesh.faces_ 3 0 := rfl
    rw [this]
    have hl : (resize mesh.faces_ 3 (0 : Int)).length = 3 := by simp [length_resize]
    match resize mesh.faces_ 3 (0 : Int), hl with
    | [x, y, z], _ => rfl

end

/-- Claim C11, the code at its input.  The file `truncatedPly` is `trianglePly`
without its last six bytes, so its face record is incomplete; `ReadFromPly`
returns `true` on it, with the index array `[0, 1, 0]`: the second index is
completed by, and the third is, what the local variable held before. -/
theorem ReadFromPly_truncated_body :
    truncatedPly ++ [0, 0, 2, 0, 0, 0] = trianglePly
    ∧ ∃ m, ReadFromPly realLibM realFloatFormat plainEnv 20 (some truncatedPly)
        (TriangleMesh.new realFloatFormat) false = .done (true, m, false)
      ∧ m.vertices_.length = 9 ∧ m.faces_ = [0, 1, 0] := by
  refine ⟨by simp [truncatedPly, trianglePly, triangleBody], ?_⟩
  obtain ⟨m, hm, h1, h2⟩ := loadPlyBody_truncated realLibM realFloatFormat
    (TriangleMesh.new realFloatFormat)
  have hh : ∃ line, ReadPlyHeader 20 ⟨⟨truncatedPly, true⟩, plainEnv.line0, 0, 0, false⟩
      = .done (true, ⟨⟨triangleBody.take 43, true⟩, line, 3, 1, false⟩) := ⟨_, rfl⟩
  obtain ⟨line, hh⟩ := hh
  refine ⟨m, ?_, h1, h2⟩
  rw [ReadFromPly_of_header _ _ _ _ _ _ _ _ hh]
  simp only
  rw [hm]
  rfl

section
variable {F : Type} [LinearOrderedField F]

theorem ReadPlyVertices_triangleBody_as_normals (ff : FloatFormat F) (m1 : TriangleMesh F)
    (h : m1.vertices_.length = 9) :
    (ReadPlyVertices ff plainEnv true ⟨triangleBody, true⟩ m1).1 = ⟨[], false⟩ := by
  unfold ReadPlyVertices
  have hr : List.range (m1.vertices_.length / 3) = [0, 1, 2] := by rw [h]; decide
  simp only [hr]
  have h2 := foldl_readVertexStep_stream ff plainEnv true [0, 1] triangleBody m1 (by decide)
  have hd : List.drop (vertexRecordSize true * [0, 1].length) triangleBody = [0] := by decide
  rw [hd] at h2
  have e : List.foldl (readVertexStep ff plainEnv true) (⟨triangleBody, true⟩, m1) [0, 1, 2]
      = readVertexStep ff plainEnv true
          (List.foldl (readVertexStep ff plainEnv true) (⟨triangleBody, true⟩, m1) [0, 1]) 2 :=
    rfl
  rw [e]
  obtain ⟨f2, m2, e2⟩ : ∃ f2 m2,
      List.foldl (readVertexStep ff plainEnv true) (⟨triangleBody, true⟩, m1) [0, 1] = (f2, m2) :=
    ⟨_, _, rfl⟩
  rw [e2] at h2 ⊢
  simp only at h2
  subst h2
  simp [readVertexStep, read]

theorem loadPlyBody_triangleBody_as_normals (lm : LibM F) (ff : FloatFormat F)
    (mesh : TriangleMesh F) :
    loadPlyBody lm ff plainEnv true 3 1 ⟨triangleBody, true⟩ mesh = .assertFailed := by
  obtain ⟨m1, hm1, he⟩ := loadPlyBody_eq lm ff plainEnv true 3 1 ⟨triangleBody, true⟩
    mesh (by unfold IsInt32; decide) (by unfold IsInt32; decide) (by decide) (by decide)
  rw [ReadPlyVertices_triangleBody_as_normals ff m1 (by rw [hm1]; rfl),
    ReadPlyFaces_single _ _ _ (by simp [length_resize])] at he
  rw [he]
  simp [readFaceStep, read, plainEnv, Run.bind]

end

/-- Claim C14, the code at its input.  Loading `normalsPly` leaves the global
`hasNormals` set.  Loading `trianglePly` into a fresh record with the global
unset returns `true` with the record `loadedTriangle`; with the global set, as
it is after `normalsPly`, the same file is read with 24 bytes per vertex, the
stream ends inside the vertex block and the assertion of `ReadPlyFaces` fails. -/
theorem ReadFromPly_depends_on_previous_load :
    (∃ m, ReadFromPly realLibM realFloatFormat plainEnv 20 (some normalsPly)
        (TriangleMesh.new realFloatFormat) false = .done (true, m, true))
    ∧ ReadFromPly realLibM realFloatFormat plainEnv 20 (some trianglePly)
        (TriangleMesh.new realFloatFormat) false = .done (true, loadedTriangle, false)
    ∧ ReadFromPly realLibM realFloatFormat plainEnv 20 (some trianglePly)
        (TriangleMesh.new realFloatFormat) true = .assertFailed := by
  refine ⟨?_, ReadFromPly_trianglePly, ?_⟩
  · obtain ⟨m, h, -⟩ := ReadFromPly_done realLibM realFloatFormat plainEnv 20 normalsPly
      (TriangleMesh.new realFloatFormat) false _ rfl rfl (by decide) (by decide)
      (Or.inr (by decide))
    exact ⟨m, h⟩
  · have hh : ∃ line, ReadPlyHeader 20 ⟨⟨trianglePly, true⟩, plainEnv.line0, 0, 0, true⟩
        = .done (true, ⟨⟨triangleBody, true⟩, line, 3, 1, true⟩) := ⟨_, rfl⟩
    obtain ⟨line, hh⟩ := hh
    rw [ReadFromPly_of_header _ _ _ _ _ _ _ _ hh]
    simp only
    rw [loadPlyBody_triangleBody_as_normals]
    rfl

/-! ## The sphere generator -/

theorem length_foldl_add {α ι : Type} (g : List α → ι → List α) (c : ι → Nat)
    (h : ∀ acc x, (g acc x).length = acc.length + c x) :
    ∀ (l : List ι) (init : List α),
      (l.foldl g init).length = init.length + (l.map c).sum := by
  intro l
  induction l with
  | nil => intro init; simp
  | cons x xs ih =>
    intro init
    rw [List.foldl_cons, ih, h]
    simp [Nat.add_assoc]

theorem sphereIndexSector_eq (i : Nat) (indices : List Int) (j : Nat) :
    sphereIndexSector i indices j = indices ++ sphereCell i j := by
  unfold sphereIndexSector sphereCell
  by_cases h0 : i ≠ 0 <;> by_cases h1 : i ≠ 64 - 1 <;> simp [h0, h1]

theorem length_sphereCell (i j : Nat) :
    (sphereCell i j).length = (if i ≠ 0 then 3 else 0) + (if i ≠ 63 then 3 else 0) := by
  unfold sphereCell
  by_cases h0 : i ≠ 0 <;> by_cases h1 : i ≠ 63 <;> simp [h0, h1]

theorem length_sphereIndexStack (indices : List Int) (i : Nat) :
    (sphereIndexStack indices i).length
      = indices.length + 64 * ((if i ≠ 0 then 3 else 0) + (if i ≠ 63 then 3 else 0)) := by
  unfold sphereIndexStack
  rw [length_foldl_add (sphereIndexSector i)
    (fun _ => (if i ≠ 0 then 3 else 0) + (if i ≠ 63 then 3 else 0))
    (fun acc x => by rw [sphereIndexSector_eq, List.length_append, length_sphereCell])]
  rw [List.map_const', List.sum_replicate, List.length_range, smul_eq_mul]

theorem length_sphere_indices :
    ((List.range 64).foldl sphereIndexStack ([] : List Int)).length = 24192 := by
  rw [length_foldl_add sphereIndexStack
    (fun i => 64 * ((if i ≠ 0 then 3 else 0) + (if i ≠ 63 then 3 else 0)))
    length_sphereIndexStack]
  decide

section
variable {F : Type} [LinearOrderedField F]

theorem length_sphereSectorStep (lm : LibM F) (i : Nat) (xy z : F)
    (st : List F × List F × List F) (j : Nat) :
    (sphereSectorStep lm i xy z st j).1.length = st.1.length + 3
      ∧ (sphereSectorStep lm i xy z st j).2.1.length = st.2.1.length + 3
      ∧ (sphereSectorStep lm i xy z st j).2.2.length = st.2.2.length + 2 := by
  simp [sphereSectorStep]

theorem length_foldl_triple {ι : Type} (g : List F × List F × List F → ι → List F × List F × List F)
    (a b c : Nat)
    (h : ∀ st x, (g st x).1.length = st.1.length + a ∧ (g st x).2.1.length = st.2.1.length + b
      ∧ (g st x).2.2.length = st.2.2.length + c) :
    ∀ (l : List ι) (st : List F × List F × List F),
      (l.foldl g st).1.length = st.1.length + a * l.length
      ∧ (l.foldl g st).2.1.length = st.2.1.length + b * l.length
      ∧ (l.foldl g st).2.2.length = st.2.2.length + c * l.length := by
  intro l
  induction l with
  | nil => intro st; simp
  | cons x xs ih =>
    intro st
    rw [List.foldl_cons]
    obtain ⟨h1, h2, h3⟩ := ih (g st x)
    obtain ⟨k1, k2, k3⟩ := h st x
    rw [h1, h2, h3, k1, k2, k3]
    simp only [List.length_cons, Nat.mul_succ]
    omega

theorem length_sphereStackStep (lm : LibM F) (st : List F × List F × List F) (i : Nat) :
    (sphereStackStep lm st i).1.length = st.1.length + 195
      ∧ (sphereStackStep lm st i).2.1.length = st.2.1.length + 195
      ∧ (sphereStackStep lm st i).2.2.length = st.2.2.length + 130 := by
  unfold sphereStackStep
  have := length_foldl_triple _ 3 3 2 (length_sphereSectorStep lm i
    (1 * lm.cos (3141592 / 1000000 / 2 - (i : F) * (3141592 / 1000000 / 64)))
    (1 * lm.sin (3141592 / 1000000 / 2 - (i : F) * (3141592 / 1000000 / 64))))
    (List.range 65) st
  simpa using this

/-- Claim C16.  `CreateSphere` returns `true`; the positions array has 12675
entries, that is `(64 + 1) * (64 + 1)` vertices, and the index array has 24192
entries, that is `2 * 64 * (64 - 1)` triangles. -/
theorem CreateSphere_counts (lm : LibM F) (mesh : TriangleMesh F) :
    (CreateSphere lm mesh).1 = true
      ∧ (CreateSphere lm mesh).2.vertices_.length = 12675
      ∧ (CreateSphere lm mesh).2.vertices_.length / 3 = (64 + 1) * (64 + 1)
      ∧ (CreateSphere lm mesh).2.faces_.length = 24192
      ∧ (CreateSphere lm mesh).2.faces_.length / 3 = 2 * 64 * (64 - 1) := by
  have hv := (length_foldl_triple _ 195 195 130 (length_sphereStackStep lm) (List.range 65)
    (([] : List F), ([] : List F), ([] : List F))).1
  have hf := length_sphere_indices
  unfold CreateSphere
  simp only [(ComputeBoundingBox_fields _ _).1, (ComputeBoundingBox_fields _ _).2.1]
  simp only [List.length_range, List.length_nil] at hv
  rw [hv, hf]
  decide

end


theorem foldl_append_flatMap {α ι : Type} (g : List α → ι → List α) (f : ι → List α)
    (h : ∀ acc x, g acc x = acc ++ f x) :
    ∀ (l : List ι) (init : List α), l.foldl g init = init ++ l.flatMap f := by
  intro l
  induction l with
  | nil => intro init; simp
  | cons x xs ih =>
    intro init
    rw [List.foldl_cons, ih, h, List.flatMap_cons, List.append_assoc]

theorem sphereIndexStack_eq (indices : List Int) (i : Nat) :
    sphereIndexStack indices i = indices ++ (List.range 64).flatMap (sphereCell i) := by
  unfold sphereIndexStack
  exact foldl_append_flatMap _ _ (sphereIndexSector_eq i) _ _

theorem sphere_indices_eq :
    (List.range 64).foldl sphereIndexStack ([] : List Int)
      = (List.range 64).flatMap fun i => (List.range 64).flatMap (sphereCell i) := by
  rw [foldl_append_flatMap sphereIndexStack _ sphereIndexStack_eq]
  rfl

theorem mem_sphereCell (i j : Nat) (hi : i < 64) (hj : j < 64) (x : Int)
    (hx : x ∈ sphereCell i j) : 0 ≤ x ∧ x < 4225 := by
  unfold sphereCell at hx
  rw [List.mem_append] at hx
  split_ifs at hx <;>
    simp only [List.mem_cons, List.mem_singleton, List.not_mem_nil, or_false, false_or] at hx <;>
    omega

section
variable {F : Type} [LinearOrderedField F]

theorem CreateSphere_faces (lm : LibM F) (mesh : TriangleMesh F) :
    (CreateSphere lm mesh).2.faces_
      = (List.range 64).flatMap fun i => (List.range 64).flatMap (sphereCell i) := by
  unfold CreateSphere
  simp only [(ComputeBoundingBox_fields _ _).2.1]
  exact sphere_indices_eq

/-- Claim C28.  The record of `CreateSphere` has 4225 vertices, every element
of its index array is at least 0 and below 4225, and the index array is, for the
stacks `i = 0, ..., 63` and the sectors `j = 0, ..., 63` in turn, the triangle
`(k1, k2, k1 + 1)` when `i ≠ 0` followed by the triangle `(k1 + 1, k2, k2 + 1)`
when `i ≠ 63`, with `k1 = i * 65 + j` and `k2 = k1 + 65`. -/
theorem CreateSphere_indices_in_range (lm : LibM F) (mesh : TriangleMesh F) :
    (CreateSphere lm mesh).2.vertices_.length / 3 = 4225
      ∧ (∀ x ∈ (CreateSphere lm mesh).2.faces_, 0 ≤ x ∧ x < 4225)
      ∧ (CreateSphere lm mesh).2.faces_
          = (List.range 64).flatMap fun i => (List.range 64).flatMap fun j =>
              (if i ≠ 0 then
                [((i * 65 + j : Nat) : Int), ((i * 65 + j : Nat) : Int) + 65,
                  ((i * 65 + j : Nat) : Int) + 1]
              else [])
              ++ (if i ≠ 63 then
                [((i * 65 + j : Nat) : Int) + 1, ((i * 65 + j : Nat) : Int) + 65,
                  ((i * 65 + j : Nat) : Int) + 65 + 1]
              else []) := by
  have hv := (length_foldl_triple _ 195 195 130 (length_sphereStackStep lm) (List.range 65)
    (([] : List F), ([] : List F), ([] : List F))).1
  refine ⟨?_, ?_, ?_⟩
  · unfold CreateSphere
    simp only [(ComputeBoundingBox_fields _ _).1]
    simp only [List.length_range, List.length_nil] at hv
    rw [hv]
  · intro x hx
    rw [CreateSphere_faces, List.mem_flatMap] at hx
    obtain ⟨i, hi, hx⟩ := hx
    rw [List.mem_flatMap] at hx
    obtain ⟨j, hj, hx⟩ := hx
    exact mem_sphereCell i j (List.mem_range.1 hi) (List.mem_range.1 hj) x hx
  · rw [CreateSphere_faces]
    rfl

end


theorem trianglesOf_sphereCell_append (i j : Nat) (rest : List Int) :
    trianglesOf (sphereCell i j ++ rest)
      = (if i ≠ 0 then [upperTriangle i j] else [])
        ++ (if i ≠ 63 then [lowerTriangle i j] else []) ++ trianglesOf rest := by
  unfold sphereCell upperTriangle lowerTriangle
  by_cases h0 : i = 0 <;> by_cases h1 : i = 63 <;>
    simp [h0, h1, trianglesOf] <;> omega

theorem trianglesOf_flatMap_sphereCell (i : Nat) :
    ∀ (l : List Nat) (rest : List Int),
      trianglesOf (l.flatMap (sphereCell i) ++ rest)
        = l.flatMap (fun j => (if i ≠ 0 then [upperTriangle i j] else [])
            ++ (if i ≠ 63 then [lowerTriangle i j] else [])) ++ trianglesOf rest := by
  intro l
  induction l with
  | nil => intro rest; simp
  | cons j js ih =>
    intro rest
    rw [List.flatMap_cons, List.append_assoc, trianglesOf_sphereCell_append, ih,
      List.flatMap_cons]
    simp only [List.append_assoc]

theorem trianglesOf_sphere (m : List Nat) :
    ∀ (l : List Nat) (rest : List Int),
      trianglesOf (l.flatMap (fun i => m.flatMap (sphereCell i)) ++ rest)
        = l.flatMap (fun i => m.flatMap
            (fun j => (if i ≠ 0 then [upperTriangle i j] else [])
              ++ (if i ≠ 63 then [lowerTriangle i j] else []))) ++ trianglesOf rest := by
  intro l
  induction l with
  | nil => intro rest; simp
  | cons i is ih =>
    intro rest
    rw [List.flatMap_cons, List.append_assoc, trianglesOf_flatMap_sphereCell, ih,
      List.flatMap_cons]
    simp only [List.append_assoc]

theorem countP_sphere_cell (a b : Int) (i j : Nat) :
    List.countP (hasEdge a b) ((if i ≠ 0 then [upperTriangle i j] else [])
      ++ (if i ≠ 63 then [lowerTriangle i j] else [])) = cellEdgeCount a b i j := by
  unfold cellEdgeCount
  by_cases h0 : i = 0 <;> by_cases h1 : i = 63 <;>
    by_cases hu : hasEdge a b (upperTriangle i j) = true <;>
    by_cases hl : hasEdge a b (lowerTriangle i j) = true <;>
    simp [h0, h1, hu, hl, List.countP_cons]

theorem edgeCount_sphere_lists (a b : Int) (l m : List Nat) :
    edgeCount (l.flatMap fun i => m.flatMap (sphereCell i)) a b
      = (l.map fun i => (m.map (cellEdgeCount a b i)).sum).sum := by
  unfold edgeCount
  have h := trianglesOf_sphere m l []
  rw [List.append_nil] at h
  rw [h]
  have e : trianglesOf [] = [] := rfl
  rw [e, List.append_nil, List.countP_flatMap]
  congr 1
  apply List.map_congr_left
  intro i _
  simp only [Function.comp, List.countP_flatMap]
  congr 1
  apply List.map_congr_left
  intro j _
  exact countP_sphere_cell a b i j


theorem hasEdge_iff (a b : Int) (t : Int × Int × Int) :
    hasEdge a b t = true ↔
      (t.1 = a ∧ t.2.1 = b) ∨ (t.1 = b ∧ t.2.1 = a) ∨ (t.2.1 = a ∧ t.2.2 = b)
        ∨ (t.2.1 = b ∧ t.2.2 = a) ∨ (t.1 = a ∧ t.2.2 = b) ∨ (t.1 = b ∧ t.2.2 = a) := by
  simp [hasEdge, or_assoc]

theorem sum_map_range_zero (n : Nat) (f : Nat → Nat) (hz : ∀ i, i < n → f i = 0) :
    ((List.range n).map f).sum = 0 := by
  induction n with
  | zero => rfl
  | succ n ih =>
    rw [List.range_succ, List.map_append, List.sum_append, ih (fun i hi => hz i (by omega))]
    simp [hz n (by omega)]

theorem sum_map_range_unique (n : Nat) (f : Nat → Nat) (i0 : Nat) (h0 : i0 < n)
    (hz : ∀ i, i < n → i ≠ i0 → f i = 0) : ((List.range n).map f).sum = f i0 := by
  induction n with
  | zero => omega
  | succ n ih =>
    rw [List.range_succ, List.map_append, List.sum_append]
    by_cases h : i0 = n
    · subst h
      rw [sum_map_range_zero i0 f (fun i hi => hz i (by omega) (by omega))]
      simp
    · rw [ih (by omega) (fun i hi => hz i (by omega))]
      simp [hz n (by omega) (fun e => h e.symm)]

theorem sum_indicator_unique (n m : Nat) (P : Nat → Nat → Prop) [∀ i j, Decidable (P i j)]
    (i0 j0 : Nat) (hi0 : i0 < n) (hj0 : j0 < m) (h : P i0 j0)
    (hu : ∀ i j, i < n → j < m → P i j → i = i0 ∧ j = j0) :
    ((List.range n).map fun i => ((List.range m).map fun j => if P i j then 1 else 0).sum).sum
      = 1 := by
  rw [sum_map_range_unique n _ i0 hi0, sum_map_range_unique m _ j0 hj0, if_pos h]
  · intro j hj hne
    rw [if_neg]
    intro hp
    exact hne (hu i0 j hi0 hj hp).2
  · intro i hi hne
    apply sum_map_range_zero
    intro j hj
    rw [if_neg]
    intro hp
    exact hne (hu i j hi hj hp).1

theorem sum_indicator_zero (n m : Nat) (P : Nat → Nat → Prop) [∀ i j, Decidable (P i j)]
    (hu : ∀ i j, i < n → j < m → ¬ P i j) :
    ((List.range n).map fun i => ((List.range m).map fun j => if P i j then 1 else 0).sum).sum
      = 0 := by
  apply sum_map_range_zero
  intro i hi
  apply sum_map_range_zero
  intro j hj
  rw [if_neg (hu i j hi hj)]

theorem sum_cellEdgeCount (a b : Int) (n m : Nat) :
    ((List.range n).map fun i => ((List.range m).map (cellEdgeCount a b i)).sum).sum
      = ((List.range n).map fun i => ((List.range m).map fun j =>
          if i ≠ 0 ∧ hasEdge a b (upperTriangle i j) = true then 1 else 0).sum).sum
        + ((List.range n).map fun i => ((List.range m).map fun j =>
          if i ≠ 63 ∧ hasEdge a b (lowerTriangle i j) = true then 1 else 0).sum).sum := by
  rw [← List.sum_map_add]
  congr 1
  apply List.map_congr_left
  intro i _
  rw [← List.sum_map_add]
  rfl

theorem exists_pos_of_sum_pos (f : Nat → Nat) :
    ∀ l : List Nat, 0 < (l.map f).sum → ∃ x ∈ l, 0 < f x := by
  intro l
  induction l with
  | nil => intro h; simp at h
  | cons x xs ih =>
    intro h
    rw [List.map_cons, List.sum_cons] at h
    by_cases hx : 0 < f x
    · exact ⟨x, List.mem_cons_self _ _, hx⟩
    · obtain ⟨y, hy, hy2⟩ := ih (by omega)
      exact ⟨y, List.mem_cons_of_mem _ hy, hy2⟩

theorem hasEdge_upperTriangle (a b : Int) (i j : Nat) :
    (i ≠ 0 ∧ hasEdge a b (upperTriangle i j) = true) ↔ upperEdge (min a b) (max a b) i j := by
  simp only [hasEdge_iff, upperTriangle, upperEdge]
  push_cast
  constructor
  · rintro ⟨h0, ⟨h, h2⟩ | ⟨h, h2⟩ | ⟨h, h2⟩ | ⟨h, h2⟩ | ⟨h, h2⟩ | ⟨h, h2⟩⟩ <;>
      refine ⟨h0, ?_⟩ <;> subst h <;> subst h2 <;> omega
  · rintro ⟨h0, ⟨h, h2⟩ | ⟨h, h2⟩ | ⟨h, h2⟩⟩ <;> refine ⟨h0, ?_⟩ <;>
      rcases le_total a b with hab | hab <;>
      simp only [min_eq_left hab, max_eq_right hab, min_eq_right hab, max_eq_left hab] at h h2 <;>
      subst h <;> subst h2 <;> omega

theorem hasEdge_lowerTriangle (a b : Int) (i j : Nat) :
    (i ≠ 63 ∧ hasEdge a b (lowerTriangle i j) = true) ↔ lowerEdge (min a b) (max a b) i j := by
  simp only [hasEdge_iff, lowerTriangle, lowerEdge]
  push_cast
  constructor
  · rintro ⟨h0, ⟨h, h2⟩ | ⟨h, h2⟩ | ⟨h, h2⟩ | ⟨h, h2⟩ | ⟨h, h2⟩ | ⟨h, h2⟩⟩ <;>
      refine ⟨h0, ?_⟩ <;> subst h <;> subst h2 <;> omega
  · rintro ⟨h0, ⟨h, h2⟩ | ⟨h, h2⟩ | ⟨h, h2⟩⟩ <;> refine ⟨h0, ?_⟩ <;>
      rcases le_total a b with hab | hab <;>
      simp only [min_eq_left hab, max_eq_right hab, min_eq_right hab, max_eq_left hab] at h h2 <;>
      subst h <;> subst h2 <;> omega

theorem sphere_edge_arith (lo hi : Int) (hlo : 65 ≤ lo) (hhi : hi < 4160)
    (hs0 : ¬ (lo % 65 = 0 ∧ hi % 65 = 0)) (hs1 : ¬ (lo % 65 = 64 ∧ hi % 65 = 64))
    (hex : ∃ i j : Nat, i < 64 ∧ j < 64 ∧ (upperEdge lo hi i j ∨ lowerEdge lo hi i j)) :
    (∃ i0 j0 : Nat, i0 < 64 ∧ j0 < 64 ∧ upperEdge lo hi i0 j0
        ∧ ∀ i j : Nat, i < 64 → j < 64 → upperEdge lo hi i j → i = i0 ∧ j = j0)
    ∧ (∃ i0 j0 : Nat, i0 < 64 ∧ j0 < 64 ∧ lowerEdge lo hi i0 j0
        ∧ ∀ i j : Nat, i < 64 → j < 64 → lowerEdge lo hi i j → i = i0 ∧ j = j0) := by
  obtain ⟨i, j, hi, hj, h⟩ := hex
  unfold upperEdge lowerEdge at h ⊢
  rcases h with ⟨h0, ⟨rfl, rfl⟩ | ⟨rfl, rfl⟩ | ⟨rfl, rfl⟩⟩
    | ⟨h0, ⟨rfl, rfl⟩ | ⟨rfl, rfl⟩ | ⟨rfl, rfl⟩⟩
  · refine ⟨⟨i, j, hi, hj, by omega, ?_⟩, ⟨i, j - 1, hi, by omega, by omega, ?_⟩⟩
    · rintro i2 j2 hi2 hj2 ⟨h2, h3 | h3 | h3⟩ <;> omega
    · rintro i2 j2 hi2 hj2 ⟨h2, h3 | h3 | h3⟩ <;> omega
  · refine ⟨⟨i, j, hi, hj, by omega, ?_⟩, ⟨i, j, hi, hj, by omega, ?_⟩⟩
    · rintro i2 j2 hi2 hj2 ⟨h2, h3 | h3 | h3⟩ <;> omega
    · rintro i2 j2 hi2 hj2 ⟨h2, h3 | h3 | h3⟩ <;> omega
  · refine ⟨⟨i, j, hi, hj, by omega, ?_⟩, ⟨i - 1, j, by omega, hj, by omega, ?_⟩⟩
    · rintro i2 j2 hi2 hj2 ⟨h2, h3 | h3 | h3⟩ <;> omega
    · rintro i2 j2 hi2 hj2 ⟨h2, h3 | h3 | h3⟩ <;> omega
  · refine ⟨⟨i, j, hi, hj, by omega, ?_⟩, ⟨i, j, hi, hj, by omega, ?_⟩⟩
    · rintro i2 j2 hi2 hj2 ⟨h2, h3 | h3 | h3⟩ <;> omega
    · rintro i2 j2 hi2 hj2 ⟨h2, h3 | h3 | h3⟩ <;> omega
  · refine ⟨⟨i + 1, j, by omega, hj, by omega, ?_⟩, ⟨i, j, hi, hj, by omega, ?_⟩⟩
    · rintro i2 j2 hi2 hj2 ⟨h2, h3 | h3 | h3⟩ <;> omega
    · rintro i2 j2 hi2 hj2 ⟨h2, h3 | h3 | h3⟩ <;> omega
  · refine ⟨⟨i, j + 1, hi, by omega, by omega, ?_⟩, ⟨i, j, hi, hj, by omega, ?_⟩⟩
    · rintro i2 j2 hi2 hj2 ⟨h2, h3 | h3 | h3⟩ <;> omega
    · rintro i2 j2 hi2 hj2 ⟨h2, h3 | h3 | h3⟩ <;> omega


theorem le_sum_map_range (n : Nat) (f : Nat → Nat) (i0 : Nat) (h0 : i0 < n) :
    f i0 ≤ ((List.range n).map f).sum :=
  List.single_le_sum (fun _ _ => Nat.zero_le _) _
    (List.mem_map.2 ⟨i0, List.mem_range.2 h0, rfl⟩)

theorem cellEdgeCount_pos_iff (a b : Int) (i j : Nat) :
    0 < cellEdgeCount a b i j
      ↔ upperEdge (min a b) (max a b) i j ∨ lowerEdge (min a b) (max a b) i j := by
  rw [← hasEdge_upperTriangle, ← hasEdge_lowerTriangle]
  unfold cellEdgeCount
  split_ifs with hu hl hl
  · exact ⟨fun _ => Or.inl hu, fun _ => by decide⟩
  · exact ⟨fun _ => Or.inl hu, fun _ => by decide⟩
  · exact ⟨fun _ => Or.inr hl, fun _ => by decide⟩
  · exact ⟨fun h => absurd h (by decide),
      fun h => h.elim (fun x => absurd x hu) (fun x => absurd x hl)⟩

theorem sphere_edge_exists (a b : Int)
    (h : 0 < ((List.range 64).map fun i =>
      ((List.range 64).map (cellEdgeCount a b i)).sum).sum) :
    ∃ i j : Nat, i < 64 ∧ j < 64
      ∧ (upperEdge (min a b) (max a b) i j ∨ lowerEdge (min a b) (max a b) i j) := by
  obtain ⟨i, hi, h2⟩ := exists_pos_of_sum_pos _ _ h
  obtain ⟨j, hj, h3⟩ := exists_pos_of_sum_pos _ _ h2
  exact ⟨i, j, List.mem_range.1 hi, List.mem_range.1 hj, (cellEdgeCount_pos_iff a b i j).1 h3⟩

theorem sphere_edge_pos (a b : Int) (i j : Nat) (hi : i < 64) (hj : j < 64)
    (h : upperEdge (min a b) (max a b) i j ∨ lowerEdge (min a b) (max a b) i j) :
    0 < ((List.range 64).map fun i =>
      ((List.range 64).map (cellEdgeCount a b i)).sum).sum := by
  have h1 := (cellEdgeCount_pos_iff a b i j).2 h
  have h2 := le_sum_map_range 64 (cellEdgeCount a b i) j hj
  have h3 := le_sum_map_range 64
    (fun i => ((List.range 64).map (cellEdgeCount a b i)).sum) i hi
  simp only at h3
  omega

theorem sphere_edge_two (a b : Int)
    (ha : sphereStackOf a ≠ 0 ∧ sphereStackOf a ≠ 64)
    (hb : sphereStackOf b ≠ 0 ∧ sphereStackOf b ≠ 64)
    (hs0 : ¬ (sphereSectorOf a = 0 ∧ sphereSectorOf b = 0))
    (hs1 : ¬ (sphereSectorOf a = 64 ∧ sphereSectorOf b = 64))
    (hex : ∃ i j : Nat, i < 64 ∧ j < 64
      ∧ (upperEdge (min a b) (max a b) i j ∨ lowerEdge (min a b) (max a b) i j)) :
    ((List.range 64).map fun i => ((List.range 64).map (cellEdgeCount a b i)).sum).sum = 2 := by
  unfold sphereStackOf at ha hb
  unfold sphereSectorOf at hs0 hs1
  have hrange : 0 ≤ min a b ∧ max a b < 4225 := by
    obtain ⟨i, j, hi, hj, h⟩ := hex
    unfold upperEdge lowerEdge at h
    rcases h with ⟨-, h | h | h⟩ | ⟨-, h | h | h⟩ <;> omega
  have hlo : 65 ≤ min a b := by
    rcases le_total a b with hab | hab
    · simp only [min_eq_left hab, max_eq_right hab] at hrange ⊢; omega
    · simp only [min_eq_right hab, max_eq_left hab] at hrange ⊢; omega
  have hhi : max a b < 4160 := by
    rcases le_total a b with hab | hab
    · simp only [min_eq_left hab, max_eq_right hab] at hrange ⊢; omega
    · simp only [min_eq_right hab, max_eq_left hab] at hrange ⊢; omega
  have hs0' : ¬ (min a b % 65 = 0 ∧ max a b % 65 = 0) := by
    rcases le_total a b with hab | hab
    · rw [min_eq_left hab, max_eq_right hab]; exact hs0
    · rw [min_eq_right hab, max_eq_left hab]; exact fun h => hs0 ⟨h.2, h.1⟩
  have hs1' : ¬ (min a b % 65 = 64 ∧ max a b % 65 = 64) := by
    rcases le_total a b with hab | hab
    · rw [min_eq_left hab, max_eq_right hab]; exact hs1
    · rw [min_eq_right hab, max_eq_left hab]; exact fun h => hs1 ⟨h.2, h.1⟩
  obtain ⟨⟨iu, ju, hiu, hju, hu, huu⟩, ⟨il, jl, hil, hjl, hl, hlu⟩⟩ :=
    sphere_edge_arith (min a b) (max a b) hlo hhi hs0' hs1' hex
  rw [sum_cellEdgeCount,
    sum_indicator_unique 64 64 (fun i j => i ≠ 0 ∧ hasEdge a b (upperTriangle i j) = true)
      iu ju hiu hju ((hasEdge_upperTriangle a b iu ju).2 hu)
      (fun i j hi hj h => huu i j hi hj ((hasEdge_upperTriangle a b i j).1 h)),
    sum_indicator_unique 64 64 (fun i j => i ≠ 63 ∧ hasEdge a b (lowerTriangle i j) = true)
      il jl hil hjl ((hasEdge_lowerTriangle a b il jl).2 hl)
      (fun i j hi hj h => hlu i j hi hj ((hasEdge_lowerTriangle a b i j).1 h))]

theorem sphere_seam_edge :
    ((List.range 64).map fun i => ((List.range 64).map (cellEdgeCount 65 130 i)).sum).sum
      = 1 := by
  rw [sum_cellEdgeCount,
    sum_indicator_unique 64 64 (fun i j => i ≠ 0 ∧ hasEdge 65 130 (upperTriangle i j) = true)
      1 0 (by decide) (by decide) (by decide)
      (fun i j hi hj h => by
        have := (hasEdge_upperTriangle 65 130 i j).1 h
        unfold upperEdge at this
        rw [show min (65 : Int) 130 = 65 by decide, show max (65 : Int) 130 = 130 by decide]
          at this
        omega),
    sum_indicator_zero 64 64 (fun i j => i ≠ 63 ∧ hasEdge 65 130 (lowerTriangle i j) = true)
      (fun i j hi hj h => by
        have := (hasEdge_lowerTriangle 65 130 i j).1 h
        unfold lowerEdge at this
        rw [show min (65 : Int) 130 = 65 by decide, show max (65 : Int) 130 = 130 by decide]
          at this
        omega)]

section
variable {F : Type} [LinearOrderedField F]

/-- Claim C17, as amended.  In the index array of `CreateSphere`, an edge whose
two vertices are not in stack 0 or stack 64, and are not both in sector 0 or
both in sector 64, is an edge of exactly two triangles. -/
theorem CreateSphere_interior_edges (lm : LibM F) (mesh : TriangleMesh F) (a b : Int)
    (hedge : 0 < edgeCount (CreateSphere lm mesh).2.faces_ a b)
    (ha : sphereStackOf a ≠ 0 ∧ sphereStackOf a ≠ 64)
    (hb : sphereStackOf b ≠ 0 ∧ sphereStackOf b ≠ 64)
    (hs0 : ¬ (sphereSectorOf a = 0 ∧ sphereSectorOf b = 0))
    (hs1 : ¬ (sphereSectorOf a = 64 ∧ sphereSectorOf b = 64)) :
    edgeCount (CreateSphere lm mesh).2.faces_ a b = 2 := by
  rw [CreateSphere_faces, edgeCount_sphere_lists] at hedge ⊢
  exact sphere_edge_two a b ha hb hs0 hs1 (sphere_edge_exists a b hedge)

end

/-- Witness of `CreateSphere_interior_edges`: the edge between the vertices 66
and 131, which are in sector 1 of the stacks 1 and 2. -/
theorem CreateSphere_interior_edges_witness :
    0 < edgeCount (CreateSphere realLibM (TriangleMesh.new realFloatFormat)).2.faces_ 66 131
    ∧ edgeCount (CreateSphere realLibM (TriangleMesh.new realFloatFormat)).2.faces_ 66 131 = 2 :=
  have h : 0 < edgeCount (CreateSphere realLibM (TriangleMesh.new realFloatFormat)).2.faces_
      66 131 := by
    rw [CreateSphere_faces, edgeCount_sphere_lists]
    exact sphere_edge_pos 66 131 1 1 (by decide) (by decide)
      (Or.inl (by
        rw [show min (66 : Int) 131 = 66 by decide, show max (66 : Int) 131 = 131 by decide]
        unfold upperEdge
        decide))
  ⟨h, CreateSphere_interior_edges realLibM (TriangleMesh.new realFloatFormat) 66 131 h
    (by decide) (by decide) (by decide) (by decide)⟩

/-- Claim C17, counterexample.  The vertices 65 and 130 are in sector 0 of the
stacks 1 and 2, so neither is a pole vertex; their edge is an edge of one
triangle only, `(65, 130, 66)`: the triangles on the other side of the seam use
the vertices 129 and 194 of sector 64, which have the same positions. -/
theorem CreateSphere_seam_edge :
    sphereStackOf 65 = 1 ∧ sphereStackOf 130 = 2
    ∧ edgeCount (CreateSphere realLibM (TriangleMesh.new realFloatFormat)).2.faces_ 65 130 = 1 := by
  refine ⟨by decide, by decide, ?_⟩
  rw [CreateSphere_faces, edgeCount_sphere_lists]
  exact sphere_seam_edge


/-! ## The bounding box -/

theorem foldl_proj {σ τ ι : Type} (g : σ → ι → σ) (h : τ → ι → τ) (p : σ → τ)
    (hp : ∀ s i, p (g s i) = h (p s) i) :
    ∀ (l : List ι) (s : σ), p (l.foldl g s) = l.foldl h (p s) := by
  intro l
  induction l with
  | nil => intro s; rfl
  | cons i is ih => intro s; rw [List.foldl_cons, ih, hp, List.foldl_cons]

section
variable {F : Type} [LinearOrderedField F]

theorem stdMin_le_left (a b : F) : stdMin a b ≤ a := by
  unfold stdMin; split_ifs with h
  · exact le_of_lt h
  · exact le_refl a

theorem stdMin_le_right (a b : F) : stdMin a b ≤ b := by
  unfold stdMin; split_ifs with h
  · exact le_refl b
  · exact not_lt.1 h

theorem stdMin_eq (a b : F) : stdMin a b = a ∨ stdMin a b = b := by
  unfold stdMin; split_ifs <;> simp

theorem le_stdMax_left (a b : F) : a ≤ stdMax a b := by
  unfold stdMax; split_ifs with h
  · exact le_of_lt h
  · exact le_refl a

theorem le_stdMax_right (a b : F) : b ≤ stdMax a b := by
  unfold stdMax; split_ifs with h
  · exact le_refl b
  · exact not_lt.1 h

theorem stdMax_eq (a b : F) : stdMax a b = a ∨ stdMax a b = b := by
  unfold stdMax; split_ifs <;> simp

theorem foldl_stdMin (f : Nat → F) (init : F) (n : Nat) :
    (List.range n).foldl (fun acc i => stdMin acc (f i)) init ≤ init
      ∧ (∀ i, i < n → (List.range n).foldl (fun acc i => stdMin acc (f i)) init ≤ f i)
      ∧ ((List.range n).foldl (fun acc i => stdMin acc (f i)) init = init
        ∨ ∃ i, i < n ∧ (List.range n).foldl (fun acc i => stdMin acc (f i)) init = f i) := by
  induction n with
  | zero => exact ⟨le_refl _, fun i hi => by omega, Or.inl rfl⟩
  | succ n ih =>
    rw [List.range_succ, List.foldl_append]
    simp only [List.foldl_cons, List.foldl_nil]
    obtain ⟨h1, h2, h3⟩ := ih
    refine ⟨le_trans (stdMin_le_left _ _) h1, ?_, ?_⟩
    · intro i hi
      rcases Nat.lt_succ_iff_lt_or_eq.1 hi with h | rfl
      · exact le_trans (stdMin_le_left _ _) (h2 i h)
      · exact stdMin_le_right _ _
    · rcases stdMin_eq ((List.range n).foldl (fun acc i => stdMin acc (f i)) init) (f n)
        with e | e
      · rw [e]
        rcases h3 with h | ⟨i, hi, h⟩
        · exact Or.inl h
        · exact Or.inr ⟨i, by omega, h⟩
      · exact Or.inr ⟨n, by omega, e⟩

theorem foldl_stdMax (f : Nat → F) (init : F) (n : Nat) :
    init ≤ (List.range n).foldl (fun acc i => stdMax acc (f i)) init
      ∧ (∀ i, i < n → f i ≤ (List.range n).foldl (fun acc i => stdMax acc (f i)) init)
      ∧ ((List.range n).foldl (fun acc i => stdMax acc (f i)) init = init
        ∨ ∃ i, i < n ∧ (List.range n).foldl (fun acc i => stdMax acc (f i)) init = f i) := by
  induction n with
  | zero => exact ⟨le_refl _, fun i hi => by omega, Or.inl rfl⟩
  | succ n ih =>
    rw [List.range_succ, List.foldl_append]
    simp only [List.foldl_cons, List.foldl_nil]
    obtain ⟨h1, h2, h3⟩ := ih
    refine ⟨le_trans h1 (le_stdMax_left _ _), ?_, ?_⟩
    · intro i hi
      rcases Nat.lt_succ_iff_lt_or_eq.1 hi with h | rfl
      · exact le_trans (h2 i h) (le_stdMax_left _ _)
      · exact le_stdMax_right _ _
    · rcases stdMax_eq ((List.range n).foldl (fun acc i => stdMax acc (f i)) init) (f n)
        with e | e
      · rw [e]
        rcases h3 with h | ⟨i, hi, h⟩
        · exact Or.inl h
        · exact Or.inr ⟨i, by omega, h⟩
      · exact Or.inr ⟨n, by omega, e⟩

theorem ComputeBoundingBox_min (vs : List F) (mesh : TriangleMesh F) (a : Nat) (ha : a < 3) :
    (ComputeBoundingBox vs mesh).min_.get a
      = (List.range (vs.length / 3)).foldl (fun acc i => stdMin acc (vs.getD (i * 3 + a) 0))
          (mesh.min_.get a) := by
  unfold ComputeBoundingBox
  have h3 : a = 0 ∨ a = 1 ∨ a = 2 := by omega
  rcases h3 with rfl | rfl | rfl
  · exact foldl_proj (boundingBoxStep vs) _ (fun m : TriangleMesh F => m.min_.get 0)
      (fun s i => rfl) _ _
  · exact foldl_proj (boundingBoxStep vs) _ (fun m : TriangleMesh F => m.min_.get 1)
      (fun s i => rfl) _ _
  · exact foldl_proj (boundingBoxStep vs) _ (fun m : TriangleMesh F => m.min_.get 2)
      (fun s i => rfl) _ _

theorem ComputeBoundingBox_max (vs : List F) (mesh : TriangleMesh F) (a : Nat) (ha : a < 3) :
    (ComputeBoundingBox vs mesh).max_.get a
      = (List.range (vs.length / 3)).foldl (fun acc i => stdMax acc (vs.getD (i * 3 + a) 0))
          (mesh.max_.get a) := by
  unfold ComputeBoundingBox
  have h3 : a = 0 ∨ a = 1 ∨ a = 2 := by omega
  rcases h3 with rfl | rfl | rfl
  · exact foldl_proj (boundingBoxStep vs) _ (fun m : TriangleMesh F => m.max_.get 0)
      (fun s i => rfl) _ _
  · exact foldl_proj (boundingBoxStep vs) _ (fun m : TriangleMesh F => m.max_.get 1)
      (fun s i => rfl) _ _
  · exact foldl_proj (boundingBoxStep vs) _ (fun m : TriangleMesh F => m.max_.get 2)
      (fun s i => rfl) _ _

theorem get_new_min (ff : FloatFormat F) (a : Nat) :
    (TriangleMesh.new ff).min_.get a = ff.max := by
  unfold TriangleMesh.new TriangleMesh.Clear vec3.get
  rcases a with _ | _ | _ <;> rfl

theorem get_new_max (ff : FloatFormat F) (a : Nat) :
    (TriangleMesh.new ff).max_.get a = -ff.max := by
  unfold TriangleMesh.new TriangleMesh.Clear vec3.get
  rcases a with _ | _ | _ <;> rfl

/-- Claim C18.  For a fresh record and positions with at least one vertex whose
coordinates are finite (between `-max` and `max` of the float format), after
`ComputeBoundingBox` the component `a` of `min_` is a lower bound of coordinate
`a` of every vertex and is the coordinate of some vertex, the component `a` of
`max_` is an upper bound and is the coordinate of some vertex, and the former is
at most the latter. -/
theorem ComputeBoundingBox_fresh (ff : FloatFormat F) (vs : List F)
    (hne : 0 < vs.length / 3)
    (hfin : ∀ x ∈ vs, -ff.max ≤ x ∧ x ≤ ff.max) (a : Nat) (ha : a < 3) :
    (∀ i, i < vs.length / 3 →
        (ComputeBoundingBox vs (TriangleMesh.new ff)).min_.get a ≤ vs.getD (i * 3 + a) 0
        ∧ vs.getD (i * 3 + a) 0 ≤ (ComputeBoundingBox vs (TriangleMesh.new ff)).max_.get a)
      ∧ (∃ i, i < vs.length / 3
        ∧ (ComputeBoundingBox vs (TriangleMesh.new ff)).min_.get a = vs.getD (i * 3 + a) 0)
      ∧ (∃ i, i < vs.length / 3
        ∧ (ComputeBoundingBox vs (TriangleMesh.new ff)).max_.get a = vs.getD (i * 3 + a) 0)
      ∧ (ComputeBoundingBox vs (TriangleMesh.new ff)).min_.get a
          ≤ (ComputeBoundingBox vs (TriangleMesh.new ff)).max_.get a := by
  rw [ComputeBoundingBox_min vs _ a ha, ComputeBoundingBox_max vs _ a ha, get_new_min,
    get_new_max]
  obtain ⟨m1, m2, m3⟩ := foldl_stdMin (fun i => vs.getD (i * 3 + a) 0) ff.max (vs.length / 3)
  obtain ⟨x1, x2, x3⟩ := foldl_stdMax (fun i => vs.getD (i * 3 + a) 0) (-ff.max) (vs.length / 3)
  have hmem : ∀ i, i < vs.length / 3 → vs.getD (i * 3 + a) 0 ∈ vs := by
    intro i hi
    have hlt : i * 3 + a < vs.length := by omega
    rw [List.getD_eq_getElem _ _ hlt]
    exact List.getElem_mem _
  refine ⟨fun i hi => ⟨m2 i hi, x2 i hi⟩, ?_, ?_, le_trans (m2 0 hne) (x2 0 hne)⟩
  · rcases m3 with h | h
    · refine ⟨0, hne, le_antisymm (m2 0 hne) ?_⟩
      rw [h]
      exact (hfin _ (hmem 0 hne)).2
    · exact h
  · rcases x3 with h | h
    · refine ⟨0, hne, le_antisymm ?_ (x2 0 hne)⟩
      rw [h]
      exact (hfin _ (hmem 0 hne)).1
    · exact h

theorem ComputeBoundingBox_nil (mesh : TriangleMesh F) :
    ComputeBoundingBox [] mesh = mesh := by
  simp [ComputeBoundingBox]

/-- Claim C19.  After `Clear`, and for a fresh record, the four arrays are empty
and the bounds are the sentinels `max` and `-max` of the float format;
`ComputeBoundingBox` on empty positions leaves the record as it is, and on each
axis the component of `max_` is below that of `min_`. -/
theorem ComputeBoundingBox_empty (ff : FloatFormat F) (mesh : TriangleMesh F)
    (hmax : 0 < ff.max) :
    (TriangleMesh.Clear ff mesh).vertices_ = []
      ∧ (TriangleMesh.Clear ff mesh).faces_ = []
      ∧ (TriangleMesh.Clear ff mesh).normals_ = []
      ∧ (TriangleMesh.Clear ff mesh).texCoords_ = []
      ∧ (TriangleMesh.Clear ff mesh).min_ = ⟨ff.max, ff.max, ff.max⟩
      ∧ (TriangleMesh.Clear ff mesh).max_ = ⟨-ff.max, -ff.max, -ff.max⟩
      ∧ (TriangleMesh.new ff).vertices_ = []
      ∧ (TriangleMesh.new ff).faces_ = []
      ∧ (TriangleMesh.new ff).normals_ = []
      ∧ (TriangleMesh.new ff).texCoords_ = []
      ∧ (TriangleMesh.new ff).min_ = ⟨ff.max, ff.max, ff.max⟩
      ∧ (TriangleMesh.new ff).max_ = ⟨-ff.max, -ff.max, -ff.max⟩
      ∧ ComputeBoundingBox [] (TriangleMesh.Clear ff mesh) = TriangleMesh.Clear ff mesh
      ∧ ∀ a, a < 3 →
          (ComputeBoundingBox [] (TriangleMesh.Clear ff mesh)).max_.get a
            < (ComputeBoundingBox [] (TriangleMesh.Clear ff mesh)).min_.get a := by
  refine ⟨rfl, rfl, rfl, rfl, rfl, rfl, rfl, rfl, rfl, rfl, rfl, rfl,
    ComputeBoundingBox_nil _, ?_⟩
  intro a ha
  rw [ComputeBoundingBox_nil]
  have h3 : a = 0 ∨ a = 1 ∨ a = 2 := by omega
  have hlt : -ff.max < ff.max := lt_trans (neg_lt_zero.2 hmax) hmax
  rcases h3 with rfl | rfl | rfl <;> exact hlt

end

theorem realFloatFormat_max_pos : (0 : ℝ) < realFloatFormat.max := by
  simp [realFloatFormat]
  norm_num

theorem realFloatFormat_max_big : (1 : ℝ) ≤ realFloatFormat.max := by
  simp [realFloatFormat]
  norm_num

/-- Witness of `ComputeBoundingBox_fresh`: for the positions `(0,0,0)`,
`(1,0,0)`, `(0,1,0)` the box is `min_ = (0,0,0)`, `max_ = (1,1,0)`. -/
theorem ComputeBoundingBox_fresh_witness :
    (ComputeBoundingBox rightTriangle (TriangleMesh.new realFloatFormat)).min_ = ⟨0, 0, 0⟩
    ∧ (ComputeBoundingBox rightTriangle (TriangleMesh.new realFloatFormat)).max_ = ⟨1, 1, 0⟩
    ∧ ∀ a, a < 3 →
      (ComputeBoundingBox rightTriangle (TriangleMesh.new realFloatFormat)).min_.get a
        ≤ (ComputeBoundingBox rightTriangle (TriangleMesh.new realFloatFormat)).max_.get a := by
  have hb := boundingBox_rightTriangle (TriangleMesh.new realFloatFormat) rfl rfl
  refine ⟨by rw [hb], by rw [hb], fun a ha => ?_⟩
  have hfin : ∀ x ∈ rightTriangle, -realFloatFormat.max ≤ x ∧ x ≤ realFloatFormat.max := by
    have h1 := realFloatFormat_max_big
    intro x hx
    simp only [rightTriangle, List.mem_cons, List.mem_singleton, List.not_mem_nil, or_false]
      at hx
    rcases hx with rfl | rfl | rfl | rfl | rfl | rfl | rfl | rfl | rfl <;>
      constructor <;> linarith
  exact (ComputeBoundingBox_fresh realFloatFormat rightTriangle (by decide) hfin a ha).2.2.2

/-- Witness of `ComputeBoundingBox_empty`: the binary32 format over the reals. -/
theorem ComputeBoundingBox_empty_witness :
    ComputeBoundingBox [] (TriangleMesh.new realFloatFormat) = TriangleMesh.new realFloatFormat
    ∧ ∀ a, a < 3 →
      (ComputeBoundingBox [] (TriangleMesh.new realFloatFormat)).max_.get a
        < (ComputeBoundingBox [] (TriangleMesh.new realFloatFormat)).min_.get a :=
  ⟨ComputeBoundingBox_nil _, (ComputeBoundingBox_empty realFloatFormat
    ⟨[], [], [], [], "", vec3.zero, vec3.zero⟩ realFloatFormat_max_pos).2.2.2.2.2.2.2.2.2.2.2.2.2⟩



/-! ## The counts of the header in the record -/

/-- Claim C3, the code at its input.  The file `plyFaceSecondTriangle` declares
three vertices and one face, the line `element face 1` standing directly after
`ply`, where the loop of `ReadPlyHeader` does not test for it.  `ReadFromPly`
returns `true` with 9 position entries and an empty index array, where three
times the declared face count is 3. -/
theorem ReadFromPly_declared_face_count_lost :
    ∃ m, ReadFromPly realLibM realFloatFormat plainEnv 20 (some plyFaceSecondTriangle)
        (TriangleMesh.new realFloatFormat) false = .done (true, m, false)
      ∧ m.vertices_.length = 3 * 3 ∧ m.faces_.length = 0 := by
  obtain ⟨m, h, hv, hf, -⟩ := ReadFromPly_done realLibM realFloatFormat plainEnv 20
    plyFaceSecondTriangle (TriangleMesh.new realFloatFormat) false _ rfl rfl (by decide)
    (by decide) (Or.inr (by decide))
  exact ⟨m, h, hv, hf⟩

theorem ReadPlyHeader_zero_vertices_long_line (fuel : Nat) (hn : Bool) :
    ReadPlyHeader fuel ⟨⟨plyZeroVerticesLongLine, true⟩, plainEnv.line0, 0, 0, hn⟩
      = .outOfFuel := by
  cases hn <;>
  exact ReadPlyHeader_outOfFuel fuel _ (by decide) (headerLoop_not_good fuel _ rfl (by decide))

/-- Claim C9, the code at its input.  The header `plyZeroVerticesLongLine`
declares `element vertex 0` after a comment line of 100 characters.  The
`getline` of that line sets `failbit`, every later `getline` yields the empty
string, and the loop of `ReadPlyHeader` uses up every bound put on it: neither
`ReadPlyHeader` nor `ReadFromPly` returns `false`, they do not return. -/
theorem ReadFromPly_zero_vertices_no_return (fuel : Nat) :
    ReadPlyHeader fuel ⟨⟨plyZeroVerticesLongLine, true⟩, plainEnv.line0, 0, 0, false⟩
        = .outOfFuel
      ∧ ReadFromPly realLibM realFloatFormat plainEnv fuel (some plyZeroVerticesLongLine)
          (TriangleMesh.new realFloatFormat) false = .outOfFuel := by
  refine ⟨ReadPlyHeader_zero_vertices_long_line fuel false, ?_⟩
  rw [ReadFromPly, ReadPlyHeader_zero_vertices_long_line fuel false]
  rfl

/-! ## The OBJ reader: exits, texture path, corner attributes -/

section
variable {F : Type} [LinearOrderedField F]

theorem forRun_objShapeStep_exit (attrib : attrib_t F) :
    ∀ (shapes : List shape_t) (st : TriangleMesh F × Nat),
      (∃ s ∈ shapes, ∃ nfv ∈ s.mesh.num_face_vertices, nfv ≠ 3) →
      forRun (objShapeStep attrib) shapes st = .exited 1
        ∨ forRun (objShapeStep attrib) shapes st = .lengthError := by
  intro shapes
  induction shapes with
  | nil => intro st h; simp at h
  | cons s ss ih =>
    intro st h
    rw [forRun]
    rcases objShapeStep_outcome attrib st s with e | e | ⟨st2, e⟩
    · rw [e]; exact Or.inl rfl
    · rw [e]; exact Or.inr rfl
    · rw [e]
      simp only [Run.bind]
      apply ih
      obtain ⟨s2, hs2, nfv, hn, hne⟩ := h
      rcases List.mem_cons.1 hs2 with rfl | hmem
      · exfalso
        have hany : s2.mesh.num_face_vertices.any (fun nfv => nfv != 3) = true := by
          rw [List.any_eq_true]
          exact ⟨nfv, hn, by simpa using hne⟩
        unfold objShapeStep at e
        simp only [] at e
        rw [Run.bind_eq_done] at e
        obtain ⟨_, -, e⟩ := e
        rw [Run.bind_eq_done] at e
        obtain ⟨_, -, e⟩ := e
        rw [Run.bind_eq_done] at e
        obtain ⟨_, -, e⟩ := e
        rw [Run.bind_eq_done] at e
        obtain ⟨_, -, e⟩ := e
        rw [if_pos hany] at e
        cases e
      · exact ⟨s2, hmem, nfv, hn, hne⟩

theorem forRun_objShapeStep_exit_within (attrib : attrib_t F) :
    ∀ (shapes : List shape_t) (mesh : TriangleMesh F) (ci : Nat),
      (∃ s ∈ shapes, ∃ nfv ∈ s.mesh.num_face_vertices, nfv ≠ 3) →
      WithinMaxSize attrib shapes mesh →
      forRun (objShapeStep attrib) shapes (mesh, ci) = .exited 1 := by
  intro shapes
  induction shapes with
  | nil => intro mesh ci h; simp at h
  | cons s ss ih =>
    intro mesh ci h hb
    obtain ⟨⟨b1, b2, b3, b4⟩, hnext⟩ := WithinMaxSize_cons attrib s ss mesh hb
    rw [forRun]
    by_cases hs : s.mesh.num_face_vertices.any (fun nfv => nfv != 3) = true
    · rw [objShapeStep_within attrib mesh ci s b1 b2 b3 b4, if_pos hs]
      rfl
    · have htri : ∀ nfv ∈ s.mesh.num_face_vertices, nfv = 3 := by
        intro nfv hn
        by_contra hne
        apply hs
        rw [List.any_eq_true]
        exact ⟨nfv, hn, by simpa using hne⟩
      obtain ⟨st, hst, -, -, s3, s4, s5, -, -, s8⟩ :=
        objShapeStep_done attrib mesh ci s htri b1 b2 b3 b4
      rw [hst]
      simp only [Run.bind]
      obtain ⟨s2, hs2, nfv, hn, hne⟩ := h
      rcases List.mem_cons.1 hs2 with rfl | hmem
      · exact absurd (htri nfv hn) hne
      · exact ih st.1 st.2 ⟨s2, hmem, nfv, hn, hne⟩ (hnext st.1 s8 s3 s5 s4)

theorem ReadFromObj_exit_within (lm : LibM F) (filename : String)
    (parsed : LoadObjResult F) (mesh : TriangleMesh F)
    (h : ∃ s ∈ parsed.shapes, ∃ nfv ∈ s.mesh.num_face_vertices, nfv ≠ 3)
    (hb : WithinMaxSize parsed.attrib parsed.shapes mesh) :
    ReadFromObj lm filename parsed mesh = .exited 1 := by
  unfold ReadFromObj
  cases hret : parsed.ret
  · simp
  · simp only [Bool.not_true, Bool.false_eq_true, if_false]
    rw [forRun_objShapeStep_exit_within parsed.attrib parsed.shapes mesh 0 h hb]
    rfl

/-- Claim C22.  When some face of some shape of the parsed input has a corner
count other than 3, `ReadFromObj` does not come back to its caller, whatever
the shapes before that one hold: the process ends with `exit(1)`, or before
that test is reached a `resize` is left by `std::length_error`; when no array
is asked to grow beyond `max_size()` it is `exit(1)`. -/
theorem ReadFromObj_non_triangle_exits (lm : LibM F) (filename : String)
    (parsed : LoadObjResult F) (mesh : TriangleMesh F)
    (h : ∃ s ∈ parsed.shapes, ∃ nfv ∈ s.mesh.num_face_vertices, nfv ≠ 3) :
    (ReadFromObj lm filename parsed mesh = .exited 1
        ∨ ReadFromObj lm filename parsed mesh = .lengthError)
      ∧ (WithinMaxSize parsed.attrib parsed.shapes mesh →
          ReadFromObj lm filename parsed mesh = .exited 1) := by
  refine ⟨?_, ReadFromObj_exit_within lm filename parsed mesh h⟩
  unfold ReadFromObj
  cases hret : parsed.ret
  · simp
  · simp only [Bool.not_true, Bool.false_eq_true, if_false]
    rcases forRun_objShapeStep_exit parsed.attrib parsed.shapes (mesh, 0) h with e | e
    · rw [e]; exact Or.inl rfl
    · rw [e]; exact Or.inr rfl

/-- Claim C8, the code on every input.  When the parser reports failure
`ReadFromObj` ends the process with `exit(1)`.  On every input it either does
so, or is left by the `std::length_error` of a `resize`, or reaches the end of
its body, where no value is returned: it never returns `true` or `false` to its
caller.  When no array is asked to grow beyond `max_size()` it is one of the
first and the last. -/
theorem ReadFromObj_returns_no_value (lm : LibM F) (filename : String)
    (parsed : LoadObjResult F) (mesh : TriangleMesh F) :
    ReadFromObj lm filename { parsed with ret := false } mesh = .exited 1
      ∧ (ReadFromObj lm filename parsed mesh = .exited 1
          ∨ ReadFromObj lm filename parsed mesh = .lengthError
          ∨ ∃ m, ReadFromObj lm filename parsed mesh = .done (none, m))
      ∧ (WithinMaxSize parsed.attrib parsed.shapes mesh →
          ReadFromObj lm filename parsed mesh = .exited 1
            ∨ ∃ m, ReadFromObj lm filename parsed mesh = .done (none, m)) := by
  refine ⟨by simp [ReadFromObj], ?_, fun hb => ?_⟩
  · unfold ReadFromObj
    cases parsed.ret
    · exact Or.inl (by simp)
    · simp only [Bool.not_true, Bool.false_eq_true, if_false]
      rcases forRun_objShapeStep_outcome parsed.attrib parsed.shapes (mesh, 0)
        with h | h | ⟨st, h⟩
      · rw [h]; exact Or.inl rfl
      · rw [h]; exact Or.inr (Or.inl rfl)
      · rw [h]; exact Or.inr (Or.inr ⟨_, rfl⟩)
  · by_cases h : ∃ s ∈ parsed.shapes, ∃ nfv ∈ s.mesh.num_face_vertices, nfv ≠ 3
    · exact Or.inl (ReadFromObj_exit_within lm filename parsed mesh h hb)
    · cases hret : parsed.ret
      · left
        unfold ReadFromObj
        simp [hret]
      · right
        have htri : AllTriangles parsed.shapes := by
          intro s hs nfv hn
          by_contra hne
          exact h ⟨s, hs, nfv, hn, hne⟩
        obtain ⟨m, hm, -⟩ := ReadFromObj_all_triangles lm filename parsed mesh hret htri hb
        exact ⟨m, hm⟩

end

/-- Witness of `ReadFromObj_non_triangle_exits`: a shape with one triangle
followed by a shape with one face of four corners. -/
theorem ReadFromObj_non_triangle_exits_witness :
    ReadFromObj realLibM "quad.obj" objTriangleThenQuad (TriangleMesh.new realFloatFormat)
      = .exited 1 :=
  (ReadFromObj_non_triangle_exits realLibM "quad.obj" objTriangleThenQuad
    (TriangleMesh.new realFloatFormat)
    ⟨_, List.mem_cons_of_mem _ (List.mem_singleton.2 rfl), 4, List.mem_singleton.2 rfl,
      by decide⟩).2 (WithinMaxSize_new _ _ _ (by decide))

section
variable {F : Type} [LinearOrderedField F]

end


section
variable {F : Type} [LinearOrderedField F]

end

section
variable {F : Type} [LinearOrderedField F]

theorem texCoordStep_getElem? (lm : LibM F) (vs acc : List F) (i p : Nat)
    (hl : i * 2 + 1 < acc.length) :
    (texCoordStep lm vs acc i)[p]?
      = if p = i * 2 then some (sphericalTexCoord lm vs i 0)
        else if p = i * 2 + 1 then some (sphericalTexCoord lm vs i 1)
        else acc[p]? := by
  have e : texCoordStep lm vs acc i
      = (acc.set (i * 2) (sphericalTexCoord lm vs i 0)).set (i * 2 + 1)
          (sphericalTexCoord lm vs i 1) := rfl
  rw [e]
  simp only [List.getElem?_set, List.length_set]
  split_ifs <;> first | rfl | (exfalso; omega)

theorem foldl_texCoordStep_getElem? (lm : LibM F) (vs : List F) (n : Nat) (tc : List F)
    (hl : 2 * n ≤ tc.length) (p : Nat) :
    ((List.range n).foldl (texCoordStep lm vs) tc)[p]?
      = if p < 2 * n then some (sphericalTexCoord lm vs (p / 2) (p % 2)) else tc[p]? := by
  induction n with
  | zero => simp
  | succ n ih =>
    rw [List.range_succ, List.foldl_append]
    simp only [List.foldl_cons, List.foldl_nil]
    have hlen := length_foldl_texCoordStep lm vs (List.range n) tc
    rw [texCoordStep_getElem? lm vs _ n p (by rw [hlen]; omega), ih (by omega)]
    by_cases h2 : p = n * 2
    · have e1 : p / 2 = n := by omega
      have e2 : p % 2 = 0 := by omega
      rw [if_pos h2, if_pos (by omega), e1, e2]
    · by_cases h1 : p = n * 2 + 1
      · have e1 : p / 2 = n := by omega
        have e2 : p % 2 = 1 := by omega
        rw [if_neg h2, if_pos h1, if_pos (by omega), e1, e2]
      · rw [if_neg h2, if_neg h1]
        by_cases h3 : p < 2 * n
        · rw [if_pos h3, if_pos (by omega)]
        · rw [if_neg h3, if_neg (by omega)]

theorem ComputeTexCoords_getElem? (lm : LibM F) (vs tc : List F) (p : Nat) :
    (ComputeTexCoords lm vs tc)[p]?
      = if p < 2 * (vs.length / 3) then some (sphericalTexCoord lm vs (p / 2) (p % 2))
        else none := by
  unfold ComputeTexCoords
  simp only
  rw [foldl_texCoordStep_getElem? lm vs _ _ (by rw [length_resize]; omega)]
  by_cases h : p < 2 * (vs.length / 3)
  · rw [if_pos h, if_pos h]
  · rw [if_neg h, if_neg h]
    apply List.getElem?_eq_none
    rw [length_resize]
    omega

/-- Claim C24.  Whatever the output array held before, the output of
`ComputeTexCoords` has two entries per vertex, the entries of vertex `i` are the
values computed from the position of vertex `i`, the output equals the output
for an empty array, and computing again into the output gives the same array. -/
theorem ComputeTexCoords_pure (lm : LibM F) (vs tc : List F) :
    (ComputeTexCoords lm vs tc).length = 2 * (vs.length / 3)
      ∧ (∀ i a, i < vs.length / 3 → a < 2 →
          (ComputeTexCoords lm vs tc)[2 * i + a]? = some (sphericalTexCoord lm vs i a))
      ∧ ComputeTexCoords lm vs tc = ComputeTexCoords lm vs []
      ∧ ComputeTexCoords lm vs (ComputeTexCoords lm vs tc) = ComputeTexCoords lm vs tc := by
  refine ⟨by rw [length_ComputeTexCoords]; omega, ?_, ?_, ?_⟩
  · intro i a hi ha
    rw [ComputeTexCoords_getElem?, if_pos (by omega)]
    have e1 : (2 * i + a) / 2 = i := by omega
    have e2 : (2 * i + a) % 2 = a := by omega
    rw [e1, e2]
  · apply List.ext_getElem?
    intro p
    rw [ComputeTexCoords_getElem?, ComputeTexCoords_getElem?]
  · apply List.ext_getElem?
    intro p
    rw [ComputeTexCoords_getElem?, ComputeTexCoords_getElem?]

end


/-! ## The tests of the header loop -/

/-- Claim C25, the code at its input.  The line directly after `ply` is tested
for `element vertex` only: with `element face 1` on that line the face count
stays 0, while `element vertex 3` on that line is read; with `property float nx`
on that line normals are not marked as present, while on a later line they are. -/
theorem ReadPlyHeader_skips_second_line :
    (∃ line, ReadPlyHeader 20 ⟨⟨plyFaceLineSecond, true⟩, plainEnv.line0, 0, 0, false⟩
      = .done (true, ⟨⟨[], true⟩, line, 3, 0, false⟩))
    ∧ (∃ line, ReadPlyHeader 20 ⟨⟨plyVertexLineSecond, true⟩, plainEnv.line0, 0, 0, false⟩
      = .done (true, ⟨⟨[], true⟩, line, 3, 1, false⟩))
    ∧ (∃ line, ReadPlyHeader 20 ⟨⟨plyNormalLineSecond, true⟩, plainEnv.line0, 0, 0, false⟩
      = .done (true, ⟨⟨[], true⟩, line, 3, 1, false⟩))
    ∧ (∃ line, ReadPlyHeader 20 ⟨⟨normalsHeader, true⟩, plainEnv.line0, 0, 0, false⟩
      = .done (true, ⟨⟨[], true⟩, line, 3, 1, true⟩)) :=
  ⟨⟨_, rfl⟩, ⟨_, rfl⟩, ⟨_, rfl⟩, ⟨_, rfl⟩⟩


/-! ## The accumulated normals -/

section
variable {F : Type} [LinearOrderedField F]

theorem cornerTerm_eq_contribution (lm : LibM F) (vs : List F) (fs : List Int)
    (hr : InRange vs fs) (t j v k : Nat) (ht : 3 * t + 2 < fs.length) (hj : j < 3)
    (hk : k < 3) :
    cornerTerm lm vs fs (computeFaceNormals lm vs fs) (3 * t) j (3 * v + k)
      = cornerContribution lm vs fs t j v k := by
  unfold cornerTerm cornerContribution
  have d0 : (3 * v + k) / 3 = v := by omega
  have m0 : (3 * v + k) % 3 = k := by omega
  rw [d0, m0, computeFaceNormals_getD lm vs fs t k hk (by omega)]
  have hmem : fs.getD (3 * t + j) 0 ∈ fs := getD_mem_of_lt fs _ (by omega)
  have hnn := (hr.2 _ hmem).1
  by_cases hq : fs.getD (3 * t + j) 0 = (v : Int)
  · rw [if_pos hq, if_pos (by omega)]
    cases angleAt lm vs fs (3 * t) j <;> simp
  · rw [if_neg hq, if_neg (by omega)]

theorem accumulateNormals_contribution_sum (lm : LibM F) (vertices : List F)
    (faces : List Int) (hr : InRange vertices faces) (v k : Nat)
    (hv : v < vertices.length / 3) (hk : k < 3) :
    (accumulateNormals lm vertices faces []).getD (3 * v + k) 0
        = ((List.range (faces.length / 3)).map fun t =>
            cornerContribution lm vertices faces t 0 v k
              + cornerContribution lm vertices faces t 1 v k
              + cornerContribution lm vertices faces t 2 v k).sum := by
  rw [accumulateNormals_getD, getD_resize_nil, zero_add, if_pos (by omega)]
  unfold strideThree
  have hq : (faces.length + 2) / 3 = faces.length / 3 := by
    have := hr.1
    omega
  rw [hq, List.map_map]
  congr 1
  apply List.map_congr_left
  intro t ht
  have htl : 3 * t + 2 < faces.length := by
    have := List.mem_range.1 ht
    have := hr.1
    omega
  simp only [Function.comp]
  rw [cornerTerm_eq_contribution lm vertices faces hr t 0 v k htl (by decide) hk,
    cornerTerm_eq_contribution lm vertices faces hr t 1 v k htl (by decide) hk,
    cornerTerm_eq_contribution lm vertices faces hr t 2 v k htl (by decide) hk]

theorem vertexAt_eq_groupAt (vs : List F) (f : Int) (h : 0 ≤ f) :
    vertexAt vs f = groupAt vs f.toNat := by
  have e0 : (f * 3).toNat = 3 * f.toNat := by omega
  have e1 : (f * 3 + 1).toNat = 3 * f.toNat + 1 := by omega
  have e2 : (f * 3 + 2).toNat = 3 * f.toNat + 2 := by omega
  unfold vertexAt groupAt
  rw [e0, e1, e2]

theorem cornerAngle_eq_interiorAngle (lm : LibM F) (hcs : CosineInRange lm) (p q r : vec3 F) :
    cornerAngle lm (q.sub p) (r.sub p) = interiorAngle lm p q r := by
  unfold cornerAngle interiorAngle
  by_cases h : vec3.length lm (q.sub p) = 0 ∨ vec3.length lm (r.sub p) = 0
  · rw [if_pos h]
    simp only []
    rw [if_pos (mul_eq_zero.2 h)]
  · rw [if_neg h]
    rw [not_or] at h
    simp only []
    rw [if_neg (mul_ne_zero h.1 h.2)]
    obtain ⟨c1, c2⟩ := hcs _ _ h.1 h.2
    rw [if_neg]
    rintro (hlt | hlt)
    · exact absurd c1 (not_le.2 hlt)
    · exact absurd c2 (not_le.2 hlt)

theorem cornerContribution_eq_angleWeightedTerm (lm : LibM F) (hcs : CosineInRange lm)
    (vs : List F) (fs : List Int) (hr : InRange vs fs) (t j v k : Nat)
    (ht : 3 * t + 2 < fs.length) (hj : j < 3) :
    cornerContribution lm vs fs t j v k = angleWeightedTerm lm vs fs t j v k := by
  have hnn : ∀ i, i < 3 → 0 ≤ fs.getD (3 * t + i) 0 := by
    intro i hi
    exact (hr.2 _ (getD_mem_of_lt fs _ (by omega))).1
  have hm1 : (j + 1) % 3 < 3 := Nat.mod_lt _ (by decide)
  have hm2 : (j + 2) % 3 < 3 := Nat.mod_lt _ (by decide)
  have hang : angleAt lm vs fs (3 * t) j
      = interiorAngle lm (cornerPoint vs fs t j) (cornerPoint vs fs t ((j + 1) % 3))
          (cornerPoint vs fs t ((j + 2) % 3)) := by
    unfold angleAt cornerPoint
    simp only []
    rw [vertexAt_eq_groupAt _ _ (hnn j hj), vertexAt_eq_groupAt _ _ (hnn _ hm1),
      vertexAt_eq_groupAt _ _ (hnn _ hm2)]
    exact cornerAngle_eq_interiorAngle lm hcs _ _ _
  have hnor : storedFaceNormal lm vs fs (3 * t)
      = triangleNormal lm (cornerPoint vs fs t 0) (cornerPoint vs fs t 1)
          (cornerPoint vs fs t 2) := by
    unfold storedFaceNormal rawFaceNormal triangleNormal cornerPoint dropResult
    simp only []
    have h0 := hnn 0 (by decide)
    rw [Nat.add_zero] at h0
    rw [vertexAt_eq_groupAt _ _ h0, vertexAt_eq_groupAt _ _ (hnn 1 (by decide)),
      vertexAt_eq_groupAt _ _ (hnn 2 (by decide))]
    rfl
  unfold cornerContribution angleWeightedTerm
  rw [hang, hnor]
  by_cases hq : fs.getD (3 * t + j) 0 = (v : Int)
  · rw [if_pos hq, if_pos hq]
    cases interiorAngle lm (cornerPoint vs fs t j) (cornerPoint vs fs t ((j + 1) % 3))
        (cornerPoint vs fs t ((j + 2) % 3)) with
    | none => simp
    | some a => simp [mul_comm]
  · rw [if_neg hq, if_neg hq]

/-- Claim C27.  For in-range indices, an empty normals array and a `sqrt` for
which the quotient handed to `acos` stays in `[-1, 1]`, component `k` of what
`ComputeVertexNormals` has accumulated for vertex `v` before its last loop is
the sum, over the triangles `t` and their corners `j` with index `v`, of the
interior angle of `t` at that corner (the arccosine of the dot product of the
two edges leaving the corner, divided by the product of their lengths) times
component `k` of the face normal of `t` (the cross product of `v2 - v1` and
`v3 - v1`, or the zero vector when its length is below `0.00001`); a corner
with an edge of length zero adds nothing, and a vertex that is the index of no
corner accumulates 0. -/
theorem accumulateNormals_angle_weighted_sum (lm : LibM F) (hcs : CosineInRange lm)
    (vertices : List F) (faces : List Int) (hr : InRange vertices faces) (v k : Nat)
    (hv : v < vertices.length / 3) (hk : k < 3) :
    (accumulateNormals lm vertices faces []).getD (3 * v + k) 0
        = ((List.range (faces.length / 3)).map fun t =>
            angleWeightedTerm lm vertices faces t 0 v k
              + angleWeightedTerm lm vertices faces t 1 v k
              + angleWeightedTerm lm vertices faces t 2 v k).sum
      ∧ ((∀ t j, t < faces.length / 3 → j < 3 → faces.getD (3 * t + j) 0 ≠ (v : Int)) →
          (accumulateNormals lm vertices faces []).getD (3 * v + k) 0 = 0) := by
  have hsum : (accumulateNormals lm vertices faces []).getD (3 * v + k) 0
      = ((List.range (faces.length / 3)).map fun t =>
          angleWeightedTerm lm vertices faces t 0 v k
            + angleWeightedTerm lm vertices faces t 1 v k
            + angleWeightedTerm lm vertices faces t 2 v k).sum := by
    rw [accumulateNormals_contribution_sum lm vertices faces hr v k hv hk]
    congr 1
    apply List.map_congr_left
    intro t ht
    have htl : 3 * t + 2 < faces.length := by
      have := List.mem_range.1 ht
      have := hr.1
      omega
    rw [cornerContribution_eq_angleWeightedTerm lm hcs vertices faces hr t 0 v k htl (by decide),
      cornerContribution_eq_angleWeightedTerm lm hcs vertices faces hr t 1 v k htl (by decide),
      cornerContribution_eq_angleWeightedTerm lm hcs vertices faces hr t 2 v k htl (by decide)]
  refine ⟨hsum, fun hno => ?_⟩
  rw [hsum]
  apply List.sum_eq_zero
  intro x hx
  obtain ⟨t, ht, rfl⟩ := List.mem_map.1 hx
  have htl := List.mem_range.1 ht
  unfold angleWeightedTerm
  rw [if_neg (hno t 0 htl (by decide)), if_neg (hno t 1 htl (by decide)),
    if_neg (hno t 2 htl (by decide))]
  simp

end

theorem inRange_rightTriangle : InRange rightTriangle [0, 1, 2] :=
  ⟨by decide, by
    intro f hf
    simp at hf
    rcases hf with rfl | rfl | rfl <;> simp [rightTriangle]⟩

theorem cosineInRange_real : CosineInRange realLibM := by
  intro a b ha hb
  have hA : 0 ≤ vec3.dot a a := by
    unfold vec3.dot
    nlinarith [mul_self_nonneg a.x, mul_self_nonneg a.y, mul_self_nonneg a.z]
  have hB : 0 ≤ vec3.dot b b := by
    unfold vec3.dot
    nlinarith [mul_self_nonneg b.x, mul_self_nonneg b.y, mul_self_nonneg b.z]
  have hsq : vec3.dot a b ^ 2 ≤ vec3.dot a a * vec3.dot b b := by
    unfold vec3.dot
    nlinarith [mul_self_nonneg (a.x * b.y - a.y * b.x), mul_self_nonneg (a.x * b.z - a.z * b.x),
      mul_self_nonneg (a.y * b.z - a.z * b.y)]
  have habs : |vec3.dot a b| ≤ Real.sqrt (vec3.dot a a) * Real.sqrt (vec3.dot b b) := by
    rw [← Real.sqrt_mul hA]
    exact Real.abs_le_sqrt hsq
  have hla : vec3.length realLibM a = Real.sqrt (vec3.dot a a) := rfl
  have hlb : vec3.length realLibM b = Real.sqrt (vec3.dot b b) := rfl
  rw [hla] at ha ⊢
  rw [hlb] at hb ⊢
  have hpa : 0 < Real.sqrt (vec3.dot a a) := lt_of_le_of_ne (Real.sqrt_nonneg _) (Ne.symm ha)
  have hpb : 0 < Real.sqrt (vec3.dot b b) := lt_of_le_of_ne (Real.sqrt_nonneg _) (Ne.symm hb)
  have hd : 0 < Real.sqrt (vec3.dot a a) * Real.sqrt (vec3.dot b b) := mul_pos hpa hpb
  obtain ⟨h1, h2⟩ := abs_le.1 habs
  constructor
  · rw [le_div_iff₀ hd]
    linarith
  · rw [div_le_one hd]
    exact h2

theorem angleWeightedSum_rightTriangle :
    ((List.range (([0, 1, 2] : List Int).length / 3)).map fun t =>
        angleWeightedTerm realLibM rightTriangle [0, 1, 2] t 0 1 2
          + angleWeightedTerm realLibM rightTriangle [0, 1, 2] t 1 1 2
          + angleWeightedTerm realLibM rightTriangle [0, 1, 2] t 2 1 2).sum = Real.pi / 4 := by
  have hr : List.range (([0, 1, 2] : List Int).length / 3) = [0] := by decide
  rw [hr]
  simp [angleWeightedTerm, interiorAngle, triangleNormal, cornerPoint, groupAt, rightTriangle,
    vec3.sub, vec3.cross, vec3.length, vec3.dot, vec3.get, vec3.zero, realLibM]
  rw [if_neg (by norm_num), inv_sqrt_two_facts.2]
  simp

/-- Witness of `accumulateNormals_angle_weighted_sum`: for vertex 1 of the
triangle `(0,0,0)`, `(1,0,0)`, `(0,1,0)`, whose angle is a quarter of `π` and
whose face normal is `(0,0,1)`, the third component accumulated is `π / 4`. -/
theorem accumulateNormals_angle_weighted_sum_witness :
    (accumulateNormals realLibM rightTriangle [0, 1, 2] []).getD (3 * 1 + 2) 0 = Real.pi / 4 :=
  (accumulateNormals_angle_weighted_sum realLibM cosineInRange_real rightTriangle [0, 1, 2]
    inRange_rightTriangle 1 2 (by simp [rightTriangle]) (by decide)).1.trans
    angleWeightedSum_rightTriangle


/-! ## The body of a PLY file in the record -/

section
variable {F : Type} [LinearOrderedField F]

theorem readVertexStep_good (ff : FloatFormat F) (env : Env) (hn : Bool) (bs : List Nat)
    (m : TriangleMesh F) (i : Nat) (h : vertexRecordSize hn ≤ bs.length) :
    readVertexStep ff env hn (⟨bs, true⟩, m) i
      = (⟨bs.drop (vertexRecordSize hn), true⟩,
        { m with
          vertices_ := Add3Items (vertexFloat ff bs (vertexRecordSize hn) 0 0)
            (vertexFloat ff bs (vertexRecordSize hn) 0 1)
            (vertexFloat ff bs (vertexRecordSize hn) 0 2) (i * 3) m.vertices_,
          normals_ :=
            if hn then
              Add3Items (vertexFloat ff bs (vertexRecordSize hn) 0 3)
                (vertexFloat ff bs (vertexRecordSize hn) 0 4)
                (vertexFloat ff bs (vertexRecordSize hn) 0 5) (i * 3) m.normals_
            else m.normals_ }) := by
  unfold vertexRecordSize at h ⊢
  unfold readVertexStep vertexFloat
  cases hn
  · simp only [Bool.false_eq_true, if_false] at h ⊢
    rw [read_good _ _ _ (by omega)]
    simp only
    rw [read_good _ _ _ (by simp; omega)]
    simp only
    rw [read_good _ _ _ (by simp; omega)]
    simp [List.drop_drop]
  · simp only [if_true] at h ⊢
    rw [read_good _ _ _ (by omega)]
    simp only
    rw [read_good _ _ _ (by simp; omega)]
    simp only
    rw [read_good _ _ _ (by simp; omega)]
    simp only
    rw [read_good _ _ _ (by simp; omega)]
    simp only
    rw [read_good _ _ _ (by simp; omega)]
    simp only
    rw [read_good _ _ _ (by simp; omega)]
    simp [List.drop_drop]

theorem vertexFloat_drop (ff : FloatFormat F) (bs : List Nat) (size i a : Nat) :
    vertexFloat ff (bs.drop size) size i a = vertexFloat ff bs size (i + 1) a := by
  unfold vertexFloat
  rw [List.drop_drop]
  have e : size + (size * i + 4 * a) = size * (i + 1) + 4 * a := by
    rw [Nat.mul_succ]; omega
  rw [e]

theorem foldl_readVertexStep_content (ff : FloatFormat F) (env : Env) (hn : Bool) :
    ∀ (n s : Nat) (bs : List Nat) (m : TriangleMesh F),
      vertexRecordSize hn * n ≤ bs.length →
      3 * (s + n) ≤ m.vertices_.length →
      (hn = true → 3 * (s + n) ≤ m.normals_.length) →
      (∀ p, p < 3 * s →
        ((List.range' s n).foldl (readVertexStep ff env hn) (⟨bs, true⟩, m)).2.vertices_[p]?
          = m.vertices_[p]?)
      ∧ (∀ i a, i < n → a < 3 →
        ((List.range' s n).foldl (readVertexStep ff env hn)
            (⟨bs, true⟩, m)).2.vertices_[3 * (s + i) + a]?
          = some (vertexFloat ff bs (vertexRecordSize hn) i a))
      ∧ (hn = true →
        (∀ p, p < 3 * s →
          ((List.range' s n).foldl (readVertexStep ff env hn) (⟨bs, true⟩, m)).2.normals_[p]?
            = m.normals_[p]?)
        ∧ ∀ i a, i < n → a < 3 →
          ((List.range' s n).foldl (readVertexStep ff env hn)
              (⟨bs, true⟩, m)).2.normals_[3 * (s + i) + a]?
            = some (vertexFloat ff bs (vertexRecordSize hn) i (a + 3)))
      ∧ (hn = false →
        ((List.range' s n).foldl (readVertexStep ff env hn) (⟨bs, true⟩, m)).2.normals_
          = m.normals_) := by
  intro n
  induction n with
  | zero =>
    intro s bs m _ _ _
    exact ⟨fun _ _ => rfl, fun i a hi => by omega, fun _ => ⟨fun _ _ => rfl,
      fun i a hi => by omega⟩, fun _ => rfl⟩
  | succ n ih =>
    intro s bs m hlen hv hnl
    rw [Nat.mul_succ] at hlen
    rw [List.range'_succ, List.foldl_cons, readVertexStep_good ff env hn bs m s (by omega)]
    obtain ⟨i1, i2, i3, i4⟩ := ih (s + 1) (bs.drop (vertexRecordSize hn))
      { m with
        vertices_ := Add3Items (vertexFloat ff bs (vertexRecordSize hn) 0 0)
          (vertexFloat ff bs (vertexRecordSize hn) 0 1)
          (vertexFloat ff bs (vertexRecordSize hn) 0 2) (s * 3) m.vertices_,
        normals_ :=
          if hn then
            Add3Items (vertexFloat ff bs (vertexRecordSize hn) 0 3)
              (vertexFloat ff bs (vertexRecordSize hn) 0 4)
              (vertexFloat ff bs (vertexRecordSize hn) 0 5) (s * 3) m.normals_
          else m.normals_ }
      (by simp; omega) (by simp only [length_Add3Items]; omega)
      (fun h => by
        have := hnl h
        simp only [h, if_true, length_Add3Items]; omega)
    refine ⟨?_, ?_, ?_, ?_⟩
    · intro p hp
      rw [i1 p (by omega)]
      simp only
      rw [getElem?_Add3Items _ _ _ _ _ _ (by omega)]
      rw [if_neg (by omega), if_neg (by omega), if_neg (by omega)]
    · intro i a hi ha
      rcases Nat.eq_zero_or_pos i with rfl | hpos
      · rw [i1 _ (by omega)]
        simp only
        rw [getElem?_Add3Items _ _ _ _ _ _ (by omega)]
        have h3 : a = 0 ∨ a = 1 ∨ a = 2 := by omega
        rcases h3 with rfl | rfl | rfl
        · rw [if_pos (by omega)]
        · rw [if_neg (by omega), if_pos (by omega)]
        · rw [if_neg (by omega), if_neg (by omega), if_pos (by omega)]
      · have := i2 (i - 1) a (by omega) ha
        rw [show 3 * (s + 1 + (i - 1)) + a = 3 * (s + i) + a by omega] at this
        rw [this, vertexFloat_drop, show i - 1 + 1 = i by omega]
    · intro h
      obtain ⟨j1, j2⟩ := i3 h
      have hl := hnl h
      subst h
      refine ⟨?_, ?_⟩
      · intro p hp
        rw [j1 p (by omega)]
        simp only [if_true]
        rw [getElem?_Add3Items _ _ _ _ _ _ (by omega)]
        rw [if_neg (by omega), if_neg (by omega), if_neg (by omega)]
      · intro i a hi ha
        rcases Nat.eq_zero_or_pos i with rfl | hpos
        · rw [j1 _ (by omega)]
          simp only [if_true]
          rw [getElem?_Add3Items _ _ _ _ _ _ (by omega)]
          have h3 : a = 0 ∨ a = 1 ∨ a = 2 := by omega
          rcases h3 with rfl | rfl | rfl
          · rw [if_pos (by omega)]
          · rw [if_neg (by omega), if_pos (by omega)]
          · rw [if_neg (by omega), if_neg (by omega), if_pos (by omega)]
        · have := j2 (i - 1) a (by omega) ha
          rw [show 3 * (s + 1 + (i - 1)) + a = 3 * (s + i) + a by omega] at this
          rw [this, vertexFloat_drop, show i - 1 + 1 = i by omega]
    · intro h
      rw [i4 h]
      subst h
      rfl

theorem loadPlyBody_stage (lm : LibM F) (ff : FloatFormat F) (env : Env) (hn : Bool)
    (vertices faces : Int) (fin : ifstream) (mesh : TriangleMesh F)
    (hv : IsInt32 vertices) (hf : IsInt32 faces) (hv0 : 0 ≤ vertices) (hf0 : 0 ≤ faces) :
    ∃ m1 : TriangleMesh F, m1.vertices_.length = 3 * vertices.toNat
      ∧ (hn = true → m1.normals_.length = 3 * vertices.toNat)
      ∧ loadPlyBody lm ff env hn vertices faces fin mesh
        = (ReadPlyFaces env (ReadPlyVertices ff env hn fin m1).1
            { (ReadPlyVertices ff env hn fin m1).2 with
              faces_ := resize mesh.faces_ (3 * faces.toNat) 0 }).bind fun rf =>
          .done (ComputeBoundingBox rf.2.vertices_
            { rf.2 with
              normals_ := if hn then rf.2.normals_
                else ComputeVertexNormals lm rf.2.vertices_ rf.2.faces_ rf.2.normals_,
              texCoords_ := ComputeTexCoords lm rf.2.vertices_ rf.2.texCoords_ }) := by
  refine ⟨{ mesh with
      vertices_ := resize mesh.vertices_ (3 * vertices.toNat) 0,
      normals_ := if hn then resize mesh.normals_ (3 * vertices.toNat) 0 else mesh.normals_ },
    by simp [length_resize], fun h => by simp [h, length_resize], ?_⟩
  unfold loadPlyBody
  rw [resizeTimes3_nonneg _ _ _ hv hv0]
  have hns : (if hn = true then resizeTimes3 mesh.normals_ vertices (0 : F)
      else .done mesh.normals_) = .done (if hn = true then resize mesh.normals_
        (3 * vertices.toNat) 0 else mesh.normals_) := by
    cases hn
    · rfl
    · simp only [if_true]; exact resizeTimes3_nonneg _ _ _ hv hv0
  rw [hns]
  simp only [Run.bind]
  rw [resizeTimes3_nonneg _ _ _ hf hf0]
  simp only [Run.bind]
  rw [(ReadPlyVertices_lengths ff env hn fin _).2.2.1]
  cases hn <;> rfl

theorem loadPlyBody_content (lm : LibM F) (ff : FloatFormat F) (env : Env) (hn : Bool)
    (vertices faces : Int) (bs : List Nat) (mesh : TriangleMesh F)
    (hv : IsInt32 vertices) (hf : IsInt32 faces) (hv0 : 0 ≤ vertices) (hf0 : 0 ≤ faces)
    (hlen : vertexRecordSize hn * vertices.toNat + 13 * faces.toNat ≤ bs.length)
    (hok : env.ndebug = true ∨ ∀ i, i < faces.toNat →
      bs[vertexRecordSize hn * vertices.toNat + 13 * i]? = some 3) :
    ∃ m, loadPlyBody lm ff env hn vertices faces ⟨bs, true⟩ mesh = .done m
      ∧ (∀ i a, i < vertices.toNat → a < 3 →
          m.vertices_[3 * i + a]? = some (vertexFloat ff bs (vertexRecordSize hn) i a))
      ∧ (hn = true → ∀ i a, i < vertices.toNat → a < 3 →
          m.normals_[3 * i + a]? = some (vertexFloat ff bs (vertexRecordSize hn) i (a + 3)))
      ∧ ∀ i j, i < faces.toNat → j < 3 →
          m.faces_[3 * i + j]?
            = some (faceIndex (bs.drop (vertexRecordSize hn * vertices.toNat)) i j) := by
  obtain ⟨m1, hm1, hm1n, he⟩ :=
    loadPlyBody_stage lm ff env hn vertices faces ⟨bs, true⟩ mesh hv hf hv0 hf0
  have hq : m1.vertices_.length / 3 = vertices.toNat := by omega
  have hs := ReadPlyVertices_stream ff env hn bs m1 (by rw [hq]; omega)
  rw [hq] at hs
  obtain ⟨-, c2, c3, -⟩ := foldl_readVertexStep_content ff env hn vertices.toNat 0 bs m1
    (by omega) (by omega) (fun h => by have := hm1n h; omega)
  have hfold : (List.range' 0 vertices.toNat).foldl (readVertexStep ff env hn) (⟨bs, true⟩, m1)
      = ReadPlyVertices ff env hn ⟨bs, true⟩ m1 := by
    unfold ReadPlyVertices
    simp only [hq, List.range_eq_range']
  rw [hfold] at c2 c3
  obtain ⟨fs, hrun, hfl, hval⟩ := ReadPlyFaces_done env
    (bs.drop (vertexRecordSize hn * vertices.toNat))
    { (ReadPlyVertices ff env hn ⟨bs, true⟩ m1).2 with
      faces_ := resize mesh.faces_ (3 * faces.toNat) 0 }
    faces.toNat (by simp [length_resize]) (by simp; omega)
    (by
      rcases hok with h | h
      · exact Or.inl h
      · right
        intro i hi
        rw [List.getElem?_drop]
        exact h i hi)
  rw [hs, hrun] at he
  simp only [Run.bind] at he
  refine ⟨_, he, ?_, ?_, ?_⟩
  · intro i a hi ha
    rw [(ComputeBoundingBox_fields _ _).1]
    have := c2 i a hi ha
    rw [Nat.zero_add] at this
    exact this
  · intro h i a hi ha
    rw [(ComputeBoundingBox_fields _ _).2.2.1]
    have := (c3 h).2 i a hi ha
    rw [Nat.zero_add] at this
    rw [← this]
    simp only [h, if_true]
  · rw [(ComputeBoundingBox_fields _ _).2.1]
    exact hval

/-- When the header is accepted, the stream is `good()`, the body holds all
the records counted by the header scan and the count bytes are 3 (or `assert`
is compiled out), `ReadFromPly` returns `true`; the entries `3i`, `3i+1`, `3i+2`
of the positions are the first three floats of vertex record `i`, the size of a
record being set by the global `hasNormals` after the scan; when that global is
set the same entries of the normals are the next three floats of that record;
and the entries `3f`, `3f+1`, `3f+2` of the index array are the three indices
of face record `f` in their order in the file. -/
theorem ReadFromPly_reproduces_body (lm : LibM F) (ff : FloatFormat F) (env : Env)
    (fuel : Nat) (bytes : List Nat) (mesh : TriangleMesh F) (hasNormals : Bool) (hd : PlyHeader)
    (hh : ReadPlyHeader fuel ⟨⟨bytes, true⟩, env.line0, 0, 0, hasNormals⟩ = .done (true, hd))
    (hg : hd.fin.good = true) (hf0 : 0 ≤ hd.faces)
    (hlen : vertexRecordSize hd.hasNormals * hd.vertices.toNat + 13 * hd.faces.toNat
      ≤ hd.fin.bytes.length)
    (hok : env.ndebug = true ∨ ∀ i, i < hd.faces.toNat →
      hd.fin.bytes[vertexRecordSize hd.hasNormals * hd.vertices.toNat + 13 * i]? = some 3) :
    ∃ m, ReadFromPly lm ff env fuel (some bytes) mesh hasNormals
        = .done (true, m, hd.hasNormals)
      ∧ (∀ i a, i < hd.vertices.toNat → a < 3 →
          m.vertices_[3 * i + a]?
            = some (vertexFloat ff hd.fin.bytes (vertexRecordSize hd.hasNormals) i a))
      ∧ (hd.hasNormals = true → ∀ i a, i < hd.vertices.toNat → a < 3 →
          m.normals_[3 * i + a]?
            = some (vertexFloat ff hd.fin.bytes (vertexRecordSize hd.hasNormals) i (a + 3)))
      ∧ ∀ i j, i < hd.faces.toNat → j < 3 →
          m.faces_[3 * i + j]? = some (faceIndex
            (hd.fin.bytes.drop (vertexRecordSize hd.hasNormals * hd.vertices.toNat)) i j) := by
  have hr := ReadPlyHeader_isInt32 fuel _ _ _ hh (by simp [IsInt32]) (by simp [IsInt32])
  have hpos := ReadPlyHeader_true_pos fuel _ _ hh
  obtain ⟨bs, g, hfin⟩ : ∃ bs g, hd.fin = ⟨bs, g⟩ := ⟨_, _, rfl⟩
  rw [hfin] at hg hlen hok ⊢
  simp only at hg hlen hok ⊢
  subst hg
  obtain ⟨m, hm, h1, h2, h3⟩ := loadPlyBody_content lm ff env hd.hasNormals hd.vertices
    hd.faces bs mesh hr.1 hr.2 (by omega) hf0 hlen hok
  refine ⟨m, ?_, h1, h2, h3⟩
  rw [ReadFromPly_of_header lm ff env fuel bytes mesh hasNormals hd hh, hfin, hm]
  rfl

end

/-- Witness of `ReadFromPly_reproduces_body`: the file `normalsPly`, whose
second vertex is `(1,0,0)` with the normal `(0,0,1)`. -/
theorem ReadFromPly_reproduces_body_witness :
    ∃ m, ReadFromPly realLibM realFloatFormat plainEnv 20 (some normalsPly)
        (TriangleMesh.new realFloatFormat) false = .done (true, m, true)
      ∧ m.vertices_[3 * 1 + 0]? = some (realFloatFormat.ofBits (le32 [0, 0, 128, 63]))
      ∧ m.normals_[3 * 1 + 2]? = some (realFloatFormat.ofBits (le32 [0, 0, 128, 63]))
      ∧ m.faces_[3 * 0 + 2]? = some 2 := by
  obtain ⟨m, hm, h1, h2, h3⟩ := ReadFromPly_reproduces_body realLibM realFloatFormat plainEnv 20
    normalsPly (TriangleMesh.new realFloatFormat) false _ rfl rfl (by decide) (by decide)
    (Or.inr (by decide))
  exact ⟨m, hm, h1 1 0 (by decide) (by decide), h2 rfl 1 2 (by decide) (by decide),
    h3 0 2 (by decide) (by decide)⟩


/-- Claim C26, the code at its input.  The header of `paddedTrianglePly`
declares three vertices without normals and one face, and its body starts with
the vertex records `(0,0,0)`, `(1,0,0)`, `(0,1,0)`.  Loaded with the global
`hasNormals` unset, the entries 3, 4, 5 of the positions are record 1 of the
file, `(1,0,0)`.  Loaded with the global set, as the load of a file with normals
leaves it, `ReadFromPly` returns `true` as well, but reads 24 bytes per vertex:
the entries 3, 4, 5 of the positions are `(0,1,0)`, which is record 2 of the
file, and the global is still set.  The file `trianglePly`, which ends with
its face record, is not loaded at all with the global set: the stream ends
inside the vertex block and the assertion of `ReadPlyFaces` fails. -/
theorem ReadFromPly_body_after_normals_file :
    (∃ m, ReadFromPly realLibM realFloatFormat plainEnv 20 (some paddedTrianglePly)
        (TriangleMesh.new realFloatFormat) false = .done (true, m, false)
      ∧ m.vertices_[3]? = some 1 ∧ m.vertices_[4]? = some 0 ∧ m.vertices_[5]? = some 0)
    ∧ (∃ m, ReadFromPly realLibM realFloatFormat plainEnv 20 (some paddedTrianglePly)
        (TriangleMesh.new realFloatFormat) true = .done (true, m, true)
      ∧ m.vertices_[3]? = some 0 ∧ m.vertices_[4]? = some 1 ∧ m.vertices_[5]? = some 0)
    ∧ ReadFromPly realLibM realFloatFormat plainEnv 20 (some trianglePly)
        (TriangleMesh.new realFloatFormat) true = .assertFailed := by
  have z : le32 [0, 0, 0, 0] = 0 := by decide
  have o : le32 [0, 0, 128, 63] = 1065353216 := by decide
  refine ⟨?_, ?_, ?_⟩
  · obtain ⟨m, hm, h1, -, -⟩ := ReadFromPly_reproduces_body realLibM realFloatFormat plainEnv 20
      paddedTrianglePly (TriangleMesh.new realFloatFormat) false _ rfl rfl (by decide)
      (by decide) (Or.inr (by decide))
    refine ⟨m, hm, ?_, ?_, ?_⟩
    · have := h1 1 0 (by decide) (by decide)
      rw [this]
      show some (realFloatFormat.ofBits (le32 [0, 0, 128, 63])) = some 1
      rw [o, binary32_one]
    · have := h1 1 1 (by decide) (by decide)
      rw [this]
      show some (realFloatFormat.ofBits (le32 [0, 0, 0, 0])) = some 0
      rw [z, binary32_zero]
    · have := h1 1 2 (by decide) (by decide)
      rw [this]
      show some (realFloatFormat.ofBits (le32 [0, 0, 0, 0])) = some 0
      rw [z, binary32_zero]
  · obtain ⟨m, hm, h1, -, -⟩ := ReadFromPly_reproduces_body realLibM realFloatFormat plainEnv 20
      paddedTrianglePly (TriangleMesh.new realFloatFormat) true _ rfl rfl (by decide)
      (by decide) (Or.inr (by decide))
    refine ⟨m, hm, ?_, ?_, ?_⟩
    · have := h1 1 0 (by decide) (by decide)
      rw [this]
      show some (realFloatFormat.ofBits (le32 [0, 0, 0, 0])) = some 0
      rw [z, binary32_zero]
    · have := h1 1 1 (by decide) (by decide)
      rw [this]
      show some (realFloatFormat.ofBits (le32 [0, 0, 128, 63])) = some 1
      rw [o, binary32_one]
    · have := h1 1 2 (by decide) (by decide)
      rw [this]
      show some (realFloatFormat.ofBits (le32 [0, 0, 0, 0])) = some 0
      rw [z, binary32_zero]
  · have hh : ∃ line, ReadPlyHeader 20 ⟨⟨trianglePly, true⟩, plainEnv.line0, 0, 0, true⟩
        = .done (true, ⟨⟨triangleBody, true⟩, line, 3, 1, true⟩) := ⟨_, rfl⟩
    obtain ⟨line, hh⟩ := hh
    rw [ReadFromPly_of_header _ _ _ _ _ _ _ _ hh]
    simp only
    rw [loadPlyBody_triangleBody_as_normals]
    rfl

/-! ## The widget -/

section
variable {F : Type} [LinearOrderedField F]

end

end data_representation
